import Mathlib

/-!
# ARM signal handling (`dlls/ntdll/unix/signal_arm.c`)

A shallow embedding of the ARM signal-handling routines: the context
translator (`save_context` / `restore_context`), the fault classifier
(`get_trap_code`, `segv_handler` and friends), the exception bridge
(`setup_exception`), the callback frame stack (`KeUserModeCallback`,
`NtCallbackReturn`) and the system-call dispatcher.

Conventions of the embedding

* machine words are natural numbers; 32-bit wrap-around is written `% 2^32`
  wherever the C or assembly code can overflow;
* pointers are addresses (`Nat`), `NULL` is `0`;
* raw memory that the code scans byte-wise (the `uc_regspace` extension chain,
  the instruction at the faulting pc) is a byte-addressed `Mem`;
* C structures that are only accessed through their fields are Lean structures;
* the words of the host context's `uc_mcontext` are fields of `ucontext_t`, read and
  assigned as such; in memory they lie 212 bytes below `uc_regspace`, and a
  handler is entered with a memory that holds them there.  `restore_context`,
  whose `restore_fpu` writes through a pointer that can alias these words, writes
  the registers to memory first (`ucontext_t.store`) and reads the host context
  back afterwards (`ucontext_t.load`); where a function only assigns registers,
  its result gives them as fields and leaves the memory as it was;
* loops that need not terminate on corrupt input take a fuel argument and
  return `none` when the fuel runs out.
-/

namespace SignalArm

/-! ## Byte-addressed memory (little endian, 32-bit address space) -/

/-- Byte-addressed memory: the cell at `a` holds the byte stored at address `a`. -/
abbrev Mem := Nat → Nat

/-- Load one byte; addresses wrap at 2^32. -/
def ld8 (m : Mem) (a : Nat) : Nat := m (a % 2 ^ 32) % 256

/-- Store one byte; addresses wrap at 2^32. -/
def st8 (m : Mem) (a v : Nat) : Mem := fun x => if x = a % 2 ^ 32 then v % 256 else m x

/-- Load `n` bytes starting at `a` as a little-endian number. -/
def ldN (m : Mem) : Nat → Nat → Nat
  | 0, _ => 0
  | n + 1, a => ld8 m a + 256 * ldN m n (a + 1)

/-- Store the `n` low bytes of `v` starting at `a`, little endian. -/
def stN : Nat → Mem → Nat → Nat → Mem
  | 0, m, _, _ => m
  | n + 1, m, a, v => stN n (st8 m a v) (a + 1) (v / 256)

/-- Load a 16-bit halfword (`WORD`). -/
def ld16 (m : Mem) (a : Nat) : Nat := ldN m 2 a

/-- Load a 32-bit word (`unsigned long`, `DWORD`). -/
def ld32 (m : Mem) (a : Nat) : Nat := ldN m 4 a

/-- Load a 64-bit doubleword (`unsigned long long`). -/
def ld64 (m : Mem) (a : Nat) : Nat := ldN m 8 a

/-- Store a 32-bit word. -/
def st32 (m : Mem) (a v : Nat) : Mem := stN 4 m a v

/-- Store a 64-bit doubleword. -/
def st64 (m : Mem) (a v : Nat) : Mem := stN 8 m a v

/-! ## Constants of the Windows and host headers used by the source -/

/-- The `CONTEXT_ARM` architecture tag of `winnt.h`. -/
def CONTEXT_ARM : Nat := 0x200000
/-- The control group: `CONTEXT_ARM | 1`. -/
def CONTEXT_CONTROL : Nat := 0x200001
/-- The integer group: `CONTEXT_ARM | 2`. -/
def CONTEXT_INTEGER : Nat := 0x200002
/-- The floating-point group: `CONTEXT_ARM | 4`. -/
def CONTEXT_FLOATING_POINT : Nat := 0x200004
/-- All three groups: `CONTEXT_CONTROL | CONTEXT_INTEGER | CONTEXT_FLOATING_POINT`. -/
def CONTEXT_FULL : Nat := 0x200007
/-- Flag set by the unwinder on a context that was unwound to a call site. -/
def CONTEXT_UNWOUND_TO_CALL : Nat := 0x20000000

/-- Magic number of the VFP record in `uc_regspace` (literal in `save_fpu`). -/
def VFP_MAGIC : Nat := 0x56465001

/-- Number of bytes of `uc_regspace` (`unsigned long uc_regspace[128]`), the last
member of `ucontext_t`. -/
def UC_REGSPACE_SIZE : Nat := 512

/-! ## Data model -/

/-- The guest `CONTEXT` for ARM (`winnt.h`): flags, R0-R12, Sp, Lr, Pc, Cpsr, Fpscr
and the 32 doubleword registers `u.D`. -/
structure CONTEXT where
  ContextFlags : Nat
  R0 : Nat
  R1 : Nat
  R2 : Nat
  R3 : Nat
  R4 : Nat
  R5 : Nat
  R6 : Nat
  R7 : Nat
  R8 : Nat
  R9 : Nat
  R10 : Nat
  R11 : Nat
  R12 : Nat
  Sp : Nat
  Lr : Nat
  Pc : Nat
  Cpsr : Nat
  Fpscr : Nat
  D : Fin 32 → Nat

/-- A `CONTEXT` is well formed when every `DWORD` field fits in 32 bits and every
`ULONGLONG` register fits in 64 bits. -/
def CONTEXT.WellFormed (c : CONTEXT) : Prop :=
  c.ContextFlags < 2 ^ 32 ∧
  c.R0 < 2 ^ 32 ∧ c.R1 < 2 ^ 32 ∧ c.R2 < 2 ^ 32 ∧ c.R3 < 2 ^ 32 ∧ c.R4 < 2 ^ 32 ∧
  c.R5 < 2 ^ 32 ∧ c.R6 < 2 ^ 32 ∧ c.R7 < 2 ^ 32 ∧ c.R8 < 2 ^ 32 ∧ c.R9 < 2 ^ 32 ∧
  c.R10 < 2 ^ 32 ∧ c.R11 < 2 ^ 32 ∧ c.R12 < 2 ^ 32 ∧
  c.Sp < 2 ^ 32 ∧ c.Lr < 2 ^ 32 ∧ c.Pc < 2 ^ 32 ∧ c.Cpsr < 2 ^ 32 ∧ c.Fpscr < 2 ^ 32 ∧
  ∀ i, c.D i < 2 ^ 64

/-- The host signal context (`ucontext_t` on Linux/ARM): the words of `uc_mcontext`
that the source uses, as fields, and the address of its `uc_regspace` member, whose
bytes live in memory.  `uc_regspace` is the last member, so `sigcontext + 1` is
`uc_regspace + 512`; `uc_mcontext` lies 212 bytes below it (see
`ucontext_t.mcontext`). -/
structure ucontext_t where
  trap_no : Nat
  error_code : Nat
  arm_r0 : Nat
  arm_r1 : Nat
  arm_r2 : Nat
  arm_r3 : Nat
  arm_r4 : Nat
  arm_r5 : Nat
  arm_r6 : Nat
  arm_r7 : Nat
  arm_r8 : Nat
  arm_r9 : Nat
  arm_r10 : Nat
  arm_fp : Nat
  arm_ip : Nat
  arm_sp : Nat
  arm_lr : Nat
  arm_pc : Nat
  arm_cpsr : Nat
  uc_regspace : Nat
deriving DecidableEq

/-! ## Layout of the host context in memory

The host's `ucontext_t` is `uc_flags`, `uc_link` (4 bytes each), `uc_stack` (12),
`uc_mcontext` (a `struct sigcontext`: `trap_no`, `error_code`, `oldmask`, `arm_r0` ..
`arm_r10`, `arm_fp`, `arm_ip`, `arm_sp`, `arm_lr`, `arm_pc`, `arm_cpsr`,
`fault_address`, 84 bytes), `uc_sigmask` (128) and the 8-byte aligned `uc_regspace`
at offset 232. -/

/-- Distance in bytes from `uc_mcontext` up to `uc_regspace`: 84 + 128. -/
def UC_MCONTEXT_TO_REGSPACE : Nat := 212

/-- Number of bytes from `trap_no` to the end of `arm_cpsr` in `uc_mcontext`. -/
def UC_MCONTEXT_WORDS_SIZE : Nat := 80

/-- Address of the `uc_mcontext` member of the host context. -/
def ucontext_t.mcontext (h : ucontext_t) : Nat :=
  (h.uc_regspace + 2 ^ 32 - UC_MCONTEXT_TO_REGSPACE) % 2 ^ 32

/-- The words of `uc_mcontext` held as fields, each with its offset in
`struct sigcontext`. -/
def ucontext_t.words (h : ucontext_t) : List (Nat × Nat) :=
  [(0, h.trap_no), (4, h.error_code), (12, h.arm_r0), (16, h.arm_r1), (20, h.arm_r2),
   (24, h.arm_r3), (28, h.arm_r4), (32, h.arm_r5), (36, h.arm_r6), (40, h.arm_r7),
   (44, h.arm_r8), (48, h.arm_r9), (52, h.arm_r10), (56, h.arm_fp), (60, h.arm_ip),
   (64, h.arm_sp), (68, h.arm_lr), (72, h.arm_pc), (76, h.arm_cpsr)]

/-- The memory in which the words of the host context lie at their addresses. -/
def ucontext_t.store (h : ucontext_t) (m : Mem) : Mem :=
  h.words.foldl (fun mm w => st32 mm (h.mcontext + w.1) w.2) m

/-- The host context whose `uc_regspace` is at `regspace`, read from memory. -/
def ucontext_t.load (regspace : Nat) (m : Mem) : ucontext_t :=
  let mc := (regspace + 2 ^ 32 - UC_MCONTEXT_TO_REGSPACE) % 2 ^ 32
  { trap_no := ld32 m mc, error_code := ld32 m (mc + 4),
    arm_r0 := ld32 m (mc + 12), arm_r1 := ld32 m (mc + 16), arm_r2 := ld32 m (mc + 20),
    arm_r3 := ld32 m (mc + 24), arm_r4 := ld32 m (mc + 28), arm_r5 := ld32 m (mc + 32),
    arm_r6 := ld32 m (mc + 36), arm_r7 := ld32 m (mc + 40), arm_r8 := ld32 m (mc + 44),
    arm_r9 := ld32 m (mc + 48), arm_r10 := ld32 m (mc + 52), arm_fp := ld32 m (mc + 56),
    arm_ip := ld32 m (mc + 60), arm_sp := ld32 m (mc + 64), arm_lr := ld32 m (mc + 68),
    arm_pc := ld32 m (mc + 72), arm_cpsr := ld32 m (mc + 76), uc_regspace := regspace }

/-- A host context is well formed when each of its words fits in 32 bits. -/
def ucontext_t.WellFormed (h : ucontext_t) : Prop :=
  h.trap_no < 2 ^ 32 ∧ h.error_code < 2 ^ 32 ∧
  h.arm_r0 < 2 ^ 32 ∧ h.arm_r1 < 2 ^ 32 ∧ h.arm_r2 < 2 ^ 32 ∧ h.arm_r3 < 2 ^ 32 ∧
  h.arm_r4 < 2 ^ 32 ∧ h.arm_r5 < 2 ^ 32 ∧ h.arm_r6 < 2 ^ 32 ∧ h.arm_r7 < 2 ^ 32 ∧
  h.arm_r8 < 2 ^ 32 ∧ h.arm_r9 < 2 ^ 32 ∧ h.arm_r10 < 2 ^ 32 ∧ h.arm_fp < 2 ^ 32 ∧
  h.arm_ip < 2 ^ 32 ∧ h.arm_sp < 2 ^ 32 ∧ h.arm_lr < 2 ^ 32 ∧ h.arm_pc < 2 ^ 32 ∧
  h.arm_cpsr < 2 ^ 32

/-- The `n` bytes at `a` do not overlap the words of `uc_mcontext` from `trap_no` to
`arm_cpsr`. -/
def ucontext_t.apart (h : ucontext_t) (a n : Nat) : Prop :=
  ∀ i, i < n → ∀ j, j < UC_MCONTEXT_WORDS_SIZE →
    (a + i) % 2 ^ 32 ≠ (h.mcontext + j) % 2 ^ 32

/-! ## Context translator -/

/-- The loop of `get_extended_sigcontext`, from the record at `ctx`.  Returns the
pointer the C function returns (`0` for `NULL`) together with the addresses of the
32-bit words the loop read (`ctx->magic` at `ctx`, `ctx->size` at `ctx + 4`), or
`none` when the fuel runs out before the loop exits. -/
def get_extended_sigcontext_loop (m : Mem) (stop magic : Nat) :
    Nat → Nat → Option (Nat × List Nat)
  | 0, _ => none
  | fuel + 1, ctx =>
    if ¬ ctx < stop then some (0, [])
    else if ld32 m ctx = 0 then some (0, [ctx])
    else if ld32 m (ctx + 4) = 0 then some (0, [ctx, ctx + 4])
    else if ld32 m ctx = magic then some (ctx, [ctx, ctx + 4])
    else
      match get_extended_sigcontext_loop m stop magic fuel ((ctx + ld32 m (ctx + 4)) % 2 ^ 32) with
      | none => none
      | some (r, reads) => some (r, ctx :: (ctx + 4) :: reads)

/-- Embedding of `get_extended_sigcontext`: scan the `{magic, size}` chain that
starts at `uc_regspace` and stops at the end of the `ucontext_t`. -/
def get_extended_sigcontext (fuel : Nat) (m : Mem) (sigcontext : ucontext_t) (magic : Nat) :
    Option Nat :=
  (get_extended_sigcontext_loop m (sigcontext.uc_regspace + UC_REGSPACE_SIZE) magic fuel
    sigcontext.uc_regspace).map Prod.fst

/-- The words read by `get_extended_sigcontext` (empty when the fuel runs out). -/
def get_extended_sigcontext_reads (fuel : Nat) (m : Mem) (sigcontext : ucontext_t) (magic : Nat) :
    List Nat :=
  ((get_extended_sigcontext_loop m (sigcontext.uc_regspace + UC_REGSPACE_SIZE) magic fuel
    sigcontext.uc_regspace).map Prod.snd).getD []

/-- Offset of `fpregs` in `struct vfp_sigframe` (after the 8-byte header). -/
def VFP_FPREGS : Nat := 8
/-- Offset of `fpscr` in `struct vfp_sigframe` (after 32 doublewords). -/
def VFP_FPSCR : Nat := 264

/-- The `memcpy` of `restore_fpu`: copy the 32 doublewords of `D` to `dst`. -/
def memcpy_from_D (m : Mem) (dst : Nat) (D : Fin 32 → Nat) : Mem :=
  (List.finRange 32).foldl (fun mm i => st64 mm (dst + 8 * i.val) (D i)) m

/-- Embedding of `save_fpu`. -/
def save_fpu (fuel : Nat) (context : CONTEXT) (sigcontext : ucontext_t) (m : Mem) :
    Option CONTEXT :=
  match get_extended_sigcontext fuel m sigcontext VFP_MAGIC with
  | none => none
  | some frame =>
    if frame = 0 then some context
    else some { context with
      D := fun i => ld64 m (frame + VFP_FPREGS + 8 * i.val)
      Fpscr := ld32 m (frame + VFP_FPSCR) }

/-- Embedding of `restore_fpu`. -/
def restore_fpu (fuel : Nat) (context : CONTEXT) (sigcontext : ucontext_t) (m : Mem) :
    Option Mem :=
  match get_extended_sigcontext fuel m sigcontext VFP_MAGIC with
  | none => none
  | some frame =>
    if frame = 0 then some m
    else some (st32 (memcpy_from_D m (frame + VFP_FPREGS) context.D) (frame + VFP_FPSCR)
      context.Fpscr)

/-- The register assignments of `save_context` (everything before the call of
`save_fpu`). -/
def save_context_regs (context : CONTEXT) (sigcontext : ucontext_t) : CONTEXT :=
  let context := { context with
    R0 := sigcontext.arm_r0, R1 := sigcontext.arm_r1, R2 := sigcontext.arm_r2,
    R3 := sigcontext.arm_r3, R4 := sigcontext.arm_r4, R5 := sigcontext.arm_r5,
    R6 := sigcontext.arm_r6, R7 := sigcontext.arm_r7, R8 := sigcontext.arm_r8,
    R9 := sigcontext.arm_r9, R10 := sigcontext.arm_r10 }
  let context := { context with
    ContextFlags := CONTEXT_FULL
    Sp := sigcontext.arm_sp
    Lr := sigcontext.arm_lr
    Pc := sigcontext.arm_pc
    Cpsr := sigcontext.arm_cpsr
    R11 := sigcontext.arm_fp
    R12 := sigcontext.arm_ip }
  if sigcontext.arm_cpsr &&& 0x20 ≠ 0 then { context with Pc := context.Pc ||| 1 }
  else context

/-- Embedding of `save_context`: set the register values from a sigcontext. -/
def save_context (fuel : Nat) (context : CONTEXT) (sigcontext : ucontext_t) (m : Mem) :
    Option CONTEXT :=
  save_fpu fuel (save_context_regs context sigcontext) sigcontext m

/-- The register assignments of `restore_context` (everything before the call of
`restore_fpu`); `&= ~0x20` is on a 32-bit word. -/
def restore_context_regs (context : CONTEXT) (sigcontext : ucontext_t) : ucontext_t :=
  let sigcontext := { sigcontext with
    arm_r0 := context.R0, arm_r1 := context.R1, arm_r2 := context.R2,
    arm_r3 := context.R3, arm_r4 := context.R4, arm_r5 := context.R5,
    arm_r6 := context.R6, arm_r7 := context.R7, arm_r8 := context.R8,
    arm_r9 := context.R9, arm_r10 := context.R10 }
  let sigcontext := { sigcontext with
    arm_sp := context.Sp
    arm_lr := context.Lr
    arm_pc := context.Pc
    arm_cpsr := context.Cpsr
    arm_fp := context.R11
    arm_ip := context.R12 }
  if sigcontext.arm_pc &&& 1 ≠ 0 then
    { sigcontext with arm_cpsr := sigcontext.arm_cpsr ||| 0x20 }
  else { sigcontext with arm_cpsr := sigcontext.arm_cpsr &&& 0xffffffdf }

/-- Embedding of `restore_context`: build a sigcontext from the register values.
The register assignments go to memory before `restore_fpu` scans the chain and
writes into the record it finds, and the host context that results is read back
from memory, so that a record that overlaps `uc_mcontext` has its effect. -/
def restore_context (fuel : Nat) (context : CONTEXT) (sigcontext : ucontext_t) (m : Mem) :
    Option (ucontext_t × Mem) :=
  let sigcontext := restore_context_regs context sigcontext
  match restore_fpu fuel context sigcontext (sigcontext.store m) with
  | none => none
  | some m1 => some (ucontext_t.load sigcontext.uc_regspace m1, m1)

/-- The all-zero guest context. -/
def CONTEXT.zero : CONTEXT :=
  { ContextFlags := 0, R0 := 0, R1 := 0, R2 := 0, R3 := 0, R4 := 0, R5 := 0, R6 := 0, R7 := 0,
    R8 := 0, R9 := 0, R10 := 0, R11 := 0, R12 := 0, Sp := 0, Lr := 0, Pc := 0, Cpsr := 0,
    Fpscr := 0, D := fun _ => 0 }

/-- The all-zero host context whose `uc_regspace` is at `regspace`. -/
def ucontext_t.zero (regspace : Nat) : ucontext_t :=
  { trap_no := 0, error_code := 0, arm_r0 := 0, arm_r1 := 0, arm_r2 := 0, arm_r3 := 0,
    arm_r4 := 0, arm_r5 := 0, arm_r6 := 0, arm_r7 := 0, arm_r8 := 0, arm_r9 := 0,
    arm_r10 := 0, arm_fp := 0, arm_ip := 0, arm_sp := 0, arm_lr := 0, arm_pc := 0,
    arm_cpsr := 0, uc_regspace := regspace }

/-- Sample guest context in Thumb state: odd `Pc`, bit 0x20 of `Cpsr` set. -/
def ctx_thumb : CONTEXT :=
  { CONTEXT.zero with
    ContextFlags := CONTEXT_FULL, Pc := 0x401, Cpsr := 0x30, Fpscr := 7,
    D := fun i => i.val + 1 }

/-- Memory that is zero everywhere except for the listed bytes. -/
def Mem.ofList (l : List (Nat × Nat)) : Mem := fun a => (l.lookup a).getD 0

/-- Sample memory: a VFP record header (magic `0x56465001`, size `0x120`) at
address `0x1000`, everything else zero. -/
def mem_vfp_at_1000 : Mem :=
  Mem.ofList [(0x1000, 0x01), (0x1001, 0x50), (0x1002, 0x46), (0x1003, 0x56),
    (0x1004, 0x20), (0x1005, 0x01)]

/-! ## Status codes, exception codes and signal numbers

Values of `ntstatus.h`, `winnt.h` and the host's `signal.h`; the headers are not
part of the translation unit, the values are the published ones. -/

def STATUS_SUCCESS : Nat := 0
def STATUS_INVALID_PARAMETER : Nat := 0xC000000D
def STATUS_INVALID_DISPOSITION : Nat := 0xC0000026
def STATUS_STACK_OVERFLOW : Nat := 0xC00000FD
def STATUS_NO_CALLBACK_ACTIVE : Nat := 0xC0000258
def DBG_EXCEPTION_HANDLED : Nat := 0x00010001
def DBG_CONTINUE : Nat := 0x00010002

def EXCEPTION_DATATYPE_MISALIGNMENT : Nat := 0x80000002
def EXCEPTION_BREAKPOINT : Nat := 0x80000003
def EXCEPTION_SINGLE_STEP : Nat := 0x80000004
def EXCEPTION_WINE_ASSERTION : Nat := 0x80000101
def EXCEPTION_ACCESS_VIOLATION : Nat := 0xC0000005
def EXCEPTION_ILLEGAL_INSTRUCTION : Nat := 0xC000001D
def EXCEPTION_ARRAY_BOUNDS_EXCEEDED : Nat := 0xC000008C
def EXCEPTION_FLT_DIVIDE_BY_ZERO : Nat := 0xC000008E
def EXCEPTION_FLT_INEXACT_RESULT : Nat := 0xC000008F
def EXCEPTION_FLT_INVALID_OPERATION : Nat := 0xC0000090
def EXCEPTION_FLT_OVERFLOW : Nat := 0xC0000091
def EXCEPTION_FLT_UNDERFLOW : Nat := 0xC0000093
def EXCEPTION_INT_DIVIDE_BY_ZERO : Nat := 0xC0000094
def EXCEPTION_INT_OVERFLOW : Nat := 0xC0000095
def EH_NONCONTINUABLE : Nat := 1

def SIGILL : Int := 4
def SIGTRAP : Int := 5
def SIGABRT : Int := 6
def SIGBUS : Int := 7
def SIGFPE : Int := 8
def SIGSEGV : Int := 11

def TRAP_BRKPT : Nat := 1
def TRAP_TRACE : Nat := 2
def FPE_INTDIV : Nat := 1
def FPE_INTOVF : Nat := 2
def FPE_FLTDIV : Nat := 3
def FPE_FLTOVF : Nat := 4
def FPE_FLTUND : Nat := 5
def FPE_FLTRES : Nat := 6
def FPE_FLTINV : Nat := 7
def FPE_FLTSUB : Nat := 8

/-- Trap codes of `enum arm_trap_code`. -/
def TRAP_ARM_UNKNOWN : Int := -1
def TRAP_ARM_PRIVINFLT : Int := 6
def TRAP_ARM_PAGEFLT : Int := 14
def TRAP_ARM_ALIGNFLT : Int := 17

/-! ## Records, frames and thread data -/

/-- The guest `EXCEPTION_RECORD`; `ExceptionInformation` has 15 entries. -/
structure EXCEPTION_RECORD where
  ExceptionCode : Nat
  ExceptionFlags : Nat
  ExceptionRecord : Nat
  ExceptionAddress : Nat
  NumberParameters : Nat
  ExceptionInformation : List Nat
deriving DecidableEq

/-- The record `{ 0 }`. -/
def EXCEPTION_RECORD.zero : EXCEPTION_RECORD :=
  { ExceptionCode := 0, ExceptionFlags := 0, ExceptionRecord := 0, ExceptionAddress := 0,
    NumberParameters := 0, ExceptionInformation := List.replicate 15 0 }

/-- The fields of `siginfo_t` that the handlers read. -/
structure siginfo_t where
  si_code : Nat
  si_addr : Nat
deriving DecidableEq

/-- The `struct syscall_frame` (size 0x160); the comments of the source give the offsets
used by the assembly: r0..r12 at 0x00..0x30, pc 0x34, sp 0x38, lr 0x3c, cpsr 0x40,
restore_flags 0x44, fpscr 0x48, prev_frame 0x4c, syscall_table 0x50, d at 0x60. -/
structure syscall_frame where
  r0 : Nat
  r1 : Nat
  r2 : Nat
  r3 : Nat
  r4 : Nat
  r5 : Nat
  r6 : Nat
  r7 : Nat
  r8 : Nat
  r9 : Nat
  r10 : Nat
  r11 : Nat
  r12 : Nat
  pc : Nat
  sp : Nat
  lr : Nat
  cpsr : Nat
  restore_flags : Nat
  fpscr : Nat
  prev_frame : Nat
  syscall_table : Nat
  d : Fin 32 → Nat

/-- The frame `{ 0 }`. -/
def syscall_frame.zero : syscall_frame :=
  { r0 := 0, r1 := 0, r2 := 0, r3 := 0, r4 := 0, r5 := 0, r6 := 0, r7 := 0, r8 := 0, r9 := 0,
    r10 := 0, r11 := 0, r12 := 0, pc := 0, sp := 0, lr := 0, cpsr := 0, restore_flags := 0,
    fpscr := 0, prev_frame := 0, syscall_table := 0, d := fun _ => 0 }

/-- The native register file seen by the assembly routines (condition flags are not
part of it). -/
structure Regs where
  r0 : Nat
  r1 : Nat
  r2 : Nat
  r3 : Nat
  r4 : Nat
  r5 : Nat
  r6 : Nat
  r7 : Nat
  r8 : Nat
  r9 : Nat
  r10 : Nat
  r11 : Nat
  r12 : Nat
  sp : Nat
  lr : Nat
  pc : Nat
  fpscr : Nat
  d : Fin 32 → Nat

/-- The all-zero register file. -/
def Regs.zero : Regs :=
  { r0 := 0, r1 := 0, r2 := 0, r3 := 0, r4 := 0, r5 := 0, r6 := 0, r7 := 0, r8 := 0, r9 := 0,
    r10 := 0, r11 := 0, r12 := 0, sp := 0, lr := 0, pc := 0, fpscr := 0, d := fun _ => 0 }

/-- The `__wine_jmp_buf` as laid out by `__wine_setjmpex`: Frame, R4..R11 at
0x00..0x20, Sp 0x24, Pc 0x28, Fpscr 0x2c, D[0..7] at 0x30. -/
structure wine_jmp_buf where
  Frame : Nat
  R4 : Nat
  R5 : Nat
  R6 : Nat
  R7 : Nat
  R8 : Nat
  R9 : Nat
  R10 : Nat
  R11 : Nat
  Sp : Nat
  Pc : Nat
  Fpscr : Nat
  D : Fin 8 → Nat

/-- The jump buffer `{ 0 }`. -/
def wine_jmp_buf.zero : wine_jmp_buf :=
  { Frame := 0, R4 := 0, R5 := 0, R6 := 0, R7 := 0, R8 := 0, R9 := 0, R10 := 0, R11 := 0,
    Sp := 0, Pc := 0, Fpscr := 0, D := fun _ => 0 }

/-- The `struct user_callback_frame`. -/
structure user_callback_frame where
  frame : syscall_frame
  ret_ptr : Nat
  ret_len : Nat
  jmpbuf : wine_jmp_buf
  status : Nat

/-- The callback frame `{ { 0 } }`. -/
def user_callback_frame.zero : user_callback_frame :=
  { frame := syscall_frame.zero, ret_ptr := 0, ret_len := 0, jmpbuf := wine_jmp_buf.zero,
    status := 0 }

/-- Offset of `jmpbuf` in `struct user_callback_frame`: after the 0x160-byte frame and
the two pointers. -/
def USER_CALLBACK_FRAME_JMPBUF : Nat := 0x168

/-- The per-thread data read by this file: `ntdll_get_thread_data()->kernel_stack`,
`->jmp_buf`, and `arm_thread_data()->exit_frame`, `->syscall_frame`. -/
structure ThreadData where
  kernel_stack : Nat
  jmp_buf : Nat
  exit_frame : Nat
  syscall_frame : Nat
deriving DecidableEq

/-- The state of one thread: its thread data, the frames it has in memory (by
address; the root frame is a bare `syscall_frame`, the pushed ones are the `frame`
member of a `user_callback_frame`), and byte memory. -/
structure State where
  thread : ThreadData
  frames : Nat → user_callback_frame
  mem : Mem

/-- The transfer block that `setup_exception` builds on the guest stack:
`struct { CONTEXT context; EXCEPTION_RECORD rec; } *stack`. -/
structure TransferBlock where
  stack : Nat
  context : CONTEXT
  record : EXCEPTION_RECORD

/-- External collaborators and link-time constants of the translation unit. -/
structure Env where
  /-- The call `send_debug_event( rec, &context, TRUE )`: the status and the context it leaves. -/
  send_debug_event : EXCEPTION_RECORD → CONTEXT → Nat × CONTEXT
  /-- The call `virtual_setup_exception( stack_ptr, size, rec )`. -/
  virtual_setup_exception : Nat → Nat → EXCEPTION_RECORD → Nat
  /-- The call `virtual_handle_fault( addr, err, stack )`. -/
  virtual_handle_fault : Nat → Nat → Nat → Nat
  /-- Address of `raise_func_trampoline`. -/
  raise_func_trampoline : Nat
  /-- Address of `__wine_syscall_dispatcher_return`. -/
  wine_syscall_dispatcher_return : Nat
  /-- Address of `__wine_longjmp`. -/
  wine_longjmp : Nat
  pKiUserExceptionDispatcher : Nat
  pKiUserCallbackDispatcher : Nat
  /-- The constant `min_kernel_stack` of `unix_private.h`. -/
  min_kernel_stack : Nat
  /-- The size `sizeof(CONTEXT)`. -/
  sizeof_CONTEXT : Nat
  /-- The size `sizeof(EXCEPTION_RECORD)`. -/
  sizeof_EXCEPTION_RECORD : Nat

/-- The functions that a signal handler calls, in the order of the calls. -/
inductive Call where
  | virtual_handle_fault (addr err stack : Nat)
  | handle_syscall_fault (record : EXCEPTION_RECORD) (result : Bool)
  | setup_exception (record : EXCEPTION_RECORD)
deriving DecidableEq

/-- What a signal handler leaves behind: the host context the kernel resumes from,
memory, the thread data, the transfer block if one was built, and the calls made. -/
structure HandlerResult where
  sigcontext : ucontext_t
  mem : Mem
  thread : ThreadData
  stack : Option TransferBlock
  calls : List Call

/-! ## Fault classifier and exception bridge -/

/-- Conversion of a 32-bit `unsigned long` to `int` (`enum arm_trap_code`). -/
def to_int32 (v : Nat) : Int :=
  if v % 2 ^ 32 < 2 ^ 31 then ((v % 2 ^ 32 : Nat) : Int) else ((v % 2 ^ 32 : Nat) : Int) - 2 ^ 32

/-- Embedding of `is_inside_syscall`. -/
def is_inside_syscall (thread : ThreadData) (sigcontext : ucontext_t) : Bool :=
  decide (sigcontext.arm_sp ≥ thread.kernel_stack) && decide (sigcontext.arm_sp ≤ thread.syscall_frame)

/-- Embedding of `get_trap_code` (`TRAP_sig` is defined on Linux). -/
def get_trap_code (signal : Int) (sigcontext : ucontext_t) : Int :=
  let trap := to_int32 sigcontext.trap_no
  if trap ≠ 0 then trap
  else if signal = SIGILL then TRAP_ARM_PRIVINFLT
  else if signal = SIGSEGV then TRAP_ARM_PAGEFLT
  else if signal = SIGBUS then TRAP_ARM_ALIGNFLT
  else TRAP_ARM_UNKNOWN

/-- Embedding of `get_error_code`: `ERROR_sig` truncated to a `WORD`. -/
def get_error_code (sigcontext : ucontext_t) : Nat := sigcontext.error_code % 2 ^ 16

/-- What `setup_exception` leaves behind: the host context, the memory (the bytes of
the transfer block are not part of it, the block is given by `stack`), the record
with its `ExceptionAddress`, and the transfer block if one was built. -/
structure ExceptionSetup where
  sigcontext : ucontext_t
  mem : Mem
  record : EXCEPTION_RECORD
  stack : Option TransferBlock

/-- Embedding of `setup_exception`: modify the signal context to call the exception
raise function.  `context0` is the indeterminate initial content of the local
`CONTEXT context`. -/
def setup_exception (env : Env) (fuel : Nat) (context0 : CONTEXT) (sigcontext : ucontext_t)
    (record : EXCEPTION_RECORD) (m : Mem) : Option ExceptionSetup :=
  let stack_ptr := sigcontext.arm_sp &&& 0xfffffffc
  let record := { record with ExceptionAddress := sigcontext.arm_pc }
  match save_context fuel context0 sigcontext m with
  | none => none
  | some context =>
    let (status, context) := env.send_debug_event record context
    if status = DBG_CONTINUE ∨ status = DBG_EXCEPTION_HANDLED then
      match restore_context fuel context sigcontext m with
      | none => none
      | some (sigcontext, m) => some { sigcontext := sigcontext, mem := m, record := record, stack := none }
    else
      let stack := env.virtual_setup_exception stack_ptr
        (env.sizeof_CONTEXT + env.sizeof_EXCEPTION_RECORD) record
      let block : TransferBlock := { stack := stack, context := context, record := record }
      /- now modify the sigcontext to return to the raise function -/
      let sigcontext := { sigcontext with
        arm_sp := stack
        arm_lr := context.Pc
        arm_pc := env.raise_func_trampoline }
      let sigcontext :=
        if sigcontext.arm_pc &&& 1 ≠ 0 then
          { sigcontext with arm_cpsr := sigcontext.arm_cpsr ||| 0x20 }
        else { sigcontext with arm_cpsr := sigcontext.arm_cpsr &&& 0xffffffdf }
      let sigcontext := { sigcontext with
        arm_r0 := (stack + env.sizeof_CONTEXT) % 2 ^ 32
        arm_r1 := stack
        arm_r2 := env.pKiUserExceptionDispatcher }
      some { sigcontext := sigcontext, mem := m, record := record, stack := some block }

/-- Embedding of `handle_syscall_fault`: handle a page fault happening during a
system call.  Returns the `BOOL` together with the host context and thread data. -/
def handle_syscall_fault (env : Env) (thread : ThreadData) (context : ucontext_t)
    (record : EXCEPTION_RECORD) : Bool × ucontext_t × ThreadData :=
  let frame := thread.syscall_frame
  if !is_inside_syscall thread context && thread.jmp_buf = 0 then (false, context, thread)
  else if thread.jmp_buf ≠ 0 then
    (true,
     { context with arm_r0 := thread.jmp_buf, arm_r1 := 1, arm_pc := env.wine_longjmp },
     { thread with jmp_buf := 0 })
  else
    (true,
     { context with arm_r0 := frame, arm_r1 := record.ExceptionCode,
                    arm_pc := env.wine_syscall_dispatcher_return },
     thread)

/-- The `switch` of `segv_handler`: the record it builds and the calls it makes, or
`none` for the record when `virtual_handle_fault` returns 0 and the handler returns. -/
def segv_handler_switch (env : Env) (signal : Int) (siginfo : siginfo_t) (context : ucontext_t)
    (m : Mem) : Option EXCEPTION_RECORD × List Call :=
  let record := EXCEPTION_RECORD.zero
  let trap := get_trap_code signal context
  if trap = TRAP_ARM_PRIVINFLT then
    if ld16 m context.arm_pc = 0xdefe then
      (some { record with ExceptionCode := EXCEPTION_BREAKPOINT, NumberParameters := 1 }, [])
    else (some { record with ExceptionCode := EXCEPTION_ILLEGAL_INSTRUCTION }, [])
  else if trap = TRAP_ARM_PAGEFLT then
    let info0 := if get_error_code context &&& 0x800 ≠ 0 then 1 else 0
    let record := { record with
      NumberParameters := 2
      ExceptionInformation := (record.ExceptionInformation.set 0 info0).set 1 siginfo.si_addr }
    let code := env.virtual_handle_fault siginfo.si_addr info0 context.arm_sp
    let calls := [Call.virtual_handle_fault siginfo.si_addr info0 context.arm_sp]
    if code = 0 then (none, calls)
    else (some { record with ExceptionCode := code }, calls)
  else if trap = TRAP_ARM_ALIGNFLT then
    (some { record with ExceptionCode := EXCEPTION_DATATYPE_MISALIGNMENT }, [])
  else if trap = TRAP_ARM_UNKNOWN then
    (some { record with
      ExceptionCode := EXCEPTION_ACCESS_VIOLATION
      NumberParameters := 2
      ExceptionInformation := (record.ExceptionInformation.set 0 0).set 1 0xffffffff }, [])
  else (some { record with ExceptionCode := EXCEPTION_ILLEGAL_INSTRUCTION }, [])

/-- The common tail of the handlers: `setup_exception( sigcontext, &rec )`. -/
def deliver (env : Env) (fuel : Nat) (context0 : CONTEXT) (thread : ThreadData)
    (sigcontext : ucontext_t) (record : EXCEPTION_RECORD) (m : Mem) (calls : List Call) :
    Option HandlerResult :=
  match setup_exception env fuel context0 sigcontext record m with
  | none => none
  | some r => some { sigcontext := r.sigcontext, mem := r.mem, thread := thread,
                     stack := r.stack, calls := calls ++ [Call.setup_exception record] }

/-- Embedding of `segv_handler`: handler for SIGSEGV and related errors. -/
def segv_handler (env : Env) (fuel : Nat) (context0 : CONTEXT) (thread : ThreadData)
    (signal : Int) (siginfo : siginfo_t) (sigcontext : ucontext_t) (m : Mem) :
    Option HandlerResult :=
  match segv_handler_switch env signal siginfo sigcontext m with
  | (none, calls) =>
    some { sigcontext := sigcontext, mem := m, thread := thread, stack := none, calls := calls }
  | (some record, calls) =>
    match handle_syscall_fault env thread sigcontext record with
    | (true, context, thread) =>
      some { sigcontext := context, mem := m, thread := thread, stack := none,
             calls := calls ++ [Call.handle_syscall_fault record true] }
    | (false, _, _) =>
      deliver env fuel context0 thread sigcontext record m
        (calls ++ [Call.handle_syscall_fault record false])

/-- Embedding of `trap_handler`: handler for SIGTRAP. -/
def trap_handler (env : Env) (fuel : Nat) (context0 : CONTEXT) (thread : ThreadData)
    (siginfo : siginfo_t) (sigcontext : ucontext_t) (m : Mem) : Option HandlerResult :=
  let record := EXCEPTION_RECORD.zero
  let record :=
    if siginfo.si_code = TRAP_TRACE then { record with ExceptionCode := EXCEPTION_SINGLE_STEP }
    else { record with ExceptionCode := EXCEPTION_BREAKPOINT, NumberParameters := 1 }
  deliver env fuel context0 thread sigcontext record m []

/-- Embedding of `fpe_handler`: handler for SIGFPE. -/
def fpe_handler (env : Env) (fuel : Nat) (context0 : CONTEXT) (thread : ThreadData)
    (siginfo : siginfo_t) (sigcontext : ucontext_t) (m : Mem) : Option HandlerResult :=
  let record := EXCEPTION_RECORD.zero
  let code := siginfo.si_code &&& 0xffff
  let record :=
    if code = FPE_FLTSUB then { record with ExceptionCode := EXCEPTION_ARRAY_BOUNDS_EXCEEDED }
    else if code = FPE_INTDIV then { record with ExceptionCode := EXCEPTION_INT_DIVIDE_BY_ZERO }
    else if code = FPE_INTOVF then { record with ExceptionCode := EXCEPTION_INT_OVERFLOW }
    else if code = FPE_FLTDIV then { record with ExceptionCode := EXCEPTION_FLT_DIVIDE_BY_ZERO }
    else if code = FPE_FLTOVF then { record with ExceptionCode := EXCEPTION_FLT_OVERFLOW }
    else if code = FPE_FLTUND then { record with ExceptionCode := EXCEPTION_FLT_UNDERFLOW }
    else if code = FPE_FLTRES then { record with ExceptionCode := EXCEPTION_FLT_INEXACT_RESULT }
    else { record with ExceptionCode := EXCEPTION_FLT_INVALID_OPERATION }
  deliver env fuel context0 thread sigcontext record m []

/-- Embedding of `abrt_handler`: handler for SIGABRT. -/
def abrt_handler (env : Env) (fuel : Nat) (context0 : CONTEXT) (thread : ThreadData)
    (sigcontext : ucontext_t) (m : Mem) : Option HandlerResult :=
  let record := { EXCEPTION_RECORD.zero with
    ExceptionCode := EXCEPTION_WINE_ASSERTION, ExceptionFlags := EH_NONCONTINUABLE }
  deliver env fuel context0 thread sigcontext record m []

/-! ## Continuations, callback frames and the frame stack -/

/-- How a routine hands control on: it returns a status to its caller, or it
transfers to `__wine_syscall_dispatcher_return( frame, retval )`, or to
`__wine_longjmp( buf, retval )`; the last two do not return. -/
inductive Control where
  | ret (status : Nat)
  | dispatcher_return (frame retval : Nat)
  | longjmp (buf retval : Nat)
deriving DecidableEq

/-- Embedding of `__wine_setjmpex` (`r0` = buffer, `r1` = frame): the buffer it
fills and the registers on return (`r0 = 0`, continuing at `lr`). -/
def wine_setjmpex (regs : Regs) : wine_jmp_buf × Regs :=
  ({ Frame := regs.r1, R4 := regs.r4, R5 := regs.r5, R6 := regs.r6, R7 := regs.r7,
     R8 := regs.r8, R9 := regs.r9, R10 := regs.r10, R11 := regs.r11,
     Sp := regs.sp, Pc := regs.lr, Fpscr := regs.fpscr,
     D := fun i => regs.d ⟨i.val + 8, by omega⟩ },
   { regs with r2 := regs.fpscr, r0 := 0, pc := regs.lr })

/-- Embedding of `__wine_longjmp` (`r0` = buffer, `r1` = retval): the registers
with which execution continues at the saved `Pc`. -/
def wine_longjmp (buf : wine_jmp_buf) (regs : Regs) : Regs :=
  { regs with
    r3 := buf.Fpscr, r4 := buf.R4, r5 := buf.R5, r6 := buf.R6, r7 := buf.R7, r8 := buf.R8,
    r9 := buf.R9, r10 := buf.R10, r11 := buf.R11, sp := buf.Sp, r2 := buf.Pc,
    fpscr := buf.Fpscr,
    d := fun i => if h : 8 ≤ i.val ∧ i.val < 16 then buf.D ⟨i.val - 8, by omega⟩ else regs.d i,
    r0 := regs.r1, pc := buf.Pc }

/-- Byte-wise `memcpy( dst, src, n )`. -/
def memcpy : Nat → Mem → Nat → Nat → Mem
  | 0, m, _, _ => m
  | n + 1, m, dst, src => memcpy n (st8 m dst (ld8 m src)) (dst + 1) (src + 1)

/-- Embedding of `KeUserModeCallback` up to the transfer to the callback dispatcher.
`callback_frame` is the address of the local `struct user_callback_frame`, `native`
the registers at the call of `__wine_setjmpex`.  When the headroom check fails the
local dies with the return, so the state is the one on entry. -/
def KeUserModeCallback (env : Env) (callback_frame : Nat) (native : Regs) (s : State)
    (id args len ret_ptr ret_len : Nat) : State × Control :=
  if s.thread.kernel_stack + env.min_kernel_stack > callback_frame then
    (s, Control.ret STATUS_STACK_OVERFLOW)
  else
    /- `__wine_setjmpex( &callback_frame.jmpbuf, NULL )` returns 0 -/
    let jmpbuf := (wine_setjmpex { native with
      r0 := callback_frame + USER_CALLBACK_FRAME_JMPBUF, r1 := 0 }).1
    let frame := s.thread.syscall_frame
    let args_data := ((s.frames frame).frame.sp + 2 ^ 32 - len % 2 ^ 32) % 2 ^ 32 &&& 0xfffffff0
    let mem := memcpy len s.mem args_data args
    let cf : user_callback_frame :=
      { frame := { syscall_frame.zero with
          r0 := id
          r1 := args
          r2 := len
          sp := args_data
          pc := env.pKiUserCallbackDispatcher
          restore_flags := CONTEXT_INTEGER
          syscall_table := (s.frames frame).frame.syscall_table
          prev_frame := frame }
        ret_ptr := ret_ptr
        ret_len := ret_len
        jmpbuf := jmpbuf
        status := 0 }
    ({ thread := { s.thread with syscall_frame := callback_frame }
       frames := fun a => if a = callback_frame then cf else s.frames a
       mem := mem },
     Control.dispatcher_return callback_frame 0)

/-- The tail of `KeUserModeCallback` once `__wine_setjmpex` has returned non-zero:
`return callback_frame.status`. -/
def KeUserModeCallback_resumed (callback_frame : Nat) (s : State) : Control :=
  Control.ret (s.frames callback_frame).status

/-- Embedding of `NtCallbackReturn`. -/
def NtCallbackReturn (s : State) (ret_ptr ret_len status : Nat) : State × Control :=
  let frame := s.thread.syscall_frame
  if (s.frames frame).frame.prev_frame = 0 then (s, Control.ret STATUS_NO_CALLBACK_ACTIVE)
  else
    let mem := st32 s.mem (s.frames frame).ret_ptr ret_ptr
    let mem := st32 mem (s.frames frame).ret_len ret_len
    ({ thread := { s.thread with syscall_frame := (s.frames frame).frame.prev_frame }
       frames := fun a => if a = frame then { s.frames frame with status := status }
                          else s.frames a
       mem := mem },
     Control.longjmp (frame + USER_CALLBACK_FRAME_JMPBUF) 1)

/-- A callback request or a callback return issued by the thread. -/
inductive Op where
  | push (callback_frame : Nat) (native : Regs) (id args len ret_ptr ret_len : Nat)
  | pop (ret_ptr ret_len status : Nat)

/-- Run a sequence of callback requests and returns; `none` as soon as one of them
is not successful (a request that fails the headroom check, a return without an
active callback). -/
def run_ops (env : Env) : List Op → State → Option State
  | [], s => some s
  | Op.push cf native id args len ret_ptr ret_len :: ops, s =>
    match KeUserModeCallback env cf native s id args len ret_ptr ret_len with
    | (s1, Control.dispatcher_return _ _) => run_ops env ops s1
    | _ => none
  | Op.pop ret_ptr ret_len status :: ops, s =>
    match NtCallbackReturn s ret_ptr ret_len status with
    | (s1, Control.longjmp _ _) => run_ops env ops s1
    | _ => none

/-- The `prev_frame` chain from the frame at `p` down to the frame whose
`prev_frame` is `NULL`; `none` when the fuel runs out first. -/
def frame_chain (frames : Nat → user_callback_frame) : Nat → Nat → Option (List Nat)
  | 0, _ => none
  | fuel + 1, p =>
    if p = 0 then some []
    else (frame_chain frames fuel (frames p).frame.prev_frame).map (fun l => p :: l)

/-- The frame stack as the specification describes it: a request pushes its frame, a
return pops the most recent one. -/
def spec_frame_stack : List Op → List Nat → List Nat
  | [], st => st
  | Op.push cf _ _ _ _ _ _ :: ops, st => spec_frame_stack ops (cf :: st)
  | Op.pop _ _ _ :: ops, st => spec_frame_stack ops st.tail

/-- Number of callback requests in a sequence. -/
def count_push : List Op → Nat
  | [] => 0
  | Op.push _ _ _ _ _ _ _ :: ops => count_push ops + 1
  | Op.pop _ _ _ :: ops => count_push ops

/-- Number of callback returns in a sequence. -/
def count_pop : List Op → Nat
  | [] => 0
  | Op.push _ _ _ _ _ _ _ :: ops => count_pop ops
  | Op.pop _ _ _ :: ops => count_pop ops + 1

/-- The local `callback_frame` of every request is a fresh object: its address is
not `NULL` and differs from the addresses of the frames that are live (`live`)
when the request is issued. -/
def FreshFrames : List Op → List Nat → Prop
  | [], _ => True
  | Op.push cf _ _ _ _ _ _ :: ops, live => cf ≠ 0 ∧ cf ∉ live ∧ FreshFrames ops (cf :: live)
  | Op.pop _ _ _ :: ops, live => FreshFrames ops live.tail

/-! ## The system-call dispatcher -/

/-- The copy loop at label `2` of `__wine_syscall_dispatcher`:
`subs r5, r5, #4; ldr r0, [r6, r5]; str r0, [sp, r5]; bgt 2b`.
Returns memory, `r5` and `r0` at the exit of the loop. -/
def dispatcher_copy_args : Nat → Mem → Nat → Nat → Nat → Option (Mem × Nat × Nat)
  | 0, _, _, _, _ => none
  | fuel + 1, m, r6, sp, r5 =>
    let r5new := (r5 + 2 ^ 32 - 4) % 2 ^ 32
    let r0 := ld32 m ((r6 + r5new) % 2 ^ 32)
    let m := st32 m ((sp + r5new) % 2 ^ 32) r0
    if to_int32 r5 - 4 > 0 then dispatcher_copy_args fuel m r6 sp r5new
    else some (m, r5new, r0)

/-- The return path at label `4` of `__wine_syscall_dispatcher`; `r8` holds the
frame. -/
def dispatcher_label4 (regs : Regs) (s : State) : Regs :=
  let f := (s.frames regs.r8).frame
  /- ldr ip, [r8, #0x44] -/
  let ip := f.restore_flags
  /- tst ip, #4; beq 3f; ldr r4, [r8, #0x48]; vmsr fpscr, r4; add r4, r8, #0x60;
     vldm r4, {d0-d15} -/
  let regs :=
    if ip &&& 4 ≠ 0 then
      { regs with
        r4 := (regs.r8 + 0x60) % 2 ^ 32
        fpscr := f.fpscr
        d := fun i => if i.val < 16 then f.d i else regs.d i }
    else regs
  /- tst ip, #2; it ne; ldmne r8, {r0-r3} -/
  let regs :=
    if ip &&& 2 ≠ 0 then { regs with r0 := f.r0, r1 := f.r1, r2 := f.r2, r3 := f.r3 }
    else regs
  /- ldr lr, [r8, #0x3c]; ldr sp, [r8, #0x38]; add r8, r8, #0x10; ldm r8, {r4-r12,pc} -/
  { regs with
    lr := f.lr, sp := f.sp
    r4 := f.r4, r5 := f.r5, r6 := f.r6, r7 := f.r7, r8 := f.r8, r9 := f.r9, r10 := f.r10,
    r11 := f.r11, r12 := f.r12, pc := f.pc }

/-- Embedding of the entry `__wine_syscall_dispatcher_return` (`r0` = frame, `r1` =
return value): `mov r8, r0; mov r0, r1; b 4b`. -/
def wine_syscall_dispatcher_return (regs : Regs) (s : State) : Regs :=
  dispatcher_label4 { regs with r8 := regs.r0, r0 := regs.r1 } s

/-- What `__wine_syscall_dispatcher` leaves behind: the registers with which the
caller continues, the state, and the service body that was called, if any. -/
structure DispatchResult where
  regs : Regs
  state : State
  invoked : Option Nat

/-- Embedding of `__wine_syscall_dispatcher` (hard-float build).  `call` is the
effect of `blx ip` on registers and state, `label4` the return address it is
given, `cpsr` the value read by `mrs r0, CPSR`. -/
def wine_syscall_dispatcher (call : Nat → Regs → State → Regs × State) (label4 cpsr : Nat)
    (regs : Regs) (s : State) : Option DispatchResult :=
  /- mrc p15, 0, r1, c13, c0, 2; ldr r1, [r1, #0x1d8] -/
  let r1 := s.thread.syscall_frame
  /- add r0, r1, #0x10; stm r0, {r4-r12,lr} -/
  let f := (s.frames r1).frame
  let f := { f with
    r4 := regs.r4, r5 := regs.r5, r6 := regs.r6, r7 := regs.r7, r8 := regs.r8, r9 := regs.r9,
    r10 := regs.r10, r11 := regs.r11, r12 := regs.r12, pc := regs.lr }
  /- add r2, sp, #0x10; str r2, [r1, #0x38]; str r3, [r1, #0x3c] -/
  let r2 := (regs.sp + 0x10) % 2 ^ 32
  let f := { f with sp := r2, lr := regs.r3 }
  /- mrs r0, CPSR; bfi r0, lr, #5, #1; str r0, [r1, #0x40] -/
  let f := { f with cpsr := (cpsr &&& 0xffffffdf) ||| ((regs.lr &&& 1) <<< 5) }
  /- mov r0, #0; str r0, [r1, #0x44] -/
  let f := { f with restore_flags := 0 }
  /- vmrs r0, fpscr; str r0, [r1, #0x48]; add r0, r1, #0x60; vstm r0, {d0-d15} -/
  let f := { f with
    fpscr := regs.fpscr
    d := fun i => if i.val < 16 then regs.d i else f.d i }
  let s := { s with
    frames := fun a => if a = r1 then { s.frames r1 with frame := f } else s.frames a }
  /- mov r6, sp; mov sp, r1; mov r8, r1 -/
  let r6 := regs.sp
  /- ldr r5, [r1, #0x50]; ubfx r4, ip, #12, #2; bfc ip, #12, #20; add r4, r5, r4, lsl #4 -/
  let r5 := f.syscall_table
  let r4 := (regs.r12 >>> 12) &&& 3
  let ip := regs.r12 &&& 0xfff
  let r4 := (r5 + (r4 <<< 4)) % 2 ^ 32
  /- ldr r5, [r4, #8]; cmp ip, r5; bcs 5f -/
  let r5 := ld32 s.mem ((r4 + 8) % 2 ^ 32)
  if ip ≥ r5 then
    /- 5: movw r0, #0x000d; movt r0, #0xc000; add sp, sp, #0x10; b 4b -/
    let regs := { regs with
      r0 := 0xc000000d, r1 := r1, r2 := r2, r4 := r4, r5 := r5, r6 := r6, r8 := r1,
      r12 := ip, sp := (r1 + 0x10) % 2 ^ 32 }
    some { regs := dispatcher_label4 regs s, state := s, invoked := none }
  else
    /- ldr r5, [r4, #12]; ldrb r5, [r5, ip]; cmp r5, #16; it le; movle r5, #16 -/
    let r5 := ld32 s.mem ((r4 + 12) % 2 ^ 32)
    let r5 := ld8 s.mem ((r5 + ip) % 2 ^ 32)
    let r5 := if to_int32 r5 ≤ 16 then 16 else r5
    /- sub r0, sp, r5; and r0, #~7; mov sp, r0 -/
    let sp := (r1 + 2 ^ 32 - r5) % 2 ^ 32 &&& 0xfffffff8
    match dispatcher_copy_args 64 s.mem r6 sp r5 with
    | none => none
    | some (mem, _, _) =>
      /- pop {r0-r3} -/
      let a0 := ld32 mem sp
      let a1 := ld32 mem ((sp + 4) % 2 ^ 32)
      let a2 := ld32 mem ((sp + 8) % 2 ^ 32)
      let a3 := ld32 mem ((sp + 12) % 2 ^ 32)
      let sp := (sp + 16) % 2 ^ 32
      /- ldr r5, [r4]; ldr ip, [r5, ip, lsl #2]; blx ip -/
      let r5 := ld32 mem r4
      let ip := ld32 mem ((r5 + (ip <<< 2)) % 2 ^ 32)
      let (regs, s) := call ip
        { regs with
          r0 := a0, r1 := a1, r2 := a2, r3 := a3, r4 := r4, r5 := r5, r6 := r6, r8 := r1,
          r12 := ip, sp := sp, lr := label4, pc := ip }
        { s with mem := mem }
      some { regs := dispatcher_label4 regs s, state := s, invoked := some ip }

/-! ## Thread context access -/

/-- The pseudo handle `GetCurrentThread()`, `(HANDLE)~(ULONG_PTR)1`. -/
def CURRENT_THREAD : Nat := 0xfffffffe

/-- The assignments to the frame in `NtSetContextThread`, from `if (flags &
CONTEXT_INTEGER)` to `frame->restore_flags |= flags & ~CONTEXT_INTEGER`, where `flags
= context->ContextFlags & ~CONTEXT_ARM`; the complements are 32-bit. -/
def set_context_frame (context : CONTEXT) (f : syscall_frame) : syscall_frame :=
  let flags := context.ContextFlags &&& 0xffdfffff
  let f :=
    if flags &&& CONTEXT_INTEGER ≠ 0 then
      { f with
        r0 := context.R0, r1 := context.R1, r2 := context.R2, r3 := context.R3,
        r4 := context.R4, r5 := context.R5, r6 := context.R6, r7 := context.R7,
        r8 := context.R8, r9 := context.R9, r10 := context.R10, r11 := context.R11,
        r12 := context.R12 }
    else f
  let f :=
    if flags &&& CONTEXT_CONTROL ≠ 0 then
      { f with
        sp := context.Sp
        lr := context.Lr
        pc := if context.Cpsr &&& 0x20 ≠ 0 then (context.Pc &&& 0xfffffffe) ||| 1
              else context.Pc &&& 0xfffffffe
        cpsr := context.Cpsr }
    else f
  let f :=
    if flags &&& CONTEXT_FLOATING_POINT ≠ 0 then
      { f with fpscr := context.Fpscr, d := context.D }
    else f
  { f with restore_flags := f.restore_flags ||| (flags &&& 0xffdffffd) }

/-- Embedding of `NtSetContextThread`.  `set_thread_context` is the server request
made for a handle other than the current thread: its status and the `self` flag it
leaves. -/
def NtSetContextThread (set_thread_context : Nat → CONTEXT → Nat × Bool) (s : State)
    (handle : Nat) (context : CONTEXT) : State × Nat :=
  let frame := s.thread.syscall_frame
  if handle ≠ CURRENT_THREAD ∧
      ((set_thread_context handle context).1 ≠ 0 ∨ (set_thread_context handle context).2 = false)
  then (s, (set_thread_context handle context).1)
  else
    ({ s with frames := fun a =>
        if a = frame then
          { s.frames frame with frame := set_context_frame context (s.frames frame).frame }
        else s.frames a },
     STATUS_SUCCESS)

/-- Embedding of `NtGetContextThread`.  `get_thread_context` is the server request
made for a handle other than the current thread: its status, the `self` flag and the
context it leaves. -/
def NtGetContextThread (get_thread_context : Nat → CONTEXT → Nat × Bool × CONTEXT) (s : State)
    (handle : Nat) (context : CONTEXT) : CONTEXT × Nat :=
  let f := (s.frames s.thread.syscall_frame).frame
  let needed_flags := context.ContextFlags &&& 0xffdfffff
  if handle ≠ CURRENT_THREAD ∧
      ((get_thread_context handle context).1 ≠ 0 ∨ (get_thread_context handle context).2.1 = false)
  then ((get_thread_context handle context).2.2, (get_thread_context handle context).1)
  else
    let context :=
      if handle ≠ CURRENT_THREAD then (get_thread_context handle context).2.2 else context
    let context :=
      if needed_flags &&& CONTEXT_INTEGER ≠ 0 then
        { context with
          R0 := f.r0, R1 := f.r1, R2 := f.r2, R3 := f.r3, R4 := f.r4, R5 := f.r5,
          R6 := f.r6, R7 := f.r7, R8 := f.r8, R9 := f.r9, R10 := f.r10, R11 := f.r11,
          R12 := f.r12,
          ContextFlags := context.ContextFlags ||| CONTEXT_INTEGER }
      else context
    let context :=
      if needed_flags &&& CONTEXT_CONTROL ≠ 0 then
        { context with
          Sp := f.sp, Lr := f.lr, Pc := f.pc, Cpsr := f.cpsr,
          ContextFlags := context.ContextFlags ||| CONTEXT_CONTROL }
      else context
    let context :=
      if needed_flags &&& CONTEXT_FLOATING_POINT ≠ 0 then
        { context with
          Fpscr := f.fpscr, D := f.d,
          ContextFlags := context.ContextFlags ||| CONTEXT_FLOATING_POINT }
      else context
    (context, STATUS_SUCCESS)

/-- Embedding of `signal_set_full_context`. -/
def signal_set_full_context (set_thread_context : Nat → CONTEXT → Nat × Bool) (s : State)
    (context : CONTEXT) : State × Nat :=
  let r := NtSetContextThread set_thread_context s CURRENT_THREAD context
  if r.2 = 0 ∧ context.ContextFlags &&& CONTEXT_INTEGER = CONTEXT_INTEGER then
    ({ r.1 with frames := fun a =>
        if a = r.1.thread.syscall_frame then
          { r.1.frames a with frame := { (r.1.frames a).frame with
              restore_flags := (r.1.frames a).frame.restore_flags ||| CONTEXT_INTEGER } }
        else r.1.frames a },
     r.2)
  else r

/-! ## Unwinding through builtin code -/

/-- Result codes of libunwind. -/
def UNW_ESUCCESS : Int := 0
def UNW_ENOINFO : Int := 10

/-- The fields of libunwind's `unw_proc_info_t` that the source reads. -/
structure unw_proc_info_t where
  start_ip : Nat
  end_ip : Nat
  handler : Nat
  lsda : Nat
  unwind_info : Nat
deriving DecidableEq

/-- The registers that `unw_get_reg` returns for a cursor: `UNW_ARM_R0 + i` for
`i = 0..12`, `UNW_ARM_R13`, `UNW_ARM_R14` and `UNW_REG_IP`. -/
structure unw_regs where
  R : Fin 13 → Nat
  R13 : Nat
  R14 : Nat
  IP : Nat

/-- The stepping service (libunwind), as functions of the `unw_context_t` that
`unwind_builtin_dll` fills (`regs[0..15]`): the result of `unw_init_local`, of
`unw_get_proc_info` (with the info it writes), and of `unw_step` (with the registers
that `unw_get_reg` returns afterwards). -/
structure Libunwind where
  unw_init_local : (Fin 16 → Nat) → Int
  unw_get_proc_info : (Fin 16 → Nat) → Int × unw_proc_info_t
  unw_step : (Fin 16 → Nat) → Int × unw_regs

/-- The fields of `DISPATCHER_CONTEXT` that `unwind_builtin_dll` accesses. -/
structure DISPATCHER_CONTEXT where
  ControlPcIsUnwound : Nat
  LanguageHandler : Nat
  HandlerData : Nat
  EstablisherFrame : Nat
deriving DecidableEq

/-- The array view `(&context->R0)[i]` for `i = 0..12`. -/
def CONTEXT.R (c : CONTEXT) (i : Fin 13) : Nat :=
  match i with
  | ⟨0, _⟩ => c.R0 | ⟨1, _⟩ => c.R1 | ⟨2, _⟩ => c.R2 | ⟨3, _⟩ => c.R3 | ⟨4, _⟩ => c.R4
  | ⟨5, _⟩ => c.R5 | ⟨6, _⟩ => c.R6 | ⟨7, _⟩ => c.R7 | ⟨8, _⟩ => c.R8 | ⟨9, _⟩ => c.R9
  | ⟨10, _⟩ => c.R10 | ⟨11, _⟩ => c.R11 | _ => c.R12

/-- The `unw_context_t` filled from a `CONTEXT`: `regs[i] = (&context->R0)[i]` for
`i = 0..12`, `regs[13] = Sp`, `regs[14] = Lr`, `regs[15] = Pc`. -/
def unw_context_of (c : CONTEXT) : Fin 16 → Nat := fun i =>
  if h : i.val < 13 then c.R ⟨i.val, h⟩
  else if i.val = 13 then c.Sp
  else if i.val = 14 then c.Lr
  else c.Pc

/-- Embedding of `unwind_builtin_dll` (built with libunwind).  Returns the status,
the dispatcher context and the context. -/
def unwind_builtin_dll (uw : Libunwind) (env : Env) (m : Mem) (dispatch : DISPATCHER_CONTEXT)
    (context : CONTEXT) : Nat × DISPATCHER_CONTEXT × CONTEXT :=
  let ip := (context.Pc + 2 ^ 32 - (if dispatch.ControlPcIsUnwound ≠ 0 then 2 else 0)) % 2 ^ 32
  let unw_context := unw_context_of context
  if uw.unw_init_local unw_context ≠ UNW_ESUCCESS then
    (STATUS_INVALID_DISPOSITION, dispatch, context)
  else
    let rc := (uw.unw_get_proc_info unw_context).1
    let info := (uw.unw_get_proc_info unw_context).2
    if rc ≠ UNW_ESUCCESS ∧ rc ≠ -UNW_ENOINFO then
      (STATUS_INVALID_DISPOSITION, dispatch, context)
    else if rc = -UNW_ENOINFO ∨ ip < info.start_ip ∨ ip > info.end_ip then
      let status :=
        if context.Pc ≠ context.Lr then STATUS_SUCCESS else STATUS_INVALID_DISPOSITION
      (status,
       { dispatch with LanguageHandler := 0, EstablisherFrame := context.Sp },
       { context with
         Pc := context.Lr
         ContextFlags := context.ContextFlags ||| CONTEXT_UNWOUND_TO_CALL })
    else
      let rc := (uw.unw_step unw_context).1
      let cursor := (uw.unw_step unw_context).2
      if rc < 0 then (STATUS_INVALID_DISPOSITION, dispatch, context)
      else
        let dispatch := { dispatch with
          LanguageHandler := info.handler
          HandlerData := info.lsda
          EstablisherFrame := context.Sp }
        let context := { context with
          R0 := cursor.R 0, R1 := cursor.R 1, R2 := cursor.R 2, R3 := cursor.R 3,
          R4 := cursor.R 4, R5 := cursor.R 5, R6 := cursor.R 6, R7 := cursor.R 7,
          R8 := cursor.R 8, R9 := cursor.R 9, R10 := cursor.R 10, R11 := cursor.R 11,
          R12 := cursor.R 12,
          Sp := cursor.R13, Lr := cursor.R14, Pc := cursor.IP,
          ContextFlags := context.ContextFlags ||| CONTEXT_UNWOUND_TO_CALL }
        let context :=
          if info.start_ip &&& 0xfffffffe = env.raise_func_trampoline &&& 0xfffffffe then
            { context with Lr := ld32 m dispatch.EstablisherFrame }
          else context
        (STATUS_SUCCESS, dispatch, context)

/-! ## Sample environments and inputs -/

/-- Sample environment: the debugger answers `DBG_CONTINUE` and leaves the context
alone, the page-fault service resolves every fault, the transfer block is placed
0x1f0 bytes below the stack pointer. -/
def Env.handled : Env :=
  { send_debug_event := fun _ c => (DBG_CONTINUE, c)
    virtual_setup_exception := fun stack_ptr size _ => (stack_ptr + 2 ^ 32 - size) % 2 ^ 32
    virtual_handle_fault := fun _ _ _ => 0
    raise_func_trampoline := 0x70000101
    wine_syscall_dispatcher_return := 0x70000201
    wine_longjmp := 0x70000301
    pKiUserExceptionDispatcher := 0x7b000001
    pKiUserCallbackDispatcher := 0x7b000101
    min_kernel_stack := 0x2000
    sizeof_CONTEXT := 0x1a0
    sizeof_EXCEPTION_RECORD := 0x50 }

/-- Sample environment: no debugger (status 0), every page fault is an access
violation. -/
def Env.unhandled : Env :=
  { Env.handled with
    send_debug_event := fun _ c => (0, c)
    virtual_handle_fault := fun _ _ _ => EXCEPTION_ACCESS_VIOLATION }

/-- Sample host context: Thumb state (bit 0x20 of cpsr) with the even pc that the
kernel reports, `sp = 0x20000`, `uc_regspace` at `0x1000`. -/
def uc_thumb : ucontext_t :=
  { ucontext_t.zero 0x1000 with arm_pc := 0x8000, arm_cpsr := 0x20, arm_sp := 0x20000 }

/-- Sample thread data: kernel stack at `0x10000`, current frame at `0x2fea0`. -/
def thread_sample : ThreadData :=
  { kernel_stack := 0x10000, jmp_buf := 0, exit_frame := 0, syscall_frame := 0x2fea0 }

/-- The record that `segv_handler` builds for an alignment fault. -/
def record_misalignment : EXCEPTION_RECORD :=
  { EXCEPTION_RECORD.zero with ExceptionCode := EXCEPTION_DATATYPE_MISALIGNMENT }

/-- The record that `trap_handler` builds for a breakpoint trap. -/
def record_breakpoint : EXCEPTION_RECORD :=
  { EXCEPTION_RECORD.zero with ExceptionCode := EXCEPTION_BREAKPOINT, NumberParameters := 1 }

/-- Sample thread state: the thread data of `thread_sample`, a zeroed root frame
(so `prev_frame = NULL`) and zeroed memory. -/
def state_sample : State :=
  { thread := thread_sample, frames := fun _ => user_callback_frame.zero, mem := fun _ => 0 }

/-- Sample service-call state: the frame at `0x2fea0` uses the service table at
`0x4000`, whose first descriptor has `ServiceLimit = 2` (the word at `0x4008`). -/
def state_dispatch : State :=
  { thread := thread_sample
    frames := fun _ => { user_callback_frame.zero with
      frame := { syscall_frame.zero with syscall_table := 0x4000 } }
    mem := Mem.ofList [(0x4008, 2)] }

/-- Sample registers at a service call: `ip = 5` (table 0, entry 5), `r4 = 44`. -/
def regs_call : Regs :=
  { Regs.zero with r3 := 0x401235, r4 := 44, r12 := 5, sp := 0x7ff000, lr := 0x401001 }

/-- Sample memory: the halfword `0xdefe` (the breakpoint encoding) at `0x8000`. -/
def mem_breakpoint : Mem := Mem.ofList [(0x8000, 0xfe), (0x8001, 0xde)]

/-- Sample host context of a write fault: trap number 14, bit 0x800 of the error
code set. -/
def uc_pagefault : ucontext_t :=
  { uc_thumb with trap_no := 14, error_code := 0x817 }

/-- Sample memory with a corrupt chain in the `uc_regspace` at `0x1000..0x11ff`: a
first record with magic 1 and size 508, so that the next header starts at `0x11fc`,
four bytes before the end of the `ucontext_t`; there the VFP magic, and at `0x1200`
(the first byte after the `ucontext_t`) a non-zero size word; `0xaa` at `0x1204`. -/
def mem_overrun : Mem :=
  Mem.ofList [(0x1000, 0x01), (0x1004, 0xfc), (0x1005, 0x01),
    (0x11fc, 0x01), (0x11fd, 0x50), (0x11fe, 0x46), (0x11ff, 0x56),
    (0x1200, 0x10), (0x1204, 0xaa)]

/-- Sample memory with a cyclic chain in the `uc_regspace` at `0x1000`: a record of
size 8 followed by a record whose size `0xfffffff8` wraps the pointer back to
`0x1000`. -/
def mem_cycle : Mem :=
  Mem.ofList [(0x1000, 0x01), (0x1004, 0x08),
    (0x1008, 0x01), (0x100c, 0xf8), (0x100d, 0xff), (0x100e, 0xff), (0x100f, 0xff)]

/-- Sample registers as a service body leaves them: `r0 = 0x103` (its status),
`ip = 99`, `sp` on the kernel stack, `r8` the frame at `0x2fea0`. -/
def regs_after_service : Regs :=
  { Regs.zero with r0 := 0x103, r8 := 0x2fea0, r12 := 99, sp := 0x2fe00 }

/-- Sample state at the return of a service: the frame at `0x2fea0` holds the
caller's `r12 = 5` and `sp = 0x7ff010`, and its `restore_flags` are 0. -/
def state_return : State :=
  { thread := thread_sample
    frames := fun _ => { user_callback_frame.zero with
      frame := { syscall_frame.zero with r0 := 7, r12 := 5, sp := 0x7ff010, pc := 0x401001 } }
    mem := fun _ => 0 }

/-- Sample stepping service without metadata: `unw_get_proc_info` reports
`-UNW_ENOINFO`. -/
def Libunwind.noinfo : Libunwind :=
  { unw_init_local := fun _ => 0
    unw_get_proc_info := fun _ =>
      (-10, { start_ip := 0, end_ip := 0, handler := 0, lsda := 0, unwind_info := 0 })
    unw_step := fun _ => (0, { R := fun _ => 0, R13 := 0, R14 := 0, IP := 0 }) }

/-- Sample stepping service that finds the function `[start, start + 0x20]` for every
pc and steps to a frame with `R13 = 0x20010`, `R14 = 0x1234`, `IP = 0x5679`. -/
def Libunwind.found (start : Nat) : Libunwind :=
  { unw_init_local := fun _ => 0
    unw_get_proc_info := fun _ =>
      (0, { start_ip := start, end_ip := start + 0x20, handler := 0x9000, lsda := 0x9100,
            unwind_info := 0 })
    unw_step := fun _ => (1, { R := fun i => i.val, R13 := 0x20010, R14 := 0x1234,
                               IP := 0x5679 }) }

/-- The all-zero dispatcher context. -/
def DISPATCHER_CONTEXT.zero : DISPATCHER_CONTEXT :=
  { ControlPcIsUnwound := 0, LanguageHandler := 0, HandlerData := 0, EstablisherFrame := 0 }

/-- Sample context inside the trampoline of `Env.handled` (at `0x70000100`), with
`Sp = 0x20000`. -/
def ctx_in_trampoline : CONTEXT :=
  { CONTEXT.zero with ContextFlags := CONTEXT_FULL, Pc := 0x7000010b, Sp := 0x20000,
                      Lr := 0x4444 }

/-- Sample memory: the word `0xcafe` at `0x20000`. -/
def mem_saved_lr : Mem := Mem.ofList [(0x20000, 0xfe), (0x20001, 0xca)]

/-! ## The argument spill of the dispatcher, step by step -/

/-- The service descriptor that `__wine_syscall_dispatcher` selects:
`ldr r5, [r1, #0x50]; ubfx r4, ip, #12, #2; add r4, r5, r4, lsl #4`. -/
def dispatcher_table (regs : Regs) (s : State) : Nat :=
  ((s.frames s.thread.syscall_frame).frame.syscall_table
    + (((regs.r12 >>> 12) &&& 3) <<< 4)) % 2 ^ 32

/-- The declared argument byte count of the requested service:
`ldr r5, [r4, #12]; ldrb r5, [r5, ip]`, with `ip` the low 12 bits of the number. -/
def dispatcher_arg_bytes (regs : Regs) (s : State) : Nat :=
  ld8 s.mem ((ld32 s.mem ((dispatcher_table regs s + 12) % 2 ^ 32)
    + (regs.r12 &&& 0xfff)) % 2 ^ 32)

/-- The size of the spill area: `cmp r5, #16; it le; movle r5, #16`. -/
def dispatcher_spill_size (n : Nat) : Nat :=
  if to_int32 n ≤ 16 then 16 else n

/-- The stack pointer during the copy: `sub r0, sp, r5; and r0, #~7; mov sp, r0`,
with `sp` the frame. -/
def dispatcher_spill_sp (frame size : Nat) : Nat :=
  (frame + 2 ^ 32 - size) % 2 ^ 32 &&& 0xfffffff8

/-- The address of the service body: `ldr r5, [r4]; ldr ip, [r5, ip, lsl #2]`. -/
def dispatcher_service (regs : Regs) (s : State) (mem : Mem) : Nat :=
  ld32 mem ((ld32 mem (dispatcher_table regs s) + ((regs.r12 &&& 0xfff) <<< 2)) % 2 ^ 32)

/-- The copy as the specification describes it ("the words at offsets size-4 down to
0"): the memory after copying `k` words from the block at `src` to the block at
`dst`, the word at offset `4 * (k - 1)` first and the word at offset 0 last. -/
def spec_copy_words (m : Mem) (src dst : Nat) : Nat → Mem
  | 0 => m
  | k + 1 => spec_copy_words (st32 m (dst + 4 * k) (ld32 m (src + 4 * k))) src dst k

/-- Sample service tables: the descriptor at `0x4000` has `ServiceTable = 0x6000`,
`ServiceLimit = 2` and `ArgumentTable = 0x5000`; service 1 declares 24 argument
bytes and its body is at `0x409001`.  The caller's argument block at `0x7ff000`
holds the words 1 to 6. -/
def mem_service_tables : Mem :=
  Mem.ofList [(0x4001, 0x60), (0x4008, 2), (0x400d, 0x50), (0x5001, 24),
    (0x6004, 0x01), (0x6005, 0x90), (0x6006, 0x40),
    (0x7ff000, 1), (0x7ff004, 2), (0x7ff008, 3), (0x7ff00c, 4), (0x7ff010, 5),
    (0x7ff014, 6)]

/-- Sample service-call state over `mem_service_tables`: the frame at `0x2fea0` uses
the table at `0x4000`. -/
def state_service : State :=
  { thread := thread_sample
    frames := fun _ => { user_callback_frame.zero with
      frame := { syscall_frame.zero with syscall_table := 0x4000 } }
    mem := mem_service_tables }

/-- Sample registers at a call of service 1 of table 0, `sp = 0x7ff000`. -/
def regs_service : Regs :=
  { Regs.zero with r3 := 0x401235, r12 := 1, sp := 0x7ff000, lr := 0x401001 }

/-- Sample service body that reports the stack pointer it is entered with. -/
def call_report_sp (_ : Nat) (regs : Regs) (s : State) : Regs × State :=
  ({ regs with r0 := regs.sp }, s)

/-! ## Register groups of contexts and frames -/

/-- The integer group of a `CONTEXT`, the fields copied under
`if (flags & CONTEXT_INTEGER)`: `R0`..`R12`. -/
def CONTEXT.integer_group (c : CONTEXT) : List Nat :=
  [c.R0, c.R1, c.R2, c.R3, c.R4, c.R5, c.R6, c.R7, c.R8, c.R9, c.R10, c.R11, c.R12]

/-- The control group of a `CONTEXT`, the fields copied under
`if (flags & CONTEXT_CONTROL)`: `Sp`, `Lr`, `Pc`, `Cpsr`. -/
def CONTEXT.control_group (c : CONTEXT) : List Nat := [c.Sp, c.Lr, c.Pc, c.Cpsr]

/-- The floating-point group of a `CONTEXT`, the fields copied under
`if (flags & CONTEXT_FLOATING_POINT)`: `Fpscr` and `D`. -/
def CONTEXT.floating_group (c : CONTEXT) : Nat × (Fin 32 → Nat) := (c.Fpscr, c.D)

/-- The integer group of a frame: `r0`..`r12`. -/
def syscall_frame.integer_group (f : syscall_frame) : List Nat :=
  [f.r0, f.r1, f.r2, f.r3, f.r4, f.r5, f.r6, f.r7, f.r8, f.r9, f.r10, f.r11, f.r12]

/-- The control group of a frame: `sp`, `lr`, `pc`, `cpsr`. -/
def syscall_frame.control_group (f : syscall_frame) : List Nat := [f.sp, f.lr, f.pc, f.cpsr]

/-- The floating-point group of a frame: `fpscr` and `d`. -/
def syscall_frame.floating_group (f : syscall_frame) : Nat × (Fin 32 → Nat) := (f.fpscr, f.d)

/-- Sample request: the integer and control groups of `ctx_thumb` (flags
`CONTEXT_CONTROL | CONTEXT_INTEGER`), with `R0 = 7` and `Sp = 0x20000`. -/
def ctx_set_sample : CONTEXT :=
  { ctx_thumb with ContextFlags := 0x200003, R0 := 7, Sp := 0x20000 }

/-- Sample output buffer: the same flags, every register `0`. -/
def ctx_get_sample : CONTEXT :=
  { CONTEXT.zero with ContextFlags := 0x200003 }

/-! ## The extension chain as the specification describes it -/

/-- The records of a `{magic, size}` chain as the specification describes them:
`spec_chain m stop magic ps ctx last` says that `ps` lists the addresses of the
consecutive records from `ctx` on, each of which starts below `stop` and has a
non-zero magic other than `magic` and a non-zero size, and that `last` is the
address that follows the last of them. -/
def spec_chain (m : Mem) (stop magic : Nat) : List Nat → Nat → Nat → Prop
  | [], ctx, last => last = ctx
  | p :: ps, ctx, last =>
    p = ctx ∧ ctx < stop ∧ ld32 m ctx ≠ 0 ∧ ld32 m (ctx + 4) ≠ 0 ∧ ld32 m ctx ≠ magic ∧
    spec_chain m stop magic ps ((ctx + ld32 m (ctx + 4)) % 2 ^ 32) last

/-- The chain ends at `last`: the end of the ucontext, a zero magic or a zero size. -/
def spec_chain_end (m : Mem) (stop last : Nat) : Prop :=
  ¬ last < stop ∨ ld32 m last = 0 ∨ ld32 m (last + 4) = 0

/-- There is a record with magic `magic` (and a non-zero size) at `last`. -/
def spec_chain_record (m : Mem) (stop magic last : Nat) : Prop :=
  last < stop ∧ ld32 m last = magic ∧ ld32 m last ≠ 0 ∧ ld32 m (last + 4) ≠ 0

/-- Sample memory: a record with magic 1 and size 8 at `0x1000`, followed by a VFP
record (magic `0x56465001`, size `0x120`) at `0x1008` whose `fpregs[0]` is `0xaa`
and whose `fpscr` is 3. -/
def mem_vfp_second : Mem :=
  Mem.ofList [(0x1000, 0x01), (0x1004, 0x08),
    (0x1008, 0x01), (0x1009, 0x50), (0x100a, 0x46), (0x100b, 0x56),
    (0x100c, 0x20), (0x100d, 0x01), (0x1010, 0xaa), (0x1110, 0x03)]

/-- Sample memory: a record with magic 1 at `0x1000` whose size `0xffffff38` wraps
the pointer to `0xf38`, the address of `arm_r0` of the host context whose
`uc_regspace` is at `0x1000`. -/
def mem_chain_into_regs : Mem :=
  Mem.ofList [(0x1000, 0x01), (0x1004, 0x38), (0x1005, 0xff), (0x1006, 0xff), (0x1007, 0xff)]

/-- Sample guest context whose `R0` is the VFP magic and whose `R1` is `0x120`. -/
def ctx_magic_in_r0 : CONTEXT :=
  { ctx_thumb with R0 := 0x56465001, R1 := 0x120 }

/-! ## Memory lemmas -/

theorem ld8_lt (m : Mem) (a : Nat) : ld8 m a < 256 := by
  unfold ld8; omega

theorem ld8_st8_same (m : Mem) (a v : Nat) : ld8 (st8 m a v) a = v % 256 := by
  simp [ld8, st8]

theorem ld8_st8_other (m : Mem) (a b v : Nat) (h : b % 2 ^ 32 ≠ a % 2 ^ 32) :
    ld8 (st8 m a v) b = ld8 m b := by
  show (if b % 2 ^ 32 = a % 2 ^ 32 then v % 256 else m (b % 2 ^ 32)) % 256 = _
  rw [if_neg h]
  rfl

theorem ldN_lt (m : Mem) (n a : Nat) : ldN m n a < 256 ^ n := by
  induction n generalizing a with
  | zero => simp [ldN]
  | succ n ih =>
    have h1 := ih (a + 1)
    have h2 := ld8_lt m a
    simp only [ldN, pow_succ]
    nlinarith

theorem ldN_congr (m1 m2 : Mem) (n a : Nat)
    (h : ∀ k, k < n → ld8 m1 (a + k) = ld8 m2 (a + k)) : ldN m1 n a = ldN m2 n a := by
  induction n generalizing a with
  | zero => simp [ldN]
  | succ n ih =>
    simp only [ldN]
    have h0 := h 0 (by omega)
    rw [Nat.add_zero] at h0
    rw [h0, ih (a + 1)]
    intro k hk
    have := h (k + 1) (by omega)
    rw [show a + 1 + k = a + (k + 1) by omega]
    exact this

theorem ld8_stN_other (n : Nat) (m : Mem) (a v b : Nat)
    (h : ∀ k, k < n → b % 2 ^ 32 ≠ (a + k) % 2 ^ 32) : ld8 (stN n m a v) b = ld8 m b := by
  induction n generalizing m a v with
  | zero => simp [stN]
  | succ n ih =>
    simp only [stN]
    rw [ih]
    · apply ld8_st8_other
      have := h 0 (by omega)
      simpa using this
    · intro k hk
      have := h (k + 1) (by omega)
      rw [show a + 1 + k = a + (k + 1) by omega]
      exact this

theorem ldN_stN_same (n : Nat) (m : Mem) (a v : Nat) (hn : n ≤ 2 ^ 32) :
    ldN (stN n m a v) n a = v % 256 ^ n := by
  induction n generalizing m a v with
  | zero => simp [ldN, Nat.mod_one]
  | succ n ih =>
    simp only [ldN, stN]
    rw [ih _ _ _ (by omega)]
    rw [ld8_stN_other, ld8_st8_same]
    · rw [pow_succ, Nat.mul_comm (256 ^ n) 256, Nat.mod_mul]
    · intro k hk
      omega

/-! ## Bit lemmas for the Thumb bit (0x20 of CPSR, 1 of pc) -/

theorem and_bit_ne_zero_iff (x k : Nat) : x &&& 2 ^ k ≠ 0 ↔ x.testBit k = true := by
  constructor
  · intro h
    by_contra hb
    apply h
    apply Nat.eq_of_testBit_eq
    intro i
    simp only [Nat.testBit_and, Nat.testBit_two_pow, Nat.zero_testBit]
    by_cases hi : k = i
    · subst hi; simp [hb]
    · simp [hi]
  · intro hb h
    have := congrArg (fun y => y.testBit k) h
    simp [hb, Nat.testBit_two_pow] at this

theorem or_bit_of_testBit (x k : Nat) (h : x.testBit k = true) : x ||| 2 ^ k = x := by
  apply Nat.eq_of_testBit_eq
  intro i
  simp only [Nat.testBit_or, Nat.testBit_two_pow]
  by_cases hi : k = i
  · subst hi; simp [h]
  · simp [hi]

theorem testBit_clear5 (x i : Nat) (hx : x < 2 ^ 32) :
    (x &&& 0xffffffdf).testBit i = (x.testBit i && !decide (5 = i)) := by
  have hm : (0xffffffdf : Nat) = (2 ^ 32 - 1) ^^^ 2 ^ 5 := by decide
  rw [hm, Nat.testBit_and, Nat.testBit_xor, Nat.testBit_two_pow_sub_one, Nat.testBit_two_pow]
  by_cases h32 : i < 32
  · by_cases h5 : 5 = i <;> simp [h32, h5]
  · have : x.testBit i = false :=
      Nat.testBit_lt_two_pow (lt_of_lt_of_le hx (Nat.pow_le_pow_right (by decide) (by omega)))
    simp [this]

theorem thumb_set (x : Nat) : (x ||| 0x20) &&& 0x20 ≠ 0 := by
  rw [show (0x20 : Nat) = 2 ^ 5 by decide, and_bit_ne_zero_iff, Nat.testBit_or,
    Nat.testBit_two_pow_self, Bool.or_true]

theorem or_thumb_eq (x : Nat) (h : x &&& 0x20 ≠ 0) : x ||| 0x20 = x := by
  rw [show (0x20 : Nat) = 2 ^ 5 by decide] at h ⊢
  exact or_bit_of_testBit x 5 ((and_bit_ne_zero_iff x 5).1 h)

theorem and_clear_thumb_eq (x : Nat) (hx : x < 2 ^ 32) (h : x &&& 0x20 = 0) :
    x &&& 0xffffffdf = x := by
  apply Nat.eq_of_testBit_eq
  intro i
  rw [testBit_clear5 _ _ hx]
  by_cases h5 : 5 = i
  · subst h5
    have : ¬ (x.testBit 5 = true) := by
      intro hb
      exact ((and_bit_ne_zero_iff x 5).2 hb) (by simpa using h)
    simp [this]
  · simp [h5]

theorem or_one_eq (x : Nat) (h : x &&& 1 ≠ 0) : x ||| 1 = x := by
  have h1 : x &&& 2 ^ 0 ≠ 0 := by simpa using h
  have := or_bit_of_testBit x 0 ((and_bit_ne_zero_iff x 0).1 h1)
  simpa using this

theorem or_one_and_one (x : Nat) : (x ||| 1) &&& 1 ≠ 0 := by
  have : (x ||| 2 ^ 0) &&& 2 ^ 0 ≠ 0 := by
    rw [and_bit_ne_zero_iff, Nat.testBit_or, Nat.testBit_two_pow_self, Bool.or_true]
  exact this

/-! ## The copy of the doubleword registers -/

theorem foldl_st64_other (dst : Nat) (D : Fin 32 → Nat) (l : List (Fin 32)) (m : Mem) (b : Nat)
    (h : ∀ i ∈ l, ∀ k, k < 8 → b % 2 ^ 32 ≠ (dst + 8 * i.val + k) % 2 ^ 32) :
    ld8 (l.foldl (fun mm i => st64 mm (dst + 8 * i.val) (D i)) m) b = ld8 m b := by
  induction l generalizing m with
  | nil => rfl
  | cons j l ih =>
    simp only [List.foldl_cons]
    rw [ih]
    · exact ld8_stN_other 8 m _ _ b (h j (List.mem_cons_self _ _))
    · intro i hi
      exact h i (List.mem_cons_of_mem _ hi)

theorem foldl_st64_same (dst : Nat) (D : Fin 32 → Nat) (l : List (Fin 32)) (m : Mem)
    (i : Fin 32) (hi : i ∈ l) (hnd : l.Nodup) :
    ld64 (l.foldl (fun mm i => st64 mm (dst + 8 * i.val) (D i)) m) (dst + 8 * i.val)
      = D i % 2 ^ 64 := by
  induction l generalizing m with
  | nil => cases hi
  | cons j l ih =>
    simp only [List.foldl_cons]
    rw [List.nodup_cons] at hnd
    by_cases hij : i = j
    · subst hij
      have hfr : ld64 (l.foldl (fun mm i => st64 mm (dst + 8 * i.val) (D i))
          (st64 m (dst + 8 * i.val) (D i))) (dst + 8 * i.val)
          = ld64 (st64 m (dst + 8 * i.val) (D i)) (dst + 8 * i.val) := by
        apply ldN_congr
        intro k hk
        apply foldl_st64_other
        intro j hj k2 hk2
        have hne : j ≠ i := fun e => hnd.1 (e ▸ hj)
        have hne2 : j.val ≠ i.val := fun e => hne (Fin.ext e)
        have := i.isLt
        have := j.isLt
        omega
      rw [hfr]
      exact ldN_stN_same 8 m _ _ (by norm_num)
    · rcases List.mem_cons.1 hi with h | h
      · exact absurd h hij
      · exact ih _ h hnd.2

theorem memcpy_from_D_other (m : Mem) (dst : Nat) (D : Fin 32 → Nat) (b : Nat)
    (h : ∀ j, j < 256 → b % 2 ^ 32 ≠ (dst + j) % 2 ^ 32) :
    ld8 (memcpy_from_D m dst D) b = ld8 m b := by
  apply foldl_st64_other
  intro i _ k hk
  have := i.isLt
  have := h (8 * i.val + k) (by omega)
  rwa [← Nat.add_assoc] at this

theorem memcpy_from_D_same (m : Mem) (dst : Nat) (D : Fin 32 → Nat) (i : Fin 32) :
    ld64 (memcpy_from_D m dst D) (dst + 8 * i.val) = D i % 2 ^ 64 :=
  foldl_st64_same dst D _ m i (List.mem_finRange i) (List.nodup_finRange 32)

/-! ## The chain scan only depends on the words it reads -/

theorem get_extended_sigcontext_loop_congr (m m1 : Mem) (stop magic : Nat) (fuel ctx : Nat)
    (res : Nat) (reads : List Nat)
    (h : get_extended_sigcontext_loop m stop magic fuel ctx = some (res, reads))
    (hm : ∀ r ∈ reads, ld32 m1 r = ld32 m r) :
    get_extended_sigcontext_loop m1 stop magic fuel ctx = some (res, reads) := by
  induction fuel generalizing ctx res reads with
  | zero => simp [get_extended_sigcontext_loop] at h
  | succ fuel ih =>
    unfold get_extended_sigcontext_loop at h ⊢
    by_cases h1 : ¬ ctx < stop
    · rw [if_pos h1] at h ⊢; exact h
    · rw [if_neg h1] at h ⊢
      by_cases h2 : ld32 m ctx = 0
      · rw [if_pos h2] at h
        have hh := Option.some.inj h
        have hr : reads = [ctx] := (congrArg Prod.snd hh).symm
        have e1 : ld32 m1 ctx = ld32 m ctx := hm ctx (by rw [hr]; simp)
        rw [if_pos (e1.trans h2)]; exact h
      · rw [if_neg h2] at h
        by_cases h3 : ld32 m (ctx + 4) = 0
        · rw [if_pos h3] at h
          have hh := Option.some.inj h
          have hr : reads = [ctx, ctx + 4] := (congrArg Prod.snd hh).symm
          have e1 : ld32 m1 ctx = ld32 m ctx := hm ctx (by rw [hr]; simp)
          have e2 : ld32 m1 (ctx + 4) = ld32 m (ctx + 4) := hm _ (by rw [hr]; simp)
          rw [if_neg (by rw [e1]; exact h2), if_pos (e2.trans h3)]; exact h
        · rw [if_neg h3] at h
          by_cases h4 : ld32 m ctx = magic
          · rw [if_pos h4] at h
            have hh := Option.some.inj h
            have hr : reads = [ctx, ctx + 4] := (congrArg Prod.snd hh).symm
            have e1 : ld32 m1 ctx = ld32 m ctx := hm ctx (by rw [hr]; simp)
            have e2 : ld32 m1 (ctx + 4) = ld32 m (ctx + 4) := hm _ (by rw [hr]; simp)
            rw [if_neg (by rw [e1]; exact h2), if_neg (by rw [e2]; exact h3),
              if_pos (e1.trans h4)]; exact h
          · rw [if_neg h4] at h
            cases hrec : get_extended_sigcontext_loop m stop magic fuel
                ((ctx + ld32 m (ctx + 4)) % 2 ^ 32) with
            | none => rw [hrec] at h; cases h
            | some p =>
              obtain ⟨r0, t0⟩ := p
              rw [hrec] at h
              have hh := Option.some.inj h
              have hr : reads = ctx :: (ctx + 4) :: t0 := (congrArg Prod.snd hh).symm
              have e1 : ld32 m1 ctx = ld32 m ctx := hm ctx (by rw [hr]; simp)
              have e2 : ld32 m1 (ctx + 4) = ld32 m (ctx + 4) := hm _ (by rw [hr]; simp)
              have hrec1 := ih _ r0 t0 hrec (fun r hr0 => hm r (by rw [hr]; simp [hr0]))
              rw [if_neg (by rw [e1]; exact h2), if_neg (by rw [e2]; exact h3),
                if_neg (by rw [e1]; exact h4), e2, hrec1]
              exact h

/-! ## Write-back followed by capture of the VFP record -/

/-- The memory written by `restore_fpu` into the record at `frame`. -/
theorem restore_fpu_mem_other (m : Mem) (frame : Nat) (c : CONTEXT) (b : Nat)
    (h : ∀ j, j < 260 → b % 2 ^ 32 ≠ (frame + VFP_FPREGS + j) % 2 ^ 32) :
    ld8 (st32 (memcpy_from_D m (frame + VFP_FPREGS) c.D) (frame + VFP_FPSCR) c.Fpscr) b
      = ld8 m b := by
  unfold st32
  rw [ld8_stN_other]
  · apply memcpy_from_D_other
    intro j hj
    exact h j (by omega)
  · intro k hk
    have := h (256 + k) (by omega)
    unfold VFP_FPREGS at this
    unfold VFP_FPSCR
    omega

theorem restore_fpu_mem_D (m : Mem) (frame : Nat) (c : CONTEXT) (i : Fin 32) :
    ld64 (st32 (memcpy_from_D m (frame + VFP_FPREGS) c.D) (frame + VFP_FPSCR) c.Fpscr)
      (frame + VFP_FPREGS + 8 * i.val) = c.D i % 2 ^ 64 := by
  rw [← memcpy_from_D_same m (frame + VFP_FPREGS) c.D i]
  apply ldN_congr
  intro k hk
  apply ld8_stN_other
  intro k2 hk2
  have := i.isLt
  unfold VFP_FPREGS VFP_FPSCR
  omega

theorem restore_fpu_mem_Fpscr (m : Mem) (frame : Nat) (c : CONTEXT) :
    ld32 (st32 (memcpy_from_D m (frame + VFP_FPREGS) c.D) (frame + VFP_FPSCR) c.Fpscr)
      (frame + VFP_FPSCR) = c.Fpscr % 2 ^ 32 :=
  ldN_stN_same 4 _ _ _ (by norm_num)

theorem restore_context_regs_regspace (c : CONTEXT) (h : ucontext_t) :
    (restore_context_regs c h).uc_regspace = h.uc_regspace := by
  unfold restore_context_regs
  simp only
  split <;> rfl

theorem get_extended_sigcontext_reads_regspace (fuel : Nat) (m : Mem) (s1 s2 : ucontext_t)
    (magic : Nat) (h : s1.uc_regspace = s2.uc_regspace) :
    get_extended_sigcontext_reads fuel m s1 magic = get_extended_sigcontext_reads fuel m s2 magic := by
  unfold get_extended_sigcontext_reads
  rw [h]

theorem ld8_st8_ld8 (m : Mem) (a b : Nat) : ld8 (st8 m a (ld8 m a)) b = ld8 m b := by
  by_cases h : b % 2 ^ 32 = a % 2 ^ 32
  · unfold ld8 st8
    simp only [h, if_true]
    omega
  · exact ld8_st8_other m a b _ h

theorem ld8_stN_ldN (n : Nat) (m m0 : Mem) (a b : Nat) (hm : ∀ x, ld8 m x = ld8 m0 x) :
    ld8 (stN n m a (ldN m0 n a)) b = ld8 m0 b := by
  induction n generalizing m a with
  | zero => exact hm b
  | succ n ih =>
    simp only [stN, ldN]
    have h8 := ld8_lt m0 a
    have hdiv : (ld8 m0 a + 256 * ldN m0 n (a + 1)) / 256 = ldN m0 n (a + 1) := by omega
    rw [hdiv]
    apply ih
    intro x
    by_cases h : x % 2 ^ 32 = a % 2 ^ 32
    · unfold ld8 st8
      simp only [h, if_true]
      have : m0 (x % 2 ^ 32) = m0 (a % 2 ^ 32) := by rw [h]
      unfold ld8 at h8
      omega
    · rw [ld8_st8_other _ _ _ _ h]; exact hm x

theorem foldl_st64_ld64 (m0 : Mem) (dst : Nat) (l : List (Fin 32)) (m : Mem) (b : Nat)
    (hm : ∀ x, ld8 m x = ld8 m0 x) :
    ld8 (l.foldl (fun mm i => st64 mm (dst + 8 * i.val) (ld64 m0 (dst + 8 * i.val))) m) b
      = ld8 m0 b := by
  induction l generalizing m with
  | nil => exact hm b
  | cons j l ih =>
    simp only [List.foldl_cons]
    apply ih
    intro x
    exact ld8_stN_ldN 8 m m0 _ x hm

/-- Writing back the VFP registers that were read from the same record leaves every
byte of memory as it was. -/
theorem restore_fpu_of_save_fpu_mem (m : Mem) (frame : Nat) (b : Nat) :
    ld8 (st32 (memcpy_from_D m (frame + VFP_FPREGS)
        (fun i => ld64 m (frame + VFP_FPREGS + 8 * i.val))) (frame + VFP_FPSCR)
        (ld32 m (frame + VFP_FPSCR))) b = ld8 m b := by
  apply ld8_stN_ldN 4
  intro x
  exact foldl_st64_ld64 m (frame + VFP_FPREGS) _ m x (fun _ => rfl)

theorem restore_context_regs_congr (c1 c2 : CONTEXT) (h : ucontext_t)
    (e : c1.R0 = c2.R0 ∧ c1.R1 = c2.R1 ∧ c1.R2 = c2.R2 ∧ c1.R3 = c2.R3 ∧ c1.R4 = c2.R4 ∧
      c1.R5 = c2.R5 ∧ c1.R6 = c2.R6 ∧ c1.R7 = c2.R7 ∧ c1.R8 = c2.R8 ∧ c1.R9 = c2.R9 ∧
      c1.R10 = c2.R10 ∧ c1.R11 = c2.R11 ∧ c1.R12 = c2.R12 ∧ c1.Sp = c2.Sp ∧ c1.Lr = c2.Lr ∧
      c1.Pc = c2.Pc ∧ c1.Cpsr = c2.Cpsr) :
    restore_context_regs c1 h = restore_context_regs c2 h := by
  obtain ⟨e0, e1, e2, e3, e4, e5, e6, e7, e8, e9, e10, e11, e12, eSp, eLr, ePc, eCpsr⟩ := e
  unfold restore_context_regs
  simp only [e0, e1, e2, e3, e4, e5, e6, e7, e8, e9, e10, e11, e12, eSp, eLr, ePc, eCpsr]

/-- The host registers after capture and write-back: everything is as before
except that the Thumb bit of cpsr is copied into the low bit of pc and then
re-derived from it. -/
theorem restore_save_context_regs (c0 : CONTEXT) (h : ucontext_t) :
    restore_context_regs (save_context_regs c0 h) h =
      { h with
        arm_pc := if h.arm_cpsr &&& 0x20 ≠ 0 then h.arm_pc ||| 1 else h.arm_pc
        arm_cpsr :=
          if (if h.arm_cpsr &&& 0x20 ≠ 0 then h.arm_pc ||| 1 else h.arm_pc) &&& 1 ≠ 0
          then h.arm_cpsr ||| 0x20 else h.arm_cpsr &&& 0xffffffdf } := by
  unfold restore_context_regs save_context_regs
  simp only
  by_cases ht : h.arm_cpsr &&& 0x20 ≠ 0
  · simp only [if_pos ht]
    split <;> rfl
  · simp only [if_neg ht]
    split <;> rfl

theorem restore_save_context_regs_agree (c0 : CONTEXT) (h : ucontext_t)
    (hc : h.arm_cpsr < 2 ^ 32) (ht : h.arm_cpsr &&& 0x20 ≠ 0 ↔ h.arm_pc &&& 1 ≠ 0) :
    restore_context_regs (save_context_regs c0 h) h = h := by
  rw [restore_save_context_regs]
  by_cases hb : h.arm_cpsr &&& 0x20 ≠ 0
  · have hp := ht.1 hb
    simp only [if_pos hb, or_one_eq _ hp, if_pos hp, or_thumb_eq _ hb]
  · have hp : ¬ (h.arm_pc &&& 1 ≠ 0) := fun hh => hb (ht.2 hh)
    simp only [if_neg hb, if_neg hp, and_clear_thumb_eq _ hc (not_not.1 hb)]

theorem save_fpu_regs (fuel : Nat) (c c1 : CONTEXT) (h : ucontext_t) (m : Mem)
    (hs : save_fpu fuel c h m = some c1) :
    c1.R0 = c.R0 ∧ c1.R1 = c.R1 ∧ c1.R2 = c.R2 ∧ c1.R3 = c.R3 ∧ c1.R4 = c.R4 ∧
    c1.R5 = c.R5 ∧ c1.R6 = c.R6 ∧ c1.R7 = c.R7 ∧ c1.R8 = c.R8 ∧ c1.R9 = c.R9 ∧
    c1.R10 = c.R10 ∧ c1.R11 = c.R11 ∧ c1.R12 = c.R12 ∧ c1.Sp = c.Sp ∧ c1.Lr = c.Lr ∧
    c1.Pc = c.Pc ∧ c1.Cpsr = c.Cpsr := by
  unfold save_fpu at hs
  cases hg : get_extended_sigcontext fuel m h VFP_MAGIC with
  | none => rw [hg] at hs; cases hs
  | some frame =>
    rw [hg] at hs
    simp only at hs
    by_cases hf : frame = 0
    · rw [if_pos hf] at hs
      cases hs
      simp
    · rw [if_neg hf] at hs
      cases hs
      simp

/-! ## C3: the syscall-fault check -/

theorem segv_handler_switch_calls (env : Env) (signal : Int) (siginfo : siginfo_t)
    (h : ucontext_t) (m : Mem) (record : EXCEPTION_RECORD) :
    Call.setup_exception record ∉ (segv_handler_switch env signal siginfo h m).2 := by
  unfold segv_handler_switch
  simp only
  repeat' split
  all_goals simp

theorem deliver_calls (env : Env) (fuel : Nat) (context0 : CONTEXT) (thread : ThreadData)
    (h : ucontext_t) (record : EXCEPTION_RECORD) (m : Mem) (calls : List Call)
    (r : HandlerResult) (hr : deliver env fuel context0 thread h record m calls = some r) :
    r.calls = calls ++ [Call.setup_exception record] := by
  unfold deliver at hr
  cases hs : setup_exception env fuel context0 h record m with
  | none => rw [hs] at hr; cases hr
  | some e =>
    rw [hs] at hr
    cases hr
    rfl

/-- C3 (as amended): in `segv_handler` a record reaches `setup_exception` only after
`handle_syscall_fault` returned FALSE for it; when the fault happened inside a system
call and no `jmp_buf` is set, the handler returns with the host context redirected
(pc := `__wine_syscall_dispatcher_return`, r0 := current frame, r1 := exception code)
and `setup_exception` is not called; when the thread's `jmp_buf` is set the redirect
goes to `__wine_longjmp` (r0 := `jmp_buf`, r1 := 1) and `jmp_buf` is cleared;
`trap_handler`, `fpe_handler` and `abrt_handler` call `setup_exception` without the
syscall-fault check. -/
theorem segv_handler_syscall_fault_check (env : Env) (fuel : Nat) (context0 : CONTEXT)
    (thread : ThreadData) (signal : Int) (siginfo : siginfo_t) (h : ucontext_t) (m : Mem) :
    (∀ r record, segv_handler env fuel context0 thread signal siginfo h m = some r →
      Call.setup_exception record ∈ r.calls →
      (handle_syscall_fault env thread h record).1 = false ∧
      ∃ pre, r.calls =
        pre ++ [Call.handle_syscall_fault record false, Call.setup_exception record]) ∧
    (∀ record calls, segv_handler_switch env signal siginfo h m = (some record, calls) →
      is_inside_syscall thread h = true → thread.jmp_buf = 0 →
      ∃ r, segv_handler env fuel context0 thread signal siginfo h m = some r ∧
        r.sigcontext = { h with
          arm_r0 := thread.syscall_frame
          arm_r1 := record.ExceptionCode
          arm_pc := env.wine_syscall_dispatcher_return } ∧
        r.thread = thread ∧ r.stack = none ∧
        r.calls = calls ++ [Call.handle_syscall_fault record true] ∧
        ∀ rec2, Call.setup_exception rec2 ∉ r.calls) ∧
    (∀ record calls, segv_handler_switch env signal siginfo h m = (some record, calls) →
      thread.jmp_buf ≠ 0 →
      ∃ r, segv_handler env fuel context0 thread signal siginfo h m = some r ∧
        r.sigcontext = { h with
          arm_r0 := thread.jmp_buf, arm_r1 := 1, arm_pc := env.wine_longjmp } ∧
        r.thread = { thread with jmp_buf := 0 } ∧ r.stack = none ∧
        r.calls = calls ++ [Call.handle_syscall_fault record true] ∧
        ∀ rec2, Call.setup_exception rec2 ∉ r.calls) ∧
    (∀ r, trap_handler env fuel context0 thread siginfo h m = some r →
      ∃ record, r.calls = [Call.setup_exception record]) ∧
    (∀ r, fpe_handler env fuel context0 thread siginfo h m = some r →
      ∃ record, r.calls = [Call.setup_exception record]) ∧
    (∀ r, abrt_handler env fuel context0 thread h m = some r →
      ∃ record, r.calls = [Call.setup_exception record]) := by
  have hsw := segv_handler_switch_calls env signal siginfo h m
  refine ⟨?_, ?_, ?_, ?_, ?_, ?_⟩
  · intro r record hr hmem
    unfold segv_handler at hr
    cases hs : segv_handler_switch env signal siginfo h m with
    | mk o calls =>
      rw [hs] at hr hsw
      cases o with
      | none =>
        simp only [Option.some.injEq] at hr
        subst hr
        exact absurd hmem (hsw record)
      | some rec1 =>
        simp only at hr
        cases hf : handle_syscall_fault env thread h rec1 with
        | mk b rest =>
          obtain ⟨c1, t1⟩ := rest
          rw [hf] at hr
          cases b with
          | true =>
            simp only [Option.some.injEq] at hr
            subst hr
            simp only [List.mem_append, List.mem_singleton] at hmem
            rcases hmem with hm1 | hm1
            · exact absurd hm1 (hsw record)
            · cases hm1
          | false =>
            simp only at hr
            have hc := deliver_calls env fuel context0 thread h rec1 m _ r hr
            rw [hc] at hmem ⊢
            simp only [List.mem_append, List.mem_singleton, Call.setup_exception.injEq] at hmem
            rcases hmem with (hm1 | hm1) | hm1
            · exact absurd hm1 (hsw record)
            · cases hm1
            · subst hm1
              refine ⟨by rw [hf], calls, ?_⟩
              simp
  · intro record calls hs hin hj
    have hf : handle_syscall_fault env thread h record =
        (true, { h with arm_r0 := thread.syscall_frame, arm_r1 := record.ExceptionCode,
                        arm_pc := env.wine_syscall_dispatcher_return }, thread) := by
      unfold handle_syscall_fault
      simp [hin, hj]
    rw [hs] at hsw
    have hseg : segv_handler env fuel context0 thread signal siginfo h m = some
        { sigcontext := { h with
            arm_r0 := thread.syscall_frame
            arm_r1 := record.ExceptionCode
            arm_pc := env.wine_syscall_dispatcher_return }
          mem := m
          thread := thread
          stack := none
          calls := calls ++ [Call.handle_syscall_fault record true] } := by
      simp only [segv_handler, hs, hf]
    refine ⟨_, hseg, rfl, rfl, rfl, rfl, ?_⟩
    intro rec2 hmem
    simp only [List.mem_append, List.mem_singleton] at hmem
    rcases hmem with hm1 | hm1
    · exact hsw rec2 hm1
    · cases hm1
  · intro record calls hs hj
    have hf : handle_syscall_fault env thread h record =
        (true, { h with arm_r0 := thread.jmp_buf, arm_r1 := 1, arm_pc := env.wine_longjmp },
          { thread with jmp_buf := 0 }) := by
      unfold handle_syscall_fault
      simp [hj]
    rw [hs] at hsw
    have hseg : segv_handler env fuel context0 thread signal siginfo h m = some
        { sigcontext := { h with
            arm_r0 := thread.jmp_buf
            arm_r1 := 1
            arm_pc := env.wine_longjmp }
          mem := m
          thread := { thread with jmp_buf := 0 }
          stack := none
          calls := calls ++ [Call.handle_syscall_fault record true] } := by
      simp only [segv_handler, hs, hf]
    refine ⟨_, hseg, rfl, rfl, rfl, rfl, ?_⟩
    intro rec2 hmem
    simp only [List.mem_append, List.mem_singleton] at hmem
    rcases hmem with hm1 | hm1
    · exact hsw rec2 hm1
    · cases hm1
  · intro r hr
    exact ⟨_, by simpa using deliver_calls env fuel context0 thread h _ m [] r hr⟩
  · intro r hr
    exact ⟨_, by simpa using deliver_calls env fuel context0 thread h _ m [] r hr⟩
  · intro r hr
    exact ⟨_, by simpa using deliver_calls env fuel context0 thread h _ m [] r hr⟩

/-- Witness for C3: a SIGBUS taken inside a system call (host sp `0x20000` between
the kernel stack `0x10000` and the current frame `0x2fea0`) is redirected to
`__wine_syscall_dispatcher_return` and never reaches `setup_exception`. -/
theorem segv_handler_syscall_fault_check_witness :
    ∃ r, segv_handler Env.unhandled 1 CONTEXT.zero thread_sample SIGBUS
        { si_code := 0, si_addr := 0 } uc_thumb (fun _ => 0) = some r ∧
      r.sigcontext.arm_pc = 0x70000201 ∧ r.sigcontext.arm_r0 = 0x2fea0 ∧
      r.sigcontext.arm_r1 = EXCEPTION_DATATYPE_MISALIGNMENT ∧
      r.calls = [Call.handle_syscall_fault record_misalignment true] := by
  obtain ⟨r, hr, hsig, _, _, hcalls, _⟩ :=
    (segv_handler_syscall_fault_check Env.unhandled 1 CONTEXT.zero thread_sample SIGBUS
      { si_code := 0, si_addr := 0 } uc_thumb (fun _ => 0)).2.1
      record_misalignment [] (by decide) (by decide) rfl
  refine ⟨r, hr, ?_, ?_, ?_, hcalls⟩
  · rw [hsig]; rfl
  · rw [hsig]; rfl
  · rw [hsig]; rfl

/-- Counterexample to C3 as stated: a SIGTRAP taken inside a system call (host sp
between the kernel stack and the current frame) goes to `setup_exception` without
any syscall-fault check, and the host pc is set to `raise_func_trampoline`, not to
`__wine_syscall_dispatcher_return`. -/
theorem segv_handler_syscall_fault_check_counterexample :
    is_inside_syscall thread_sample uc_thumb = true ∧
    ∃ r, trap_handler Env.unhandled 1 CONTEXT.zero thread_sample
        { si_code := TRAP_BRKPT, si_addr := 0 } uc_thumb (fun _ => 0) = some r ∧
      r.calls = [Call.setup_exception record_breakpoint] ∧
      r.sigcontext.arm_pc = Env.unhandled.raise_func_trampoline ∧
      r.sigcontext.arm_pc ≠ Env.unhandled.wine_syscall_dispatcher_return :=
  ⟨by decide, _, rfl, rfl, rfl, by decide⟩

/-! ## C4: the frame stack -/

theorem frame_chain_congr (f1 f2 : Nat → user_callback_frame) (fuel p : Nat) (l : List Nat)
    (h : frame_chain f1 fuel p = some l)
    (he : ∀ a ∈ l, (f2 a).frame.prev_frame = (f1 a).frame.prev_frame) :
    frame_chain f2 fuel p = some l := by
  induction fuel generalizing p l with
  | zero => simp [frame_chain] at h
  | succ fuel ih =>
    unfold frame_chain at h ⊢
    by_cases hp : p = 0
    · rw [if_pos hp] at h ⊢; exact h
    · rw [if_neg hp] at h ⊢
      cases hc : frame_chain f1 fuel (f1 p).frame.prev_frame with
      | none => rw [hc] at h; cases h
      | some t =>
        rw [hc] at h
        simp only [Option.map_some', Option.some.injEq] at h
        subst h
        rw [he p (List.mem_cons_self _ _), ih _ t hc (fun a ha => he a (List.mem_cons_of_mem _ ha))]
        rfl

theorem frame_chain_cons (f : Nat → user_callback_frame) (fuel p : Nat) (l : List Nat)
    (hp : p ≠ 0) (h : frame_chain f fuel (f p).frame.prev_frame = some l) :
    frame_chain f (fuel + 1) p = some (p :: l) := by
  unfold frame_chain
  rw [if_neg hp, h]
  rfl

theorem frame_chain_uncons (f : Nat → user_callback_frame) (fuel p a : Nat) (l : List Nat)
    (h : frame_chain f (fuel + 1) p = some (a :: l)) :
    p = a ∧ a ≠ 0 ∧ frame_chain f fuel (f a).frame.prev_frame = some l := by
  unfold frame_chain at h
  by_cases hp : p = 0
  · rw [if_pos hp] at h; cases h
  · rw [if_neg hp] at h
    cases hc : frame_chain f fuel (f p).frame.prev_frame with
    | none => rw [hc] at h; cases h
    | some t =>
      rw [hc] at h
      simp only [Option.map_some', Option.some.injEq, List.cons.injEq] at h
      obtain ⟨h1, h2⟩ := h
      subst h1 h2
      exact ⟨rfl, hp, hc⟩

theorem frame_chain_ne_nil (f : Nat → user_callback_frame) (fuel p : Nat) (l : List Nat)
    (hp : p ≠ 0) (h : frame_chain f fuel p = some l) : l ≠ [] := by
  cases fuel with
  | zero => simp [frame_chain] at h
  | succ fuel =>
    unfold frame_chain at h
    rw [if_neg hp] at h
    cases hc : frame_chain f fuel (f p).frame.prev_frame with
    | none => rw [hc] at h; cases h
    | some t =>
      rw [hc] at h
      simp only [Option.map_some', Option.some.injEq] at h
      subst h
      simp

theorem KeUserModeCallback_push (env : Env) (cf : Nat) (native : Regs) (s s1 : State)
    (id args len ret_ptr ret_len fr rv : Nat)
    (h : KeUserModeCallback env cf native s id args len ret_ptr ret_len
      = (s1, Control.dispatcher_return fr rv)) :
    s1.thread.syscall_frame = cf ∧ (s1.frames cf).frame.prev_frame = s.thread.syscall_frame ∧
    ∀ a, a ≠ cf → s1.frames a = s.frames a := by
  unfold KeUserModeCallback at h
  by_cases hk : s.thread.kernel_stack + env.min_kernel_stack > cf
  · rw [if_pos hk] at h
    cases h
  · rw [if_neg hk] at h
    simp only [Prod.mk.injEq] at h
    obtain ⟨h1, _⟩ := h
    subst h1
    refine ⟨rfl, by simp, ?_⟩
    intro a ha
    simp [ha]

theorem NtCallbackReturn_pop (s s1 : State) (ret_ptr ret_len status buf rv : Nat)
    (h : NtCallbackReturn s ret_ptr ret_len status = (s1, Control.longjmp buf rv)) :
    (s.frames s.thread.syscall_frame).frame.prev_frame ≠ 0 ∧
    s1.thread.syscall_frame = (s.frames s.thread.syscall_frame).frame.prev_frame ∧
    ∀ a, (s1.frames a).frame.prev_frame = (s.frames a).frame.prev_frame := by
  unfold NtCallbackReturn at h
  by_cases hk : (s.frames s.thread.syscall_frame).frame.prev_frame = 0
  · rw [if_pos hk] at h
    cases h
  · rw [if_neg hk] at h
    simp only [Prod.mk.injEq] at h
    obtain ⟨h1, _⟩ := h
    subst h1
    refine ⟨hk, rfl, ?_⟩
    intro a
    by_cases ha : a = s.thread.syscall_frame
    · simp [ha]
    · simp [ha]

/-- The frame chain follows the specification's stack along every successful
sequence of requests and returns. -/
theorem run_ops_chain (env : Env) (ops : List Op) (s s1 : State) (live : List Nat)
    (hchain : frame_chain s.frames (live.length + 1) s.thread.syscall_frame = some live)
    (hne : live ≠ []) (hfresh : FreshFrames ops live)
    (hrun : run_ops env ops s = some s1) :
    frame_chain s1.frames ((spec_frame_stack ops live).length + 1) s1.thread.syscall_frame
      = some (spec_frame_stack ops live) ∧
    spec_frame_stack ops live ≠ [] ∧
    (spec_frame_stack ops live).length + count_pop ops = live.length + count_push ops := by
  induction ops generalizing s live with
  | nil =>
    simp only [run_ops, Option.some.injEq] at hrun
    subst hrun
    exact ⟨hchain, hne, rfl⟩
  | cons op ops ih =>
    cases op with
    | push cf native id args len ret_ptr ret_len =>
      simp only [run_ops] at hrun
      obtain ⟨hcf0, hcfl, hfr⟩ := hfresh
      cases hk : KeUserModeCallback env cf native s id args len ret_ptr ret_len with
      | mk s2 ctl =>
        rw [hk] at hrun
        cases ctl with
        | ret st => simp at hrun
        | longjmp b v => simp at hrun
        | dispatcher_return fr rv =>
          simp only at hrun
          obtain ⟨hcur, hprev, hother⟩ :=
            KeUserModeCallback_push env cf native s s2 id args len ret_ptr ret_len fr rv hk
          have hc1 : frame_chain s2.frames (live.length + 1) s.thread.syscall_frame
              = some live := by
            apply frame_chain_congr s.frames s2.frames _ _ _ hchain
            intro a ha
            rw [hother a (fun e => hcfl (e ▸ ha))]
          have hc2 : frame_chain s2.frames ((cf :: live).length + 1) s2.thread.syscall_frame
              = some (cf :: live) := by
            rw [hcur]
            apply frame_chain_cons _ _ _ _ hcf0
            rw [hprev]
            exact hc1
          obtain ⟨r1, r2, r3⟩ := ih s2 (cf :: live) hc2 (by simp) hfr hrun
          refine ⟨r1, r2, ?_⟩
          simp only [spec_frame_stack, count_pop, count_push, List.length_cons] at r3 ⊢
          omega
    | pop ret_ptr ret_len status =>
      simp only [run_ops] at hrun
      cases hk : NtCallbackReturn s ret_ptr ret_len status with
      | mk s2 ctl =>
        rw [hk] at hrun
        cases ctl with
        | ret st => simp at hrun
        | dispatcher_return fr rv => simp at hrun
        | longjmp b v =>
          simp only at hrun
          obtain ⟨hprev0, hcur, hsame⟩ := NtCallbackReturn_pop s s2 ret_ptr ret_len status b v hk
          cases live with
          | nil => exact absurd rfl hne
          | cons a rest =>
            obtain ⟨hpa, _, htail⟩ := frame_chain_uncons _ _ _ _ _ hchain
            rw [← hpa] at htail
            have hrne : rest ≠ [] := frame_chain_ne_nil _ _ _ _ hprev0 htail
            have hc2 : frame_chain s2.frames (rest.length + 1) s2.thread.syscall_frame
                = some rest := by
              rw [hcur]
              exact frame_chain_congr s.frames s2.frames _ _ _ htail (fun a _ => hsame a)
            obtain ⟨r1, r2, r3⟩ := ih s2 rest hc2 hrne (by simpa [FreshFrames] using hfresh) hrun
            refine ⟨r1, r2, ?_⟩
            simp only [spec_frame_stack, count_pop, count_push, List.length_cons,
              List.tail_cons] at r3 ⊢
            omega

theorem frame_chain_root (s0 : State) (hroot : s0.thread.syscall_frame ≠ 0)
    (hprev : (s0.frames s0.thread.syscall_frame).frame.prev_frame = 0) :
    frame_chain s0.frames ([s0.thread.syscall_frame].length + 1) s0.thread.syscall_frame
      = some [s0.thread.syscall_frame] := by
  apply frame_chain_cons _ _ _ _ hroot
  rw [hprev]
  rfl

/-- C4: starting from a thread whose root frame has `prev_frame = NULL`, after any
sequence of successful `KeUserModeCallback` pushes (each with a fresh local
`callback_frame`) and `NtCallbackReturn` pops, the `prev_frame` chain from the
current frame is the specification's LIFO stack, its length is 1 plus the number of
pushes not yet matched by a pop, and its head is the current frame; the nested
sequence push B, push C, pop, pop succeeds and leaves the current frame pointer
equal to its original value. -/
theorem frame_stack_lifo (env : Env) (s0 : State)
    (hroot : s0.thread.syscall_frame ≠ 0)
    (hprev : (s0.frames s0.thread.syscall_frame).frame.prev_frame = 0) :
    (∀ ops s, FreshFrames ops [s0.thread.syscall_frame] → run_ops env ops s0 = some s →
      count_pop ops ≤ count_push ops ∧
      ∃ chain, frame_chain s.frames (chain.length + 1) s.thread.syscall_frame = some chain ∧
        chain.length = 1 + (count_push ops - count_pop ops) ∧
        chain = spec_frame_stack ops [s0.thread.syscall_frame] ∧
        chain.head? = some s.thread.syscall_frame) ∧
    (∀ (B C : Nat) (nB nC : Regs) (idB argsB lenB rpB rlB idC argsC lenC rpC rlC : Nat)
      (rp1 rl1 st1 rp2 rl2 st2 : Nat),
      B ≠ 0 → B ≠ s0.thread.syscall_frame → C ≠ 0 → C ≠ B → C ≠ s0.thread.syscall_frame →
      s0.thread.kernel_stack + env.min_kernel_stack ≤ B →
      s0.thread.kernel_stack + env.min_kernel_stack ≤ C →
      ∃ s, run_ops env
          [Op.push B nB idB argsB lenB rpB rlB, Op.push C nC idC argsC lenC rpC rlC,
           Op.pop rp1 rl1 st1, Op.pop rp2 rl2 st2] s0 = some s ∧
        s.thread.syscall_frame = s0.thread.syscall_frame) := by
  have hgen : ∀ ops s, FreshFrames ops [s0.thread.syscall_frame] → run_ops env ops s0 = some s →
      count_pop ops ≤ count_push ops ∧
      ∃ chain, frame_chain s.frames (chain.length + 1) s.thread.syscall_frame = some chain ∧
        chain.length = 1 + (count_push ops - count_pop ops) ∧
        chain = spec_frame_stack ops [s0.thread.syscall_frame] ∧
        chain.head? = some s.thread.syscall_frame := by
    intro ops s hfresh hrun
    obtain ⟨r1, r2, r3⟩ := run_ops_chain env ops s0 s [s0.thread.syscall_frame]
      (frame_chain_root s0 hroot hprev) (by simp) hfresh hrun
    have hlen : 0 < (spec_frame_stack ops [s0.thread.syscall_frame]).length :=
      List.length_pos.2 r2
    simp only [List.length_singleton] at r3
    refine ⟨by omega, _, r1, by omega, rfl, ?_⟩
    obtain ⟨a, rest, hl⟩ := List.exists_cons_of_ne_nil r2
    rw [hl] at r1 ⊢
    obtain ⟨e1, _, _⟩ := frame_chain_uncons _ _ _ _ _ r1
    rw [e1]
    rfl
  refine ⟨hgen, ?_⟩
  intro B C nB nC idB argsB lenB rpB rlB idC argsC lenC rpC rlC rp1 rl1 st1 rp2 rl2 st2
    hB0 hBr hC0 hCB hCr hkB hkC
  have hrun : ∃ s, run_ops env
      [Op.push B nB idB argsB lenB rpB rlB, Op.push C nC idC argsC lenC rpC rlC,
       Op.pop rp1 rl1 st1, Op.pop rp2 rl2 st2] s0 = some s := by
    have hB : ¬ (s0.thread.kernel_stack + env.min_kernel_stack > B) := by omega
    have hC : ¬ (s0.thread.kernel_stack + env.min_kernel_stack > C) := by omega
    have hBC : B ≠ C := fun e => hCB e.symm
    simp [run_ops, KeUserModeCallback, NtCallbackReturn, hB, hC, hB0, hBC, hroot]
  obtain ⟨s, hs⟩ := hrun
  refine ⟨s, hs, ?_⟩
  obtain ⟨_, chain, _, _, hspec, hhead⟩ := hgen _ s
    (by simp [FreshFrames, hB0, hBr, hC0, hCB, hCr]) hs
  rw [hspec] at hhead
  simpa [spec_frame_stack] using hhead.symm

/-- Witness for C4: from the sample thread state, a callback request with its frame
at `0x2f000` followed by a callback return leaves a chain of length 1 whose head is
the root frame `0x2fea0`. -/
theorem frame_stack_lifo_witness :
    ∃ s, run_ops Env.handled
        [Op.push 0x2f000 Regs.zero 1 0x5000 8 0x6000 0x6004, Op.pop 0 0 0] state_sample
        = some s ∧
      frame_chain s.frames 2 s.thread.syscall_frame = some [0x2fea0] := by
  have hrun : ∃ s, run_ops Env.handled
      [Op.push 0x2f000 Regs.zero 1 0x5000 8 0x6000 0x6004, Op.pop 0 0 0] state_sample
      = some s := ⟨_, rfl⟩
  obtain ⟨s, hs⟩ := hrun
  obtain ⟨_, chain, hchain, _, hspec, _⟩ :=
    (frame_stack_lifo Env.handled state_sample (by decide) rfl).1 _ s
      (by simp [FreshFrames, state_sample, thread_sample]) hs
  refine ⟨s, hs, ?_⟩
  have hc : chain = [0x2fea0] := by rw [hspec]; rfl
  rw [hc] at hchain
  exact hchain

/-! ## C5, C6: protocol violations of the callback mechanism -/

/-- C5: when the current frame has `prev_frame = NULL`, `NtCallbackReturn` returns
`STATUS_NO_CALLBACK_ACTIVE` and leaves the whole state (current frame pointer,
frames, memory behind the out-parameters) as it was, without any jump; and whenever
it returns a status at all, `prev_frame` is `NULL` and the status is
`STATUS_NO_CALLBACK_ACTIVE`. -/
theorem NtCallbackReturn_no_callback (s : State) (ret_ptr ret_len status : Nat) :
    ((s.frames s.thread.syscall_frame).frame.prev_frame = 0 →
      NtCallbackReturn s ret_ptr ret_len status = (s, Control.ret STATUS_NO_CALLBACK_ACTIVE)) ∧
    (∀ st, (NtCallbackReturn s ret_ptr ret_len status).2 = Control.ret st →
      (s.frames s.thread.syscall_frame).frame.prev_frame = 0 ∧
      st = STATUS_NO_CALLBACK_ACTIVE) := by
  constructor
  · intro h
    unfold NtCallbackReturn
    rw [if_pos h]
  · intro st h
    unfold NtCallbackReturn at h
    by_cases hp : (s.frames s.thread.syscall_frame).frame.prev_frame = 0
    · rw [if_pos hp] at h
      simp only [Control.ret.injEq] at h
      exact ⟨hp, h.symm⟩
    · rw [if_neg hp] at h
      cases h

/-- Witness for C5: on the sample state, whose only frame is the root frame. -/
theorem NtCallbackReturn_no_callback_witness :
    NtCallbackReturn state_sample 0x6000 4 0
      = (state_sample, Control.ret STATUS_NO_CALLBACK_ACTIVE) :=
  (NtCallbackReturn_no_callback state_sample 0x6000 4 0).1 rfl

/-- C6: when `kernel_stack + min_kernel_stack` is greater than the address of the
local callback frame, `KeUserModeCallback` returns `STATUS_STACK_OVERFLOW` with the
state unchanged (current frame pointer, frames, memory: no argument byte copied) and
without transferring control to the callback dispatcher. -/
theorem KeUserModeCallback_stack_overflow (env : Env) (callback_frame : Nat) (native : Regs)
    (s : State) (id args len ret_ptr ret_len : Nat)
    (h : s.thread.kernel_stack + env.min_kernel_stack > callback_frame) :
    KeUserModeCallback env callback_frame native s id args len ret_ptr ret_len
      = (s, Control.ret STATUS_STACK_OVERFLOW) := by
  unfold KeUserModeCallback
  rw [if_pos h]

/-- Witness for C6: kernel stack at `0x10000`, 0x2000 bytes of minimum headroom, the
local frame at `0x11000`. -/
theorem KeUserModeCallback_stack_overflow_witness :
    KeUserModeCallback Env.handled 0x11000 Regs.zero state_sample 1 0x5000 8 0x6000 0x6004
      = (state_sample, Control.ret STATUS_STACK_OVERFLOW) :=
  KeUserModeCallback_stack_overflow Env.handled 0x11000 Regs.zero state_sample 1 0x5000 8
    0x6000 0x6004 (by decide)

/-! ## C7: out-of-range service index -/

/-- C7: when the entry index (low 12 bits of `ip`) is unsigned greater than or equal
to the `ServiceLimit` of the selected table (bits 12-13 of `ip`), the dispatcher
calls no service body and returns with `r0 = STATUS_INVALID_PARAMETER` (0xC000000D); the frame's
`restore_flags` are 0, so no register group is written back: `r3`, the VFP registers
and `fpscr` are as on entry and `r4`-`r12` equal their values at entry; thread data
and memory are unchanged. -/
theorem dispatcher_out_of_range (call : Nat → Regs → State → Regs × State)
    (label4 cpsr : Nat) (regs : Regs) (s : State)
    (h : ld32 s.mem ((((s.frames s.thread.syscall_frame).frame.syscall_table
        + (((regs.r12 >>> 12) &&& 3) <<< 4)) % 2 ^ 32 + 8) % 2 ^ 32) ≤ regs.r12 &&& 0xfff) :
    ∃ r, wine_syscall_dispatcher call label4 cpsr regs s = some r ∧
      r.invoked = none ∧ r.regs.r0 = STATUS_INVALID_PARAMETER ∧
      (r.state.frames s.thread.syscall_frame).frame.restore_flags = 0 ∧
      r.regs.r3 = regs.r3 ∧
      r.regs.r4 = regs.r4 ∧ r.regs.r5 = regs.r5 ∧ r.regs.r6 = regs.r6 ∧ r.regs.r7 = regs.r7 ∧
      r.regs.r8 = regs.r8 ∧ r.regs.r9 = regs.r9 ∧ r.regs.r10 = regs.r10 ∧
      r.regs.r11 = regs.r11 ∧ r.regs.r12 = regs.r12 ∧
      r.regs.fpscr = regs.fpscr ∧ r.regs.d = regs.d ∧
      r.regs.pc = regs.lr ∧ r.regs.sp = (regs.sp + 0x10) % 2 ^ 32 ∧
      r.state.thread = s.thread ∧ r.state.mem = s.mem := by
  unfold wine_syscall_dispatcher
  simp only [ge_iff_le, if_pos h]
  refine ⟨_, rfl, rfl, ?_⟩
  simp [dispatcher_label4, STATUS_INVALID_PARAMETER]

/-- Witness for C7: entry 5 of a table whose `ServiceLimit` is 2. -/
theorem dispatcher_out_of_range_witness :
    ∃ r, wine_syscall_dispatcher (fun _ regs s => (regs, s)) 0 0 regs_call state_dispatch
        = some r ∧
      r.invoked = none ∧ r.regs.r0 = STATUS_INVALID_PARAMETER ∧ r.regs.r4 = 44 ∧
      r.regs.r12 = 5 := by
  obtain ⟨r, hr, hinv, h0, _, _, h4, _, _, _, _, _, _, _, h12, _⟩ :=
    dispatcher_out_of_range (fun _ regs s => (regs, s)) 0 0 regs_call state_dispatch
      (by decide)
  exact ⟨r, hr, hinv, h0, h4, h12⟩

/-! ## C8, C9, C10: the fault classifier -/

theorem segv_handler_head_call (env : Env) (fuel : Nat) (context0 : CONTEXT)
    (thread : ThreadData) (signal : Int) (siginfo : siginfo_t) (h : ucontext_t) (m : Mem)
    (record : EXCEPTION_RECORD) (calls : List Call)
    (hs : segv_handler_switch env signal siginfo h m = (some record, calls))
    (r : HandlerResult)
    (hr : segv_handler env fuel context0 thread signal siginfo h m = some r) :
    ∃ b rest, r.calls = calls ++ Call.handle_syscall_fault record b :: rest := by
  unfold segv_handler at hr
  rw [hs] at hr
  simp only at hr
  cases hf : handle_syscall_fault env thread h record with
  | mk b rest =>
    obtain ⟨c1, t1⟩ := rest
    rw [hf] at hr
    cases b with
    | true =>
      simp only [Option.some.injEq] at hr
      subst hr
      exact ⟨true, [], rfl⟩
    | false =>
      simp only at hr
      have hc := deliver_calls env fuel context0 thread h record m _ r hr
      exact ⟨false, [Call.setup_exception record], by rw [hc]; simp⟩

/-- C8: for a delivery whose trap code is the invalid-opcode code (6), the record of
`segv_handler` (the one it hands to `handle_syscall_fault`) is `EXCEPTION_BREAKPOINT`
with `NumberParameters = 1` exactly when the halfword at the host pc is `0xdefe`, and
`EXCEPTION_ILLEGAL_INSTRUCTION` with `NumberParameters = 0` otherwise. -/
theorem segv_handler_breakpoint (env : Env) (fuel : Nat) (context0 : CONTEXT)
    (thread : ThreadData) (signal : Int) (siginfo : siginfo_t) (h : ucontext_t) (m : Mem)
    (htrap : get_trap_code signal h = TRAP_ARM_PRIVINFLT) :
    ∃ record, segv_handler_switch env signal siginfo h m = (some record, []) ∧
      (∀ r, segv_handler env fuel context0 thread signal siginfo h m = some r →
        ∃ b rest, r.calls = Call.handle_syscall_fault record b :: rest) ∧
      ((record.ExceptionCode = EXCEPTION_BREAKPOINT ∧ record.NumberParameters = 1) ↔
        ld16 m h.arm_pc = 0xdefe) ∧
      (ld16 m h.arm_pc ≠ 0xdefe →
        record.ExceptionCode = EXCEPTION_ILLEGAL_INSTRUCTION ∧ record.NumberParameters = 0) := by
  by_cases hb : ld16 m h.arm_pc = 0xdefe
  · have hs : segv_handler_switch env signal siginfo h m =
        (some { EXCEPTION_RECORD.zero with
          ExceptionCode := EXCEPTION_BREAKPOINT, NumberParameters := 1 }, []) := by
      unfold segv_handler_switch
      simp only [htrap, if_true, hb]
    refine ⟨_, hs, ?_, ?_, ?_⟩
    · intro r hr
      simpa using segv_handler_head_call env fuel context0 thread signal siginfo h m _ _ hs r hr
    · exact ⟨fun _ => hb, fun _ => ⟨rfl, rfl⟩⟩
    · intro hn; exact absurd hb hn
  · have hs : segv_handler_switch env signal siginfo h m =
        (some { EXCEPTION_RECORD.zero with
          ExceptionCode := EXCEPTION_ILLEGAL_INSTRUCTION }, []) := by
      unfold segv_handler_switch
      simp only [htrap, if_true, if_neg hb]
    refine ⟨_, hs, ?_, ?_, ?_⟩
    · intro r hr
      simpa using segv_handler_head_call env fuel context0 thread signal siginfo h m _ _ hs r hr
    · constructor
      · intro hc
        exact absurd hc.2 (by decide)
      · intro hc; exact absurd hc hb
    · intro _; exact ⟨rfl, rfl⟩

/-- Witness for C8: a SIGILL at pc `0x8000`, where memory holds `0xdefe`. -/
theorem segv_handler_breakpoint_witness :
    ∃ record, segv_handler_switch Env.unhandled SIGILL { si_code := 0, si_addr := 0 }
        { uc_thumb with trap_no := 6 } mem_breakpoint = (some record, []) ∧
      record.ExceptionCode = EXCEPTION_BREAKPOINT ∧ record.NumberParameters = 1 := by
  obtain ⟨record, hs, _, hiff, _⟩ :=
    segv_handler_breakpoint Env.unhandled 1 CONTEXT.zero thread_sample SIGILL
      { si_code := 0, si_addr := 0 } { uc_thumb with trap_no := 6 } mem_breakpoint
      (by decide)
  exact ⟨record, hs, hiff.2 (by decide)⟩

theorem get_error_code_and (h : ucontext_t) :
    get_error_code h &&& 0x800 = h.error_code &&& 0x800 := by
  unfold get_error_code
  apply Nat.eq_of_testBit_eq
  intro i
  rw [Nat.testBit_and, Nat.testBit_and, Nat.testBit_mod_two_pow,
    show (0x800 : Nat) = 2 ^ 11 by decide, Nat.testBit_two_pow]
  by_cases hi : 11 = i
  · subst hi; simp
  · simp [hi]

theorem to_int32_ne_zero (v : Nat) : to_int32 v ≠ 0 ↔ v % 2 ^ 32 ≠ 0 := by
  unfold to_int32
  have := Nat.mod_lt v (show 0 < 2 ^ 32 by norm_num)
  split <;> omega

theorem to_int32_small (v : Nat) (h : v < 2 ^ 31) : to_int32 v = (v : Int) := by
  unfold to_int32
  have hv : v % 2 ^ 32 = v := Nat.mod_eq_of_lt (by omega)
  rw [hv, if_pos h]

/-- C9: `get_trap_code` returns the host trap number whenever it is non-zero, and
otherwise invalid-opcode for SIGILL, page-fault for SIGSEGV, alignment-fault for
SIGBUS and unknown (-1) for any other signal; the switch of `segv_handler` maps trap
code 6 to illegal instruction or breakpoint, 14 to the code of the page-fault service
(no record when that code is 0), 17 to `EXCEPTION_DATATYPE_MISALIGNMENT`, -1 to
`EXCEPTION_ACCESS_VIOLATION` with the two parameters 0 and 0xffffffff, and any other
value to `EXCEPTION_ILLEGAL_INSTRUCTION`. -/
theorem classification_table (env : Env) (signal : Int) (siginfo : siginfo_t) (h : ucontext_t)
    (m : Mem) :
    (h.trap_no % 2 ^ 32 ≠ 0 → get_trap_code signal h = to_int32 h.trap_no) ∧
    (0 < h.trap_no → h.trap_no < 2 ^ 31 → get_trap_code signal h = (h.trap_no : Int)) ∧
    (h.trap_no % 2 ^ 32 = 0 →
      get_trap_code signal h =
        if signal = SIGILL then TRAP_ARM_PRIVINFLT
        else if signal = SIGSEGV then TRAP_ARM_PAGEFLT
        else if signal = SIGBUS then TRAP_ARM_ALIGNFLT
        else TRAP_ARM_UNKNOWN) ∧
    (get_trap_code signal h = 6 →
      ∃ record, segv_handler_switch env signal siginfo h m = (some record, []) ∧
        (record.ExceptionCode = EXCEPTION_ILLEGAL_INSTRUCTION ∨
          record.ExceptionCode = EXCEPTION_BREAKPOINT)) ∧
    (get_trap_code signal h = 14 →
      ∃ code calls, code = env.virtual_handle_fault siginfo.si_addr
          (if h.error_code &&& 0x800 ≠ 0 then 1 else 0) h.arm_sp ∧
        (code = 0 → segv_handler_switch env signal siginfo h m = (none, calls)) ∧
        (code ≠ 0 → ∃ record, segv_handler_switch env signal siginfo h m = (some record, calls) ∧
          record.ExceptionCode = code)) ∧
    (get_trap_code signal h = 17 →
      ∃ record, segv_handler_switch env signal siginfo h m = (some record, []) ∧
        record.ExceptionCode = EXCEPTION_DATATYPE_MISALIGNMENT) ∧
    (get_trap_code signal h = -1 →
      ∃ record, segv_handler_switch env signal siginfo h m = (some record, []) ∧
        record.ExceptionCode = EXCEPTION_ACCESS_VIOLATION ∧ record.NumberParameters = 2 ∧
        record.ExceptionInformation.take 2 = [0, 0xffffffff]) ∧
    (get_trap_code signal h ≠ 6 → get_trap_code signal h ≠ 14 →
      get_trap_code signal h ≠ 17 → get_trap_code signal h ≠ -1 →
      ∃ record, segv_handler_switch env signal siginfo h m = (some record, []) ∧
        record.ExceptionCode = EXCEPTION_ILLEGAL_INSTRUCTION) := by
  refine ⟨?_, ?_, ?_, ?_, ?_, ?_, ?_, ?_⟩
  · intro hne
    unfold get_trap_code
    simp only [(to_int32_ne_zero h.trap_no).2 hne, ne_eq, not_false_eq_true, if_true]
  · intro h0 h1
    have hne : h.trap_no % 2 ^ 32 ≠ 0 := by
      rw [Nat.mod_eq_of_lt (by omega)]; omega
    unfold get_trap_code
    simp only [(to_int32_ne_zero h.trap_no).2 hne, ne_eq, not_false_eq_true, if_true]
    exact to_int32_small _ h1
  · intro h0
    have hz : ¬ (to_int32 h.trap_no ≠ 0) := fun hh => (to_int32_ne_zero h.trap_no).1 hh h0
    unfold get_trap_code
    simp only [if_neg hz]
  · intro ht
    by_cases hb : ld16 m h.arm_pc = 0xdefe
    · have hs : segv_handler_switch env signal siginfo h m =
          (some { EXCEPTION_RECORD.zero with
            ExceptionCode := EXCEPTION_BREAKPOINT, NumberParameters := 1 }, []) := by
        unfold segv_handler_switch
        simp only [ht, TRAP_ARM_PRIVINFLT, if_true, hb]
      exact ⟨_, hs, Or.inr rfl⟩
    · have hs : segv_handler_switch env signal siginfo h m =
          (some { EXCEPTION_RECORD.zero with
            ExceptionCode := EXCEPTION_ILLEGAL_INSTRUCTION }, []) := by
        unfold segv_handler_switch
        simp only [ht, TRAP_ARM_PRIVINFLT, if_true, if_neg hb]
      exact ⟨_, hs, Or.inl rfl⟩
  · intro ht
    refine ⟨_, [Call.virtual_handle_fault siginfo.si_addr
      (if h.error_code &&& 0x800 ≠ 0 then 1 else 0) h.arm_sp], rfl, ?_, ?_⟩
    · intro hc
      unfold segv_handler_switch
      simp only [ht, TRAP_ARM_PRIVINFLT, TRAP_ARM_PAGEFLT, get_error_code_and, hc]
      simp
    · intro hc
      have hs : segv_handler_switch env signal siginfo h m =
          (some { EXCEPTION_RECORD.zero with
            ExceptionCode := env.virtual_handle_fault siginfo.si_addr
              (if h.error_code &&& 0x800 ≠ 0 then 1 else 0) h.arm_sp
            NumberParameters := 2
            ExceptionInformation := ((EXCEPTION_RECORD.zero.ExceptionInformation.set 0
              (if h.error_code &&& 0x800 ≠ 0 then 1 else 0)).set 1 siginfo.si_addr) },
           [Call.virtual_handle_fault siginfo.si_addr
              (if h.error_code &&& 0x800 ≠ 0 then 1 else 0) h.arm_sp]) := by
        unfold segv_handler_switch
        simp only [ht, TRAP_ARM_PRIVINFLT, TRAP_ARM_PAGEFLT, get_error_code_and, if_neg hc]
        simp
      exact ⟨_, hs, rfl⟩
  · intro ht
    have hs : segv_handler_switch env signal siginfo h m =
        (some { EXCEPTION_RECORD.zero with
          ExceptionCode := EXCEPTION_DATATYPE_MISALIGNMENT }, []) := by
      unfold segv_handler_switch
      simp only [ht, TRAP_ARM_PRIVINFLT, TRAP_ARM_PAGEFLT, TRAP_ARM_ALIGNFLT]
      simp
    exact ⟨_, hs, rfl⟩
  · intro ht
    have hs : segv_handler_switch env signal siginfo h m =
        (some { EXCEPTION_RECORD.zero with
          ExceptionCode := EXCEPTION_ACCESS_VIOLATION
          NumberParameters := 2
          ExceptionInformation :=
            (EXCEPTION_RECORD.zero.ExceptionInformation.set 0 0).set 1 0xffffffff }, []) := by
      unfold segv_handler_switch
      simp only [ht, TRAP_ARM_PRIVINFLT, TRAP_ARM_PAGEFLT, TRAP_ARM_ALIGNFLT, TRAP_ARM_UNKNOWN]
      simp
    exact ⟨_, hs, rfl, rfl, rfl⟩
  · intro h6 h14 h17 h1
    have hs : segv_handler_switch env signal siginfo h m =
        (some { EXCEPTION_RECORD.zero with
          ExceptionCode := EXCEPTION_ILLEGAL_INSTRUCTION }, []) := by
      unfold segv_handler_switch
      simp only [TRAP_ARM_PRIVINFLT, TRAP_ARM_PAGEFLT, TRAP_ARM_ALIGNFLT, TRAP_ARM_UNKNOWN,
        if_neg h6, if_neg h14, if_neg h17, if_neg h1]
    exact ⟨_, hs, rfl⟩

/-- Witness for C9: a SIGBUS without host trap number is an alignment fault and
becomes `EXCEPTION_DATATYPE_MISALIGNMENT`. -/
theorem classification_table_witness :
    get_trap_code SIGBUS uc_thumb = 17 ∧
    ∃ record, segv_handler_switch Env.unhandled SIGBUS { si_code := 0, si_addr := 0 } uc_thumb
        (fun _ => 0) = (some record, []) ∧
      record.ExceptionCode = EXCEPTION_DATATYPE_MISALIGNMENT :=
  ⟨((classification_table Env.unhandled SIGBUS { si_code := 0, si_addr := 0 } uc_thumb
      (fun _ => 0)).2.2.1 (by decide)).trans (by decide),
   (classification_table Env.unhandled SIGBUS { si_code := 0, si_addr := 0 } uc_thumb
      (fun _ => 0)).2.2.2.2.2.1 (by decide)⟩

/-- C10: for a page-fault trap (trap code 14) for which `virtual_handle_fault`
returns 0, `segv_handler` returns having called neither `handle_syscall_fault` nor
`setup_exception`: its only call is the resolver, with the fault address, the write
flag `(error_code & 0x800) != 0` and the host stack pointer; no record and no
transfer block is produced, and the host context, memory and thread data are
unchanged. -/
theorem segv_handler_resolved (env : Env) (fuel : Nat) (context0 : CONTEXT)
    (thread : ThreadData) (signal : Int) (siginfo : siginfo_t) (h : ucontext_t) (m : Mem)
    (htrap : get_trap_code signal h = TRAP_ARM_PAGEFLT)
    (hres : env.virtual_handle_fault siginfo.si_addr
      (if h.error_code &&& 0x800 ≠ 0 then 1 else 0) h.arm_sp = 0) :
    (segv_handler_switch env signal siginfo h m).1 = none ∧
    ∃ r, segv_handler env fuel context0 thread signal siginfo h m = some r ∧
      r.calls = [Call.virtual_handle_fault siginfo.si_addr
        (if h.error_code &&& 0x800 ≠ 0 then 1 else 0) h.arm_sp] ∧
      r.sigcontext = h ∧ r.mem = m ∧ r.thread = thread ∧ r.stack = none := by
  have hs : segv_handler_switch env signal siginfo h m =
      (none, [Call.virtual_handle_fault siginfo.si_addr
        (if h.error_code &&& 0x800 ≠ 0 then 1 else 0) h.arm_sp]) := by
    unfold segv_handler_switch
    simp only [htrap, TRAP_ARM_PRIVINFLT, TRAP_ARM_PAGEFLT, get_error_code_and, hres]
    simp
  refine ⟨by rw [hs], ?_⟩
  have hseg : segv_handler env fuel context0 thread signal siginfo h m = some
      { sigcontext := h
        mem := m
        thread := thread
        stack := none
        calls := [Call.virtual_handle_fault siginfo.si_addr
          (if h.error_code &&& 0x800 ≠ 0 then 1 else 0) h.arm_sp] } := by
    simp only [segv_handler, hs]
  exact ⟨_, hseg, rfl, rfl, rfl, rfl, rfl⟩

/-- Witness for C10: a write fault at `0x30000` that the page-fault service
resolves. -/
theorem segv_handler_resolved_witness :
    ∃ r, segv_handler Env.handled 1 CONTEXT.zero thread_sample SIGSEGV
        { si_code := 2, si_addr := 0x30000 } uc_pagefault (fun _ => 0) = some r ∧
      r.calls = [Call.virtual_handle_fault 0x30000 1 0x20000] ∧ r.sigcontext = uc_pagefault := by
  obtain ⟨_, r, hr, hcalls, hsig, _⟩ :=
    segv_handler_resolved Env.handled 1 CONTEXT.zero thread_sample SIGSEGV
      { si_code := 2, si_addr := 0x30000 } uc_pagefault (fun _ => 0) (by decide) rfl
  exact ⟨r, hr, hcalls, hsig⟩

/-! ## C11: the chain scan and the end of the ucontext -/

theorem get_extended_sigcontext_loop_cycle (fuel : Nat) :
    get_extended_sigcontext_loop mem_cycle 0x1200 VFP_MAGIC fuel 0x1000 = none ∧
    get_extended_sigcontext_loop mem_cycle 0x1200 VFP_MAGIC fuel 0x1008 = none := by
  induction fuel with
  | zero => exact ⟨rfl, rfl⟩
  | succ fuel ih =>
    obtain ⟨ih1, ih2⟩ := ih
    have e1 : ld32 mem_cycle 0x1000 = 1 := by decide
    have e2 : ld32 mem_cycle (0x1000 + 4) = 8 := by decide
    have e3 : ld32 mem_cycle 0x1008 = 1 := by decide
    have e4 : ld32 mem_cycle (0x1008 + 4) = 0xfffffff8 := by decide
    simp only [VFP_MAGIC] at ih1 ih2 ⊢
    constructor
    · unfold get_extended_sigcontext_loop
      simp only [e1, e2]
      norm_num
      rw [ih2]
    · unfold get_extended_sigcontext_loop
      simp only [e3, e4]
      norm_num
      rw [ih1]

/-- C11, the code at a corrupt chain: with the `uc_regspace` at `0x1000` (so that the
`ucontext_t` ends at `0x1200`) and a first record of size 508, the scan reads the size
word at `0x1200`, outside the `ucontext_t`, and returns the record at `0x11fc`;
`save_fpu` then reads `D[0]` from `0x1204` and `restore_fpu` writes it there; and on
the chain whose second size wraps the pointer back to the first record the scan does
not terminate, whatever the fuel. -/
theorem get_extended_sigcontext_overrun :
    (ucontext_t.zero 0x1000).uc_regspace + UC_REGSPACE_SIZE = 0x1200 ∧
    get_extended_sigcontext 2 mem_overrun (ucontext_t.zero 0x1000) VFP_MAGIC = some 0x11fc ∧
    get_extended_sigcontext_reads 2 mem_overrun (ucontext_t.zero 0x1000) VFP_MAGIC
      = [0x1000, 0x1004, 0x11fc, 0x1200] ∧
    (save_fpu 2 CONTEXT.zero (ucontext_t.zero 0x1000) mem_overrun).map (fun c => c.D 0)
      = some 0xaa ∧
    (∃ m1, restore_fpu 2 ctx_thumb (ucontext_t.zero 0x1000) mem_overrun = some m1 ∧
      ctx_thumb.D 0 = 1 ∧ ld64 m1 0x1204 = 1) ∧
    ∀ fuel, get_extended_sigcontext fuel mem_cycle (ucontext_t.zero 0x1000) VFP_MAGIC = none := by
  have hscan : get_extended_sigcontext 2 mem_overrun (ucontext_t.zero 0x1000) VFP_MAGIC
      = some 0x11fc := by decide
  refine ⟨rfl, hscan, by decide, by decide, ?_, ?_⟩
  · refine ⟨st32 (memcpy_from_D mem_overrun (0x11fc + VFP_FPREGS) ctx_thumb.D)
      (0x11fc + VFP_FPSCR) ctx_thumb.Fpscr, ?_, rfl, ?_⟩
    · simp only [restore_fpu, hscan]
      rfl
    · exact restore_fpu_mem_D mem_overrun 0x11fc ctx_thumb 0
  intro fuel
  unfold get_extended_sigcontext
  have h := (get_extended_sigcontext_loop_cycle fuel).1
  have e : (ucontext_t.zero 0x1000).uc_regspace + UC_REGSPACE_SIZE = 0x1200 := rfl
  have e0 : (ucontext_t.zero 0x1000).uc_regspace = 0x1000 := rfl
  rw [e, e0, h]
  rfl

/-! ## C13: the validity mask -/

theorem save_context_regs_fp (c0 : CONTEXT) (h : ucontext_t) :
    (save_context_regs c0 h).D = c0.D ∧ (save_context_regs c0 h).Fpscr = c0.Fpscr ∧
    (save_context_regs c0 h).ContextFlags = CONTEXT_FULL := by
  unfold save_context_regs
  simp only
  split <;> exact ⟨rfl, rfl, rfl⟩

/-- C13 (as amended): after `save_context` the `ContextFlags` are `CONTEXT_FULL`, so
the floating-point group bit is set whether or not a VFP record was found; the
registers of the record are copied into the context exactly when one was found, and
otherwise `D` and `Fpscr` keep their previous values. -/
theorem save_context_flags (fuel : Nat) (c0 : CONTEXT) (h : ucontext_t) (m : Mem)
    (frame : Nat) (hscan : get_extended_sigcontext fuel m h VFP_MAGIC = some frame) :
    ∃ c1, save_context fuel c0 h m = some c1 ∧
      c1.ContextFlags = CONTEXT_FULL ∧
      c1.ContextFlags &&& CONTEXT_FLOATING_POINT = CONTEXT_FLOATING_POINT ∧
      (frame ≠ 0 → (∀ i : Fin 32, c1.D i = ld64 m (frame + VFP_FPREGS + 8 * i.val)) ∧
        c1.Fpscr = ld32 m (frame + VFP_FPSCR)) ∧
      (frame = 0 → c1.D = c0.D ∧ c1.Fpscr = c0.Fpscr) := by
  obtain ⟨hD, hF, hflags⟩ := save_context_regs_fp c0 h
  by_cases hf : frame = 0
  · refine ⟨save_context_regs c0 h, by simp only [save_context, save_fpu, hscan, if_pos hf],
      hflags, by rw [hflags]; decide, fun hn => absurd hf hn, fun _ => ⟨hD, hF⟩⟩
  · have hs : save_context fuel c0 h m = some { save_context_regs c0 h with
        D := fun i => ld64 m (frame + VFP_FPREGS + 8 * i.val)
        Fpscr := ld32 m (frame + VFP_FPSCR) } := by
      simp only [save_context, save_fpu, hscan, if_neg hf]
    exact ⟨_, hs, hflags, by rw [show _ = CONTEXT_FULL from hflags]; decide,
      fun _ => ⟨fun _ => rfl, rfl⟩, fun h0 => absurd h0 hf⟩

/-- Witness for C13: a host context whose `uc_regspace` starts with a VFP record. -/
theorem save_context_flags_witness :
    ∃ c1, save_context 1 CONTEXT.zero (ucontext_t.zero 0x1000) mem_vfp_at_1000 = some c1 ∧
      c1.ContextFlags = CONTEXT_FULL ∧ c1.Fpscr = ld32 mem_vfp_at_1000 (0x1000 + VFP_FPSCR) := by
  obtain ⟨c1, hs, hflags, _, hfound, _⟩ :=
    save_context_flags 1 CONTEXT.zero (ucontext_t.zero 0x1000) mem_vfp_at_1000 0x1000
      (by decide)
  exact ⟨c1, hs, hflags, (hfound (by decide)).2⟩

/-- Counterexample to C13 as stated: on a host context whose `uc_regspace` is all
zero the scan finds no VFP record, nothing is copied (`D[0]` and `Fpscr` keep the
previous values 1 and 7 of a context whose flags were 0), and yet the floating-point
group bit of `ContextFlags` is set. -/
theorem save_context_flags_counterexample :
    get_extended_sigcontext 1 (fun _ => 0) (ucontext_t.zero 0x1000) VFP_MAGIC = some 0 ∧
    ∃ c1, save_context 1 { ctx_thumb with ContextFlags := 0 } (ucontext_t.zero 0x1000)
        (fun _ => 0) = some c1 ∧
      c1.D 0 = 1 ∧ c1.Fpscr = 7 ∧
      c1.ContextFlags &&& CONTEXT_FLOATING_POINT = CONTEXT_FLOATING_POINT ∧
      c1.ContextFlags &&& 4 ≠ 0 :=
  ⟨by decide, _, rfl, rfl, rfl, by decide, by decide⟩

/-! ## C14, C15: callback frames -/

theorem memcpy_other (n : Nat) (m : Mem) (dst src b : Nat)
    (h : ∀ k, k < n → b % 2 ^ 32 ≠ (dst + k) % 2 ^ 32) :
    ld8 (memcpy n m dst src) b = ld8 m b := by
  induction n generalizing m dst src with
  | zero => rfl
  | succ n ih =>
    simp only [memcpy]
    rw [ih]
    · apply ld8_st8_other
      have := h 0 (by omega)
      simpa using this
    · intro k hk
      have := h (k + 1) (by omega)
      rw [show dst + 1 + k = dst + (k + 1) by omega]
      exact this

theorem memcpy_same (n : Nat) (m : Mem) (dst src : Nat) (hn : n ≤ 2 ^ 32)
    (hd : ∀ i, i < n → ∀ j, j < n → (src + i) % 2 ^ 32 ≠ (dst + j) % 2 ^ 32)
    (k : Nat) (hk : k < n) :
    ld8 (memcpy n m dst src) (dst + k) = ld8 m (src + k) := by
  induction n generalizing m dst src k with
  | zero => omega
  | succ n ih =>
    simp only [memcpy]
    cases k with
    | zero =>
      rw [memcpy_other]
      · rw [Nat.add_zero, Nat.add_zero, ld8_st8_same]
        exact Nat.mod_eq_of_lt (ld8_lt m src)
      · intro k2 hk2
        omega
    | succ k =>
      rw [show dst + (k + 1) = dst + 1 + k by omega, show src + (k + 1) = src + 1 + k by omega]
      rw [ih _ _ _ (by omega) _ k (by omega)]
      · apply ld8_st8_other
        have := hd (k + 1) (by omega) 0 (by omega)
        rw [show src + 1 + k = src + (k + 1) by omega]
        simpa using this
      · intro i hi j hj
        have := hd (i + 1) (by omega) (j + 1) (by omega)
        rw [show src + 1 + i = src + (i + 1) by omega, show dst + 1 + j = dst + (j + 1) by omega]
        exact this

/-- C15: a `KeUserModeCallback` that passes the headroom check makes current a new
frame with `r0 = id`, `r1 = args`, `r2 = len`, `sp = (f.sp - len) & ~15` (32-bit
arithmetic, `f` the frame that was current), `pc` the callback dispatcher,
`syscall_table = f.syscall_table`, `prev_frame = f`, `restore_flags =
CONTEXT_INTEGER` and every other register field zero, transfers to
`__wine_syscall_dispatcher_return` with that frame, and has copied the `len` argument
bytes to the new `sp` (source and destination not overlapping), leaving the other
bytes of memory alone. -/
theorem KeUserModeCallback_frame (env : Env) (callback_frame : Nat) (native : Regs) (s : State)
    (id args len ret_ptr ret_len : Nat)
    (hk : ¬ s.thread.kernel_stack + env.min_kernel_stack > callback_frame) :
    ∃ s1, KeUserModeCallback env callback_frame native s id args len ret_ptr ret_len
        = (s1, Control.dispatcher_return callback_frame 0) ∧
      s1.thread.syscall_frame = callback_frame ∧
      (s1.frames callback_frame).frame.r0 = id ∧
      (s1.frames callback_frame).frame.r1 = args ∧
      (s1.frames callback_frame).frame.r2 = len ∧
      (s1.frames callback_frame).frame.sp =
        ((s.frames s.thread.syscall_frame).frame.sp + 2 ^ 32 - len % 2 ^ 32) % 2 ^ 32
          &&& 0xfffffff0 ∧
      (s1.frames callback_frame).frame.pc = env.pKiUserCallbackDispatcher ∧
      (s1.frames callback_frame).frame.syscall_table
        = (s.frames s.thread.syscall_frame).frame.syscall_table ∧
      (s1.frames callback_frame).frame.prev_frame = s.thread.syscall_frame ∧
      (s1.frames callback_frame).frame.restore_flags = CONTEXT_INTEGER ∧
      (s1.frames callback_frame).frame.r3 = 0 ∧ (s1.frames callback_frame).frame.r4 = 0 ∧
      (s1.frames callback_frame).frame.r5 = 0 ∧ (s1.frames callback_frame).frame.r6 = 0 ∧
      (s1.frames callback_frame).frame.r7 = 0 ∧ (s1.frames callback_frame).frame.r8 = 0 ∧
      (s1.frames callback_frame).frame.r9 = 0 ∧ (s1.frames callback_frame).frame.r10 = 0 ∧
      (s1.frames callback_frame).frame.r11 = 0 ∧ (s1.frames callback_frame).frame.r12 = 0 ∧
      (s1.frames callback_frame).frame.lr = 0 ∧ (s1.frames callback_frame).frame.cpsr = 0 ∧
      (s1.frames callback_frame).frame.fpscr = 0 ∧
      (∀ i, (s1.frames callback_frame).frame.d i = 0) ∧
      (s1.frames callback_frame).ret_ptr = ret_ptr ∧
      (s1.frames callback_frame).ret_len = ret_len ∧
      (len ≤ 2 ^ 32 →
        (∀ i, i < len → ∀ j, j < len → (args + i) % 2 ^ 32 ≠
          ((s1.frames callback_frame).frame.sp + j) % 2 ^ 32) →
        ∀ k, k < len →
          ld8 s1.mem ((s1.frames callback_frame).frame.sp + k) = ld8 s.mem (args + k)) ∧
      (∀ b, (∀ k, k < len → b % 2 ^ 32 ≠ ((s1.frames callback_frame).frame.sp + k) % 2 ^ 32) →
        ld8 s1.mem b = ld8 s.mem b) := by
  unfold KeUserModeCallback
  rw [if_neg hk]
  refine ⟨_, rfl, rfl, ?_⟩
  simp only [if_true, true_and]
  refine ⟨rfl, rfl, rfl, rfl, rfl, rfl, rfl, rfl, rfl, rfl, rfl, rfl, rfl, fun _ => rfl, ?_, ?_⟩
  · intro hn hd k hk2
    exact memcpy_same len s.mem _ args hn hd k hk2
  · intro b hb
    exact memcpy_other len s.mem _ args b hb

/-- Witness for C15: a request of the sample thread with its frame at `0x2f000`,
above the minimum headroom. -/
theorem KeUserModeCallback_frame_witness :
    ∃ s1, KeUserModeCallback Env.handled 0x2f000 Regs.zero state_sample 1 0x5000 8 0x6000
        0x6004 = (s1, Control.dispatcher_return 0x2f000 0) ∧
      (s1.frames 0x2f000).frame.r0 = 1 ∧ (s1.frames 0x2f000).frame.r2 = 8 ∧
      (s1.frames 0x2f000).frame.sp = 0xfffffff0 ∧
      (s1.frames 0x2f000).frame.prev_frame = 0x2fea0 ∧
      (s1.frames 0x2f000).frame.restore_flags = CONTEXT_INTEGER := by
  obtain ⟨s1, h1, _, h0, _, h2, hsp, _, _, hprev, hfl, _⟩ :=
    KeUserModeCallback_frame Env.handled 0x2f000 Regs.zero state_sample 1 0x5000 8 0x6000
      0x6004 (by decide)
  exact ⟨s1, h1, h0, h2, hsp.trans (by decide), hprev, hfl⟩

theorem ld32_st32_st32_first (m : Mem) (a b v w : Nat)
    (hd : ∀ i, i < 4 → ∀ j, j < 4 → (a + i) % 2 ^ 32 ≠ (b + j) % 2 ^ 32) :
    ld32 (st32 (st32 m a v) b w) a = v % 2 ^ 32 := by
  have h1 : ld32 (st32 (st32 m a v) b w) a = ld32 (st32 m a v) a := by
    apply ldN_congr
    intro k hk
    apply ld8_stN_other
    intro j hj
    exact hd k hk j hj
  rw [h1]
  exact ldN_stN_same 4 m a v (by norm_num)

theorem ld32_st32_same (m : Mem) (b w : Nat) : ld32 (st32 m b w) b = w % 2 ^ 32 :=
  ldN_stN_same 4 m b w (by norm_num)

/-- C14: let a `KeUserModeCallback` with out-parameters `rpo`, `rlo` have passed the
headroom check with its frame at `callback_frame`, and let `s2` be a later state in
which that frame is current and still carries the predecessor, out-parameters and
jump buffer of that request.  Then `NtCallbackReturn( ret_ptr, ret_len, status )`
stores `ret_ptr` and `ret_len` through `rpo` and `rlo`, makes the predecessor frame
current, and jumps to the buffer of that request with value 1: the registers after
`__wine_longjmp` are the ones saved at the mark (`pc` the return address of
`__wine_setjmpex`, `sp`, `r4`-`r11`, `fpscr`, `d8`-`d15`) with `r0 = 1`, and the
resumed `KeUserModeCallback` returns exactly `status`. -/
theorem callback_return_delivers (env : Env) (callback_frame : Nat) (native : Regs)
    (s0 : State) (id args len rpo rlo : Nat) (s2 : State) (ret_ptr ret_len status : Nat)
    (regs : Regs)
    (hk : ¬ s0.thread.kernel_stack + env.min_kernel_stack > callback_frame)
    (hroot : s0.thread.syscall_frame ≠ 0)
    (hcur : s2.thread.syscall_frame = callback_frame)
    (hprev : (s2.frames callback_frame).frame.prev_frame =
      ((KeUserModeCallback env callback_frame native s0 id args len rpo rlo).1.frames
        callback_frame).frame.prev_frame)
    (hrp : (s2.frames callback_frame).ret_ptr =
      ((KeUserModeCallback env callback_frame native s0 id args len rpo rlo).1.frames
        callback_frame).ret_ptr)
    (hrl : (s2.frames callback_frame).ret_len =
      ((KeUserModeCallback env callback_frame native s0 id args len rpo rlo).1.frames
        callback_frame).ret_len)
    (hjb : (s2.frames callback_frame).jmpbuf =
      ((KeUserModeCallback env callback_frame native s0 id args len rpo rlo).1.frames
        callback_frame).jmpbuf)
    (hdisj : ∀ i, i < 4 → ∀ j, j < 4 → (rpo + i) % 2 ^ 32 ≠ (rlo + j) % 2 ^ 32)
    (hv1 : ret_ptr < 2 ^ 32) (hv2 : ret_len < 2 ^ 32) :
    ∃ s3, NtCallbackReturn s2 ret_ptr ret_len status
        = (s3, Control.longjmp (callback_frame + USER_CALLBACK_FRAME_JMPBUF) 1) ∧
      ld32 s3.mem rpo = ret_ptr ∧ ld32 s3.mem rlo = ret_len ∧
      s3.thread.syscall_frame = s0.thread.syscall_frame ∧
      (wine_longjmp (s3.frames callback_frame).jmpbuf
          { regs with r0 := callback_frame + USER_CALLBACK_FRAME_JMPBUF, r1 := 1 }).r0 = 1 ∧
      (wine_longjmp (s3.frames callback_frame).jmpbuf
          { regs with r0 := callback_frame + USER_CALLBACK_FRAME_JMPBUF, r1 := 1 }).pc
        = native.lr ∧
      (wine_longjmp (s3.frames callback_frame).jmpbuf
          { regs with r0 := callback_frame + USER_CALLBACK_FRAME_JMPBUF, r1 := 1 }).sp
        = native.sp ∧
      (wine_longjmp (s3.frames callback_frame).jmpbuf
          { regs with r0 := callback_frame + USER_CALLBACK_FRAME_JMPBUF, r1 := 1 }).r4
        = native.r4 ∧
      (wine_longjmp (s3.frames callback_frame).jmpbuf
          { regs with r0 := callback_frame + USER_CALLBACK_FRAME_JMPBUF, r1 := 1 }).r5
        = native.r5 ∧
      (wine_longjmp (s3.frames callback_frame).jmpbuf
          { regs with r0 := callback_frame + USER_CALLBACK_FRAME_JMPBUF, r1 := 1 }).r6
        = native.r6 ∧
      (wine_longjmp (s3.frames callback_frame).jmpbuf
          { regs with r0 := callback_frame + USER_CALLBACK_FRAME_JMPBUF, r1 := 1 }).r7
        = native.r7 ∧
      (wine_longjmp (s3.frames callback_frame).jmpbuf
          { regs with r0 := callback_frame + USER_CALLBACK_FRAME_JMPBUF, r1 := 1 }).r8
        = native.r8 ∧
      (wine_longjmp (s3.frames callback_frame).jmpbuf
          { regs with r0 := callback_frame + USER_CALLBACK_FRAME_JMPBUF, r1 := 1 }).r9
        = native.r9 ∧
      (wine_longjmp (s3.frames callback_frame).jmpbuf
          { regs with r0 := callback_frame + USER_CALLBACK_FRAME_JMPBUF, r1 := 1 }).r10
        = native.r10 ∧
      (wine_longjmp (s3.frames callback_frame).jmpbuf
          { regs with r0 := callback_frame + USER_CALLBACK_FRAME_JMPBUF, r1 := 1 }).r11
        = native.r11 ∧
      (wine_longjmp (s3.frames callback_frame).jmpbuf
          { regs with r0 := callback_frame + USER_CALLBACK_FRAME_JMPBUF, r1 := 1 }).fpscr
        = native.fpscr ∧
      (∀ i : Fin 32, 8 ≤ i.val → i.val < 16 →
        (wine_longjmp (s3.frames callback_frame).jmpbuf
          { regs with r0 := callback_frame + USER_CALLBACK_FRAME_JMPBUF, r1 := 1 }).d i
        = native.d i) ∧
      KeUserModeCallback_resumed callback_frame s3 = Control.ret status := by
  have hpush : KeUserModeCallback env callback_frame native s0 id args len rpo rlo
      = ((KeUserModeCallback env callback_frame native s0 id args len rpo rlo).1,
         Control.dispatcher_return callback_frame 0) := by
    unfold KeUserModeCallback
    rw [if_neg hk]
  obtain ⟨_, hp1, _⟩ := KeUserModeCallback_push env callback_frame native s0 _ id args len
    rpo rlo _ _ hpush
  have hrp1 : ((KeUserModeCallback env callback_frame native s0 id args len rpo rlo).1.frames
      callback_frame).ret_ptr = rpo := by
    unfold KeUserModeCallback
    rw [if_neg hk]
    simp
  have hrl1 : ((KeUserModeCallback env callback_frame native s0 id args len rpo rlo).1.frames
      callback_frame).ret_len = rlo := by
    unfold KeUserModeCallback
    rw [if_neg hk]
    simp
  have hjb1 : ((KeUserModeCallback env callback_frame native s0 id args len rpo rlo).1.frames
      callback_frame).jmpbuf = (wine_setjmpex { native with
        r0 := callback_frame + USER_CALLBACK_FRAME_JMPBUF, r1 := 0 }).1 := by
    unfold KeUserModeCallback
    rw [if_neg hk]
    simp
  rw [hp1] at hprev
  rw [hrp1] at hrp
  rw [hrl1] at hrl
  rw [hjb1] at hjb
  have hne : ¬ (s2.frames s2.thread.syscall_frame).frame.prev_frame = 0 := by
    rw [hcur, hprev]; exact hroot
  have hret : NtCallbackReturn s2 ret_ptr ret_len status =
      ({ thread := { s2.thread with syscall_frame := s0.thread.syscall_frame }
         frames := fun a => if a = callback_frame then
           { s2.frames callback_frame with status := status } else s2.frames a
         mem := st32 (st32 s2.mem rpo ret_ptr) rlo ret_len },
       Control.longjmp (callback_frame + USER_CALLBACK_FRAME_JMPBUF) 1) := by
    unfold NtCallbackReturn
    rw [if_neg hne]
    simp only [hcur, hprev, hrp, hrl]
  refine ⟨_, hret, ?_, ?_, rfl, ?_⟩
  · show ld32 (st32 (st32 s2.mem rpo ret_ptr) rlo ret_len) rpo = ret_ptr
    rw [ld32_st32_st32_first _ _ _ _ _ hdisj, Nat.mod_eq_of_lt hv1]
  · show ld32 (st32 (st32 s2.mem rpo ret_ptr) rlo ret_len) rlo = ret_len
    rw [ld32_st32_same, Nat.mod_eq_of_lt hv2]
  · simp only [if_true, hjb, KeUserModeCallback_resumed]
    refine ⟨rfl, rfl, rfl, rfl, rfl, rfl, rfl, rfl, rfl, rfl, rfl, rfl, ?_, trivial⟩
    intro i h8 h16
    simp [wine_longjmp, wine_setjmpex, h8, h16]

/-- Witness for C14: the sample thread issues a callback with out-parameters at
`0x6000` and `0x6004` and returns from it at once with `(0x7000, 4, 0x103)`. -/
theorem callback_return_delivers_witness :
    ∃ s3, NtCallbackReturn
        (KeUserModeCallback Env.handled 0x2f000 regs_call state_sample 1 0x5000 8 0x6000
          0x6004).1 0x7000 4 0x103
        = (s3, Control.longjmp (0x2f000 + USER_CALLBACK_FRAME_JMPBUF) 1) ∧
      ld32 s3.mem 0x6000 = 0x7000 ∧ ld32 s3.mem 0x6004 = 4 ∧
      s3.thread.syscall_frame = 0x2fea0 ∧
      KeUserModeCallback_resumed 0x2f000 s3 = Control.ret 0x103 := by
  obtain ⟨s3, h1, h2, h3, h4, _, _, _, _, _, _, _, _, _, _, _, _, _, h5⟩ :=
    callback_return_delivers Env.handled 0x2f000 regs_call state_sample 1 0x5000 8 0x6000
      0x6004
      (KeUserModeCallback Env.handled 0x2f000 regs_call state_sample 1 0x5000 8 0x6000
        0x6004).1 0x7000 4 0x103 Regs.zero
      (by decide) (by decide) rfl rfl rfl rfl rfl
      (by intro i hi j hj; omega) (by norm_num) (by norm_num)
  exact ⟨s3, h1, h2, h3, h4, h5⟩

/-! ## C16: selective write-back on service return -/

/-- C16 (as amended): at the return path of the dispatcher, `r0`-`r3` are reloaded
from the frame if and only if bit 0x2 of `restore_flags` is set and otherwise keep
the values the service body left (`r0` is its return status); `d0`-`d15` and `fpscr`
are reloaded from the frame if and only if bit 0x4 is set and otherwise keep the
values the service body left; `d16`-`d31` are never touched; `r4`-`r12`, `sp`, `lr`
and `pc` are reloaded from the frame on every return, whatever the flags. -/
theorem dispatcher_selective_write_back (regs : Regs) (s : State) :
    ((s.frames regs.r8).frame.restore_flags &&& 2 ≠ 0 →
      (dispatcher_label4 regs s).r0 = (s.frames regs.r8).frame.r0 ∧
      (dispatcher_label4 regs s).r1 = (s.frames regs.r8).frame.r1 ∧
      (dispatcher_label4 regs s).r2 = (s.frames regs.r8).frame.r2 ∧
      (dispatcher_label4 regs s).r3 = (s.frames regs.r8).frame.r3) ∧
    ((s.frames regs.r8).frame.restore_flags &&& 2 = 0 →
      (dispatcher_label4 regs s).r0 = regs.r0 ∧ (dispatcher_label4 regs s).r1 = regs.r1 ∧
      (dispatcher_label4 regs s).r2 = regs.r2 ∧ (dispatcher_label4 regs s).r3 = regs.r3) ∧
    ((s.frames regs.r8).frame.restore_flags &&& 4 ≠ 0 →
      (dispatcher_label4 regs s).fpscr = (s.frames regs.r8).frame.fpscr ∧
      ∀ i : Fin 32, i.val < 16 →
        (dispatcher_label4 regs s).d i = (s.frames regs.r8).frame.d i) ∧
    ((s.frames regs.r8).frame.restore_flags &&& 4 = 0 →
      (dispatcher_label4 regs s).fpscr = regs.fpscr ∧ (dispatcher_label4 regs s).d = regs.d) ∧
    (∀ i : Fin 32, 16 ≤ i.val → (dispatcher_label4 regs s).d i = regs.d i) ∧
    (dispatcher_label4 regs s).r4 = (s.frames regs.r8).frame.r4 ∧
    (dispatcher_label4 regs s).r5 = (s.frames regs.r8).frame.r5 ∧
    (dispatcher_label4 regs s).r6 = (s.frames regs.r8).frame.r6 ∧
    (dispatcher_label4 regs s).r7 = (s.frames regs.r8).frame.r7 ∧
    (dispatcher_label4 regs s).r8 = (s.frames regs.r8).frame.r8 ∧
    (dispatcher_label4 regs s).r9 = (s.frames regs.r8).frame.r9 ∧
    (dispatcher_label4 regs s).r10 = (s.frames regs.r8).frame.r10 ∧
    (dispatcher_label4 regs s).r11 = (s.frames regs.r8).frame.r11 ∧
    (dispatcher_label4 regs s).r12 = (s.frames regs.r8).frame.r12 ∧
    (dispatcher_label4 regs s).sp = (s.frames regs.r8).frame.sp ∧
    (dispatcher_label4 regs s).lr = (s.frames regs.r8).frame.lr ∧
    (dispatcher_label4 regs s).pc = (s.frames regs.r8).frame.pc := by
  refine ⟨?_, ?_, ?_, ?_, ?_, ?_, ?_, ?_, ?_, ?_, ?_, ?_, ?_, ?_, ?_, ?_, ?_⟩
  · intro h2
    simp [dispatcher_label4, h2]
  · intro h2
    unfold dispatcher_label4
    simp only [h2, ne_eq, not_true_eq_false, if_false]
    split <;> exact ⟨rfl, rfl, rfl, rfl⟩
  · intro h4
    unfold dispatcher_label4
    simp only [if_pos h4]
    split
    · exact ⟨rfl, fun i hi => by simp [hi]⟩
    · exact ⟨rfl, fun i hi => by simp [hi]⟩
  · intro h4
    unfold dispatcher_label4
    simp only [h4, ne_eq, not_true_eq_false, if_false]
    split <;> exact ⟨rfl, rfl⟩
  · intro i hi
    have hi2 : ¬ i.val < 16 := by omega
    unfold dispatcher_label4
    simp only
    split <;> split <;> simp [hi2]
  all_goals simp [dispatcher_label4]

/-- Witness for C16: with `restore_flags = 0` the status `0x103` left in `r0` by the
service body is what the caller receives. -/
theorem dispatcher_selective_write_back_witness :
    (dispatcher_label4 regs_after_service state_return).r0 = 0x103 :=
  ((dispatcher_selective_write_back regs_after_service state_return).2.1 (by decide)).1

/-- Counterexample to C16 as stated: with every bit of `restore_flags` clear, `r12`
(integer group) and `sp` (control group) do not keep the values 99 and `0x2fe00`
that the service body left, they are reloaded from the frame (5 and `0x7ff010`). -/
theorem dispatcher_selective_write_back_counterexample :
    (state_return.frames regs_after_service.r8).frame.restore_flags = 0 ∧
    regs_after_service.r12 = 99 ∧ regs_after_service.sp = 0x2fe00 ∧
    (dispatcher_label4 regs_after_service state_return).r12 = 5 ∧
    (dispatcher_label4 regs_after_service state_return).sp = 0x7ff010 :=
  ⟨rfl, rfl, rfl, rfl, rfl⟩

/-! ## Clearing the Thumb bit -/

theorem thumb_clear_any (x : Nat) : (x &&& 0xffffffdf) &&& 0x20 = 0 := by
  have h0 : (0xffffffdf &&& 0x20 : Nat) = 0 := by decide
  rw [Nat.and_assoc, h0, Nat.and_zero]

/-! ## C18, C19: unwinding through builtin code -/

theorem or_and_self (x f : Nat) : (x ||| f) &&& f = f := by
  apply Nat.eq_of_testBit_eq
  intro i
  rw [Nat.testBit_and, Nat.testBit_or]
  cases x.testBit i <;> cases f.testBit i <;> rfl

/-- C18: when `unw_init_local` succeeds and the stepping service has no metadata for
the control pc (`unw_get_proc_info` reports `-UNW_ENOINFO`, or it succeeds and the
adjusted ip lies outside `[start_ip, end_ip]`), `unwind_builtin_dll` returns
`STATUS_SUCCESS` if and only if `Pc` differs from `Lr`, and
`STATUS_INVALID_DISPOSITION` when they are equal; the resulting context has `Pc`
equal to the old `Lr`, the `CONTEXT_UNWOUND_TO_CALL` flag set and every other
register unchanged, with `LanguageHandler = NULL` and `EstablisherFrame = Sp`. -/
theorem unwind_no_metadata (uw : Libunwind) (env : Env) (m : Mem)
    (dispatch : DISPATCHER_CONTEXT) (context : CONTEXT)
    (hinit : uw.unw_init_local (unw_context_of context) = UNW_ESUCCESS)
    (hno : (uw.unw_get_proc_info (unw_context_of context)).1 = -UNW_ENOINFO ∨
      ((uw.unw_get_proc_info (unw_context_of context)).1 = UNW_ESUCCESS ∧
        ((context.Pc + 2 ^ 32 - (if dispatch.ControlPcIsUnwound ≠ 0 then 2 else 0)) % 2 ^ 32
            < (uw.unw_get_proc_info (unw_context_of context)).2.start_ip ∨
         (context.Pc + 2 ^ 32 - (if dispatch.ControlPcIsUnwound ≠ 0 then 2 else 0)) % 2 ^ 32
            > (uw.unw_get_proc_info (unw_context_of context)).2.end_ip))) :
    ((unwind_builtin_dll uw env m dispatch context).1 = STATUS_SUCCESS ↔
      context.Pc ≠ context.Lr) ∧
    (context.Pc = context.Lr →
      (unwind_builtin_dll uw env m dispatch context).1 = STATUS_INVALID_DISPOSITION) ∧
    (unwind_builtin_dll uw env m dispatch context).2.2 =
      { context with
        Pc := context.Lr
        ContextFlags := context.ContextFlags ||| CONTEXT_UNWOUND_TO_CALL } ∧
    (unwind_builtin_dll uw env m dispatch context).2.2.ContextFlags
      &&& CONTEXT_UNWOUND_TO_CALL = CONTEXT_UNWOUND_TO_CALL ∧
    (unwind_builtin_dll uw env m dispatch context).2.1 =
      { dispatch with LanguageHandler := 0, EstablisherFrame := context.Sp } := by
  have h1 : ¬ ((uw.unw_get_proc_info (unw_context_of context)).1 ≠ UNW_ESUCCESS ∧
      (uw.unw_get_proc_info (unw_context_of context)).1 ≠ -UNW_ENOINFO) := by
    rcases hno with h | ⟨h, _⟩
    · exact fun hh => hh.2 h
    · exact fun hh => hh.1 h
  have h2 : (uw.unw_get_proc_info (unw_context_of context)).1 = -UNW_ENOINFO ∨
      (context.Pc + 2 ^ 32 - (if dispatch.ControlPcIsUnwound ≠ 0 then 2 else 0)) % 2 ^ 32
          < (uw.unw_get_proc_info (unw_context_of context)).2.start_ip ∨
      (context.Pc + 2 ^ 32 - (if dispatch.ControlPcIsUnwound ≠ 0 then 2 else 0)) % 2 ^ 32
          > (uw.unw_get_proc_info (unw_context_of context)).2.end_ip := by
    rcases hno with h | ⟨_, h⟩
    · exact Or.inl h
    · exact Or.inr h
  have hres : unwind_builtin_dll uw env m dispatch context =
      (if context.Pc ≠ context.Lr then STATUS_SUCCESS else STATUS_INVALID_DISPOSITION,
       { dispatch with LanguageHandler := 0, EstablisherFrame := context.Sp },
       { context with
         Pc := context.Lr
         ContextFlags := context.ContextFlags ||| CONTEXT_UNWOUND_TO_CALL }) := by
    unfold unwind_builtin_dll
    simp only [hinit, ne_eq, not_true_eq_false, if_false, if_neg h1, if_pos h2]
  rw [hres]
  refine ⟨?_, ?_, rfl, or_and_self _ _, rfl⟩
  · by_cases hp : context.Pc = context.Lr
    · simp [hp, STATUS_SUCCESS, STATUS_INVALID_DISPOSITION]
    · simp [hp]
  · intro hp
    simp [hp]

/-- Witness for C18: a leaf function (`Pc = 0x7000010b`, `Lr = 0x4444`) for which the
stepping service has no metadata. -/
theorem unwind_no_metadata_witness :
    (unwind_builtin_dll Libunwind.noinfo Env.handled (fun _ => 0) DISPATCHER_CONTEXT.zero
      ctx_in_trampoline).1 = STATUS_SUCCESS ∧
    (unwind_builtin_dll Libunwind.noinfo Env.handled (fun _ => 0) DISPATCHER_CONTEXT.zero
      ctx_in_trampoline).2.2.Pc = 0x4444 := by
  obtain ⟨h1, _, h3, _⟩ :=
    unwind_no_metadata Libunwind.noinfo Env.handled (fun _ => 0) DISPATCHER_CONTEXT.zero
      ctx_in_trampoline rfl (Or.inl rfl)
  exact ⟨h1.2 (by decide), by rw [h3]; rfl⟩

/-- C19: for a successful step with metadata (`unw_init_local` and
`unw_get_proc_info` succeed, the adjusted ip lies in `[start_ip, end_ip]`, `unw_step`
does not fail), `unwind_builtin_dll` returns `STATUS_SUCCESS` with the establisher
frame equal to the stack pointer before the step; when the start address of the
function, ignoring its low bit, equals `raise_func_trampoline`, ignoring its low
bit, the resulting `Lr` is the 32-bit word stored at the establisher frame, and for
every other function it is the `R14` of the stepping service. -/
theorem unwind_trampoline_fixup (uw : Libunwind) (env : Env) (m : Mem)
    (dispatch : DISPATCHER_CONTEXT) (context : CONTEXT)
    (hinit : uw.unw_init_local (unw_context_of context) = UNW_ESUCCESS)
    (hinfo : (uw.unw_get_proc_info (unw_context_of context)).1 = UNW_ESUCCESS)
    (hlo : ¬ (context.Pc + 2 ^ 32 - (if dispatch.ControlPcIsUnwound ≠ 0 then 2 else 0)) % 2 ^ 32
      < (uw.unw_get_proc_info (unw_context_of context)).2.start_ip)
    (hhi : ¬ (context.Pc + 2 ^ 32 - (if dispatch.ControlPcIsUnwound ≠ 0 then 2 else 0)) % 2 ^ 32
      > (uw.unw_get_proc_info (unw_context_of context)).2.end_ip)
    (hstep : ¬ (uw.unw_step (unw_context_of context)).1 < 0) :
    (unwind_builtin_dll uw env m dispatch context).1 = STATUS_SUCCESS ∧
    (unwind_builtin_dll uw env m dispatch context).2.1.EstablisherFrame = context.Sp ∧
    ((uw.unw_get_proc_info (unw_context_of context)).2.start_ip &&& 0xfffffffe
        = env.raise_func_trampoline &&& 0xfffffffe →
      (unwind_builtin_dll uw env m dispatch context).2.2.Lr = ld32 m context.Sp) ∧
    ((uw.unw_get_proc_info (unw_context_of context)).2.start_ip &&& 0xfffffffe
        ≠ env.raise_func_trampoline &&& 0xfffffffe →
      (unwind_builtin_dll uw env m dispatch context).2.2.Lr
        = (uw.unw_step (unw_context_of context)).2.R14) ∧
    (unwind_builtin_dll uw env m dispatch context).2.2.Pc
      = (uw.unw_step (unw_context_of context)).2.IP ∧
    (unwind_builtin_dll uw env m dispatch context).2.2.Sp
      = (uw.unw_step (unw_context_of context)).2.R13 := by
  have h1 : ¬ ((uw.unw_get_proc_info (unw_context_of context)).1 ≠ UNW_ESUCCESS ∧
      (uw.unw_get_proc_info (unw_context_of context)).1 ≠ -UNW_ENOINFO) :=
    fun hh => hh.1 hinfo
  have h2 : ¬ ((uw.unw_get_proc_info (unw_context_of context)).1 = -UNW_ENOINFO ∨
      (context.Pc + 2 ^ 32 - (if dispatch.ControlPcIsUnwound ≠ 0 then 2 else 0)) % 2 ^ 32
          < (uw.unw_get_proc_info (unw_context_of context)).2.start_ip ∨
      (context.Pc + 2 ^ 32 - (if dispatch.ControlPcIsUnwound ≠ 0 then 2 else 0)) % 2 ^ 32
          > (uw.unw_get_proc_info (unw_context_of context)).2.end_ip) := by
    rintro (h | h | h)
    · rw [hinfo] at h
      exact absurd h (by decide)
    · exact hlo h
    · exact hhi h
  have hres : unwind_builtin_dll uw env m dispatch context =
      (STATUS_SUCCESS,
       { dispatch with
         LanguageHandler := (uw.unw_get_proc_info (unw_context_of context)).2.handler
         HandlerData := (uw.unw_get_proc_info (unw_context_of context)).2.lsda
         EstablisherFrame := context.Sp },
       if (uw.unw_get_proc_info (unw_context_of context)).2.start_ip &&& 0xfffffffe
           = env.raise_func_trampoline &&& 0xfffffffe then
         { context with
           R0 := (uw.unw_step (unw_context_of context)).2.R 0
           R1 := (uw.unw_step (unw_context_of context)).2.R 1
           R2 := (uw.unw_step (unw_context_of context)).2.R 2
           R3 := (uw.unw_step (unw_context_of context)).2.R 3
           R4 := (uw.unw_step (unw_context_of context)).2.R 4
           R5 := (uw.unw_step (unw_context_of context)).2.R 5
           R6 := (uw.unw_step (unw_context_of context)).2.R 6
           R7 := (uw.unw_step (unw_context_of context)).2.R 7
           R8 := (uw.unw_step (unw_context_of context)).2.R 8
           R9 := (uw.unw_step (unw_context_of context)).2.R 9
           R10 := (uw.unw_step (unw_context_of context)).2.R 10
           R11 := (uw.unw_step (unw_context_of context)).2.R 11
           R12 := (uw.unw_step (unw_context_of context)).2.R 12
           Sp := (uw.unw_step (unw_context_of context)).2.R13
           Lr := ld32 m context.Sp
           Pc := (uw.unw_step (unw_context_of context)).2.IP
           ContextFlags := context.ContextFlags ||| CONTEXT_UNWOUND_TO_CALL }
       else
         { context with
           R0 := (uw.unw_step (unw_context_of context)).2.R 0
           R1 := (uw.unw_step (unw_context_of context)).2.R 1
           R2 := (uw.unw_step (unw_context_of context)).2.R 2
           R3 := (uw.unw_step (unw_context_of context)).2.R 3
           R4 := (uw.unw_step (unw_context_of context)).2.R 4
           R5 := (uw.unw_step (unw_context_of context)).2.R 5
           R6 := (uw.unw_step (unw_context_of context)).2.R 6
           R7 := (uw.unw_step (unw_context_of context)).2.R 7
           R8 := (uw.unw_step (unw_context_of context)).2.R 8
           R9 := (uw.unw_step (unw_context_of context)).2.R 9
           R10 := (uw.unw_step (unw_context_of context)).2.R 10
           R11 := (uw.unw_step (unw_context_of context)).2.R 11
           R12 := (uw.unw_step (unw_context_of context)).2.R 12
           Sp := (uw.unw_step (unw_context_of context)).2.R13
           Lr := (uw.unw_step (unw_context_of context)).2.R14
           Pc := (uw.unw_step (unw_context_of context)).2.IP
           ContextFlags := context.ContextFlags ||| CONTEXT_UNWOUND_TO_CALL }) := by
    unfold unwind_builtin_dll
    simp only [hinit, ne_eq, not_true_eq_false, if_false, if_neg h1, if_neg h2, if_neg hstep]
  rw [hres]
  refine ⟨rfl, rfl, ?_, ?_, ?_, ?_⟩
  · intro ht
    rw [if_pos ht]
  · intro ht
    rw [if_neg ht]
  · split <;> rfl
  · split <;> rfl

/-- Witness for C19: stepping off the trampoline frame with `Sp = 0x20000`, where
memory holds `0xcafe`, while the stepping service recovers `R14 = 0x1234`. -/
theorem unwind_trampoline_fixup_witness :
    (unwind_builtin_dll (Libunwind.found 0x70000100) Env.handled mem_saved_lr
      DISPATCHER_CONTEXT.zero ctx_in_trampoline).2.2.Lr = 0xcafe ∧
    ((Libunwind.found 0x70000100).unw_step (unw_context_of ctx_in_trampoline)).2.R14
      = 0x1234 := by
  obtain ⟨_, _, h3, _⟩ :=
    unwind_trampoline_fixup (Libunwind.found 0x70000100) Env.handled mem_saved_lr
      DISPATCHER_CONTEXT.zero ctx_in_trampoline rfl rfl (by decide) (by decide) (by decide)
  exact ⟨(h3 (by decide)).trans (by decide), rfl⟩

/-! ## C20: idempotence of the write-back -/

theorem set_context_frame_idem (c : CONTEXT) (f : syscall_frame) :
    set_context_frame c (set_context_frame c f) = set_context_frame c f := by
  unfold set_context_frame
  simp only
  split <;> split <;> split <;> simp [Nat.or_assoc]

/-- C20: `NtSetContextThread( GetCurrentThread(), c )` succeeds, and applying it a
second time leaves the frame (all register fields and `restore_flags`), indeed every
frame, the thread data and memory exactly as the first application left them;
likewise the return path of the dispatcher, run a second time on the same frame
(`r8` pointing to it again), yields the registers of the first run. -/
theorem write_back_idempotent (set_thread_context : Nat → CONTEXT → Nat × Bool) (s : State)
    (c : CONTEXT) (regs : Regs) :
    (NtSetContextThread set_thread_context s CURRENT_THREAD c).2 = STATUS_SUCCESS ∧
    (NtSetContextThread set_thread_context
      (NtSetContextThread set_thread_context s CURRENT_THREAD c).1 CURRENT_THREAD c).2
      = STATUS_SUCCESS ∧
    ((NtSetContextThread set_thread_context
      (NtSetContextThread set_thread_context s CURRENT_THREAD c).1 CURRENT_THREAD c).1.frames
        s.thread.syscall_frame).frame
      = ((NtSetContextThread set_thread_context s CURRENT_THREAD c).1.frames
        s.thread.syscall_frame).frame ∧
    (NtSetContextThread set_thread_context
      (NtSetContextThread set_thread_context s CURRENT_THREAD c).1 CURRENT_THREAD c).1.frames
      = (NtSetContextThread set_thread_context s CURRENT_THREAD c).1.frames ∧
    (NtSetContextThread set_thread_context
      (NtSetContextThread set_thread_context s CURRENT_THREAD c).1 CURRENT_THREAD c).1.thread
      = (NtSetContextThread set_thread_context s CURRENT_THREAD c).1.thread ∧
    (NtSetContextThread set_thread_context
      (NtSetContextThread set_thread_context s CURRENT_THREAD c).1 CURRENT_THREAD c).1.mem
      = (NtSetContextThread set_thread_context s CURRENT_THREAD c).1.mem ∧
    dispatcher_label4 { dispatcher_label4 regs s with r8 := regs.r8 } s
      = dispatcher_label4 regs s := by
  have hfr : (NtSetContextThread set_thread_context
      (NtSetContextThread set_thread_context s CURRENT_THREAD c).1 CURRENT_THREAD c).1.frames
      = (NtSetContextThread set_thread_context s CURRENT_THREAD c).1.frames := by
    funext a
    simp only [NtSetContextThread, ne_eq, not_true_eq_false, false_and, if_false, if_true]
    by_cases ha : a = s.thread.syscall_frame
    · simp only [ha, if_true, set_context_frame_idem]
    · simp only [if_neg ha]
  refine ⟨?_, ?_, ?_, hfr, ?_, ?_, ?_⟩
  · simp [NtSetContextThread]
  · simp [NtSetContextThread]
  · rw [hfr]
  · simp [NtSetContextThread]
  · simp [NtSetContextThread]
  · unfold dispatcher_label4
    simp only
    split <;> split <;> simp
    all_goals
      funext i
      by_cases hi : i.val < 16 <;> simp [hi]


/-! ## C21: the argument spill of the dispatcher -/

theorem st8_addr_congr (m : Mem) (a b v : Nat) (h : a % 2 ^ 32 = b % 2 ^ 32) :
    st8 m a v = st8 m b v := by
  unfold st8
  rw [h]

theorem stN_addr_congr (n : Nat) (m : Mem) (a b v : Nat) (h : a % 2 ^ 32 = b % 2 ^ 32) :
    stN n m a v = stN n m b v := by
  induction n generalizing m a b v with
  | zero => rfl
  | succ n ih =>
    simp only [stN]
    rw [st8_addr_congr m a b v h]
    apply ih
    omega

theorem ld8_addr_congr (m : Mem) (a b : Nat) (h : a % 2 ^ 32 = b % 2 ^ 32) :
    ld8 m a = ld8 m b := by
  unfold ld8
  rw [h]

theorem ldN_addr_congr (m : Mem) (n a b : Nat) (h : a % 2 ^ 32 = b % 2 ^ 32) :
    ldN m n a = ldN m n b := by
  induction n generalizing a b with
  | zero => rfl
  | succ n ih =>
    simp only [ldN]
    rw [ld8_addr_congr m a b h, ih (a + 1) (b + 1) (by omega)]

theorem dispatcher_spill_size_eq (n : Nat) (h : n < 2 ^ 31) :
    dispatcher_spill_size n = max n 16 := by
  unfold dispatcher_spill_size
  rw [to_int32_small n h]
  split <;> omega

theorem and_align8 (y : Nat) (hy : y < 2 ^ 32) : y &&& 0xfffffff8 = 8 * (y / 8) := by
  apply Nat.eq_of_testBit_eq
  intro i
  have h8 : (0xfffffff8 : Nat) = (2 ^ 32 - 1) ^^^ (2 ^ 3 - 1) := by decide
  rw [Nat.testBit_and, h8, Nat.testBit_xor, Nat.testBit_two_pow_sub_one,
    Nat.testBit_two_pow_sub_one, show (8 : Nat) = 2 ^ 3 by rfl, Nat.testBit_mul_pow_two,
    ← Nat.shiftRight_eq_div_pow, Nat.testBit_shiftRight]
  by_cases h3 : 3 ≤ i
  · by_cases h32 : i < 32
    · simp [h3, h32, show ¬ i < 3 by omega, show 3 + (i - 3) = i by omega]
    · have : y.testBit i = false := by
        apply Nat.testBit_lt_two_pow
        calc y < 2 ^ 32 := hy
          _ ≤ 2 ^ i := Nat.pow_le_pow_right (by decide) (by omega)
      simp [this, show 3 + (i - 3) = i by omega]
  · simp [h3, show i < 3 by omega, show i < 32 by omega]

theorem dispatcher_spill_sp_facts (frame size : Nat) (hf : frame < 2 ^ 32)
    (hs : size ≤ frame) :
    dispatcher_spill_sp frame size % 8 = 0 ∧
    dispatcher_spill_sp frame size + size ≤ frame ∧
    frame < dispatcher_spill_sp frame size + size + 8 := by
  unfold dispatcher_spill_sp
  have h1 : (frame + 2 ^ 32 - size) % 2 ^ 32 = frame - size := by omega
  rw [h1, and_align8 _ (by omega)]
  omega

theorem dispatcher_copy_args_terminates (fuel : Nat) (m : Mem) (r6 sp r5 : Nat)
    (h1 : 1 ≤ fuel) (h2 : r5 ≤ 4 * fuel) (h3 : r5 < 2 ^ 31) :
    ∃ r, dispatcher_copy_args fuel m r6 sp r5 = some r := by
  induction fuel generalizing m r5 with
  | zero => omega
  | succ fuel ih =>
    unfold dispatcher_copy_args
    simp only
    rw [to_int32_small r5 h3]
    split
    · rename_i hgt
      have h5 : (r5 + 2 ^ 32 - 4) % 2 ^ 32 = r5 - 4 := by omega
      rw [h5]
      apply ih <;> omega
    · exact ⟨_, rfl⟩

theorem dispatcher_copy_args_words (k fuel : Nat) (m : Mem) (r6 sp : Nat)
    (h1 : k < fuel) (h2 : 4 * (k + 1) < 2 ^ 31) :
    ∃ r0, dispatcher_copy_args fuel m r6 sp (4 * (k + 1))
      = some (spec_copy_words m r6 sp (k + 1), 0, r0) := by
  induction k generalizing fuel m with
  | zero =>
    cases fuel with
    | zero => omega
    | succ fuel =>
      unfold dispatcher_copy_args
      simp only
      rw [to_int32_small _ h2]
      have h5 : (4 * (0 + 1) + 2 ^ 32 - 4) % 2 ^ 32 = 0 := by decide
      rw [h5, if_neg (by decide)]
      refine ⟨ld32 m ((r6 + 0) % 2 ^ 32), ?_⟩
      simp only [spec_copy_words, st32, ld32]
      rw [stN_addr_congr 4 m ((sp + 0) % 2 ^ 32) (sp + 4 * 0) _ (by omega),
        ldN_addr_congr m 4 ((r6 + 0) % 2 ^ 32) (r6 + 4 * 0) (by omega)]
  | succ k ih =>
    cases fuel with
    | zero => omega
    | succ fuel =>
      unfold dispatcher_copy_args
      simp only
      rw [to_int32_small _ h2]
      have h5 : (4 * (k + 1 + 1) + 2 ^ 32 - 4) % 2 ^ 32 = 4 * (k + 1) := by omega
      rw [h5, if_pos (by omega)]
      obtain ⟨r0, hr⟩ := ih fuel
        (st32 m ((sp + 4 * (k + 1)) % 2 ^ 32) (ld32 m ((r6 + 4 * (k + 1)) % 2 ^ 32)))
        (by omega) (by omega)
      refine ⟨r0, ?_⟩
      rw [hr]
      simp only [spec_copy_words, st32, ld32]
      rw [stN_addr_congr 4 m ((sp + 4 * (k + 1)) % 2 ^ 32) (sp + 4 * (k + 1)) _ (by omega),
        ldN_addr_congr m 4 ((r6 + 4 * (k + 1)) % 2 ^ 32) (r6 + 4 * (k + 1)) (by omega)]


theorem wine_syscall_dispatcher_in_range (call : Nat → Regs → State → Regs × State)
    (label4 cpsr : Nat) (regs : Regs) (s : State)
    (h : regs.r12 &&& 0xfff < ld32 s.mem ((dispatcher_table regs s + 8) % 2 ^ 32))
    (mem : Mem) (r5 r0 : Nat)
    (hcopy : dispatcher_copy_args 64 s.mem regs.sp
      (dispatcher_spill_sp s.thread.syscall_frame
        (dispatcher_spill_size (dispatcher_arg_bytes regs s)))
      (dispatcher_spill_size (dispatcher_arg_bytes regs s)) = some (mem, r5, r0)) :
    ∃ R S, wine_syscall_dispatcher call label4 cpsr regs s
        = some { regs := dispatcher_label4 (call (dispatcher_service regs s mem) R S).1
                   (call (dispatcher_service regs s mem) R S).2
                 state := (call (dispatcher_service regs s mem) R S).2
                 invoked := some (dispatcher_service regs s mem) } ∧
      R.sp = (dispatcher_spill_sp s.thread.syscall_frame
        (dispatcher_spill_size (dispatcher_arg_bytes regs s)) + 16) % 2 ^ 32 ∧
      R.r0 = ld32 mem (dispatcher_spill_sp s.thread.syscall_frame
        (dispatcher_spill_size (dispatcher_arg_bytes regs s))) ∧
      R.r1 = ld32 mem ((dispatcher_spill_sp s.thread.syscall_frame
        (dispatcher_spill_size (dispatcher_arg_bytes regs s)) + 4) % 2 ^ 32) ∧
      R.r2 = ld32 mem ((dispatcher_spill_sp s.thread.syscall_frame
        (dispatcher_spill_size (dispatcher_arg_bytes regs s)) + 8) % 2 ^ 32) ∧
      R.r3 = ld32 mem ((dispatcher_spill_sp s.thread.syscall_frame
        (dispatcher_spill_size (dispatcher_arg_bytes regs s)) + 12) % 2 ^ 32) ∧
      R.lr = label4 ∧ R.r8 = s.thread.syscall_frame ∧ R.r6 = regs.sp ∧
      S.mem = mem ∧ S.thread = s.thread ∧
      (S.frames s.thread.syscall_frame).frame.restore_flags = 0 := by
  unfold dispatcher_table at h
  unfold dispatcher_spill_sp dispatcher_spill_size dispatcher_arg_bytes dispatcher_table at hcopy
  unfold wine_syscall_dispatcher
  simp only [ge_iff_le, if_neg (not_le.mpr h), hcopy]
  refine ⟨_, _, rfl, rfl, rfl, rfl, rfl, rfl, rfl, rfl, rfl, rfl, rfl, ?_⟩
  simp

theorem spec_copy_words_other (k : Nat) (m : Mem) (src dst b : Nat)
    (h : ∀ t, t < 4 * k → b % 2 ^ 32 ≠ (dst + t) % 2 ^ 32) :
    ld8 (spec_copy_words m src dst k) b = ld8 m b := by
  induction k generalizing m with
  | zero => rfl
  | succ k ih =>
    simp only [spec_copy_words]
    rw [ih _ (fun t ht => h t (by omega))]
    apply ld8_stN_other
    intro i hi
    have := h (4 * k + i) (by omega)
    rw [Nat.add_assoc]
    exact this

theorem spec_copy_words_copied (k : Nat) (m : Mem) (src dst : Nat) (hk : 4 * k ≤ 2 ^ 32)
    (hd : ∀ i, i < 4 * k → ∀ t, t < 4 * k → (src + i) % 2 ^ 32 ≠ (dst + t) % 2 ^ 32)
    (j : Nat) (hj : j < k) :
    ld32 (spec_copy_words m src dst k) (dst + 4 * j) = ld32 m (src + 4 * j) := by
  induction k generalizing m with
  | zero => omega
  | succ k ih =>
    simp only [spec_copy_words]
    by_cases hjk : j < k
    · rw [ih _ (by omega) (fun i hi t ht => hd i (by omega) t (by omega)) hjk]
      apply ldN_congr
      intro i hi
      apply ld8_stN_other
      intro t ht
      have := hd (4 * j + i) (by omega) (4 * k + t) (by omega)
      rw [Nat.add_assoc, Nat.add_assoc]
      exact this
    · have hjeq : j = k := by omega
      subst hjeq
      have h1 : ld32 (spec_copy_words (st32 m (dst + 4 * j) (ld32 m (src + 4 * j))) src dst j)
          (dst + 4 * j) = ld32 (st32 m (dst + 4 * j) (ld32 m (src + 4 * j))) (dst + 4 * j) := by
        apply ldN_congr
        intro i hi
        apply spec_copy_words_other
        intro t ht
        omega
      rw [h1, ld32_st32_same]
      apply Nat.mod_eq_of_lt
      exact ldN_lt m 4 (src + 4 * j)

/-- C21 (amended): for a service number below `ServiceLimit`, let `n` be the byte
that the dispatcher reads from the argument array, `size` its clamped value and `sp`
the stack pointer it sets before the copy, with the frame at least `size` bytes
above address 0.  Then `n ≤ 255`, `size = max n 16`, `sp` is 8-byte aligned and at
least `size` bytes below the frame; the copy loop returns, and when `size` is a
multiple of 4 it leaves `r5 = 0` and has copied exactly the `size / 4` words at
offsets `size - 4` down to 0 from the caller's block at the entry `sp` (no byte
outside the `size` bytes at `sp` changes, and if the two blocks do not overlap each
word of the copy equals the caller's word at the same offset); the service body is
then called with `r0`-`r3` popped from the copy and with the stack pointer `sp + 16`,
which is 8-byte aligned and at most the frame address. -/
theorem dispatcher_argument_spill (call : Nat → Regs → State → Regs × State)
    (label4 cpsr : Nat) (regs : Regs) (s : State) (n size sp : Nat)
    (hrange : regs.r12 &&& 0xfff < ld32 s.mem ((dispatcher_table regs s + 8) % 2 ^ 32))
    (hn : n = dispatcher_arg_bytes regs s)
    (hsize : size = dispatcher_spill_size n)
    (hsp : sp = dispatcher_spill_sp s.thread.syscall_frame size)
    (hframe : s.thread.syscall_frame < 2 ^ 32)
    (hbelow : size ≤ s.thread.syscall_frame) :
    n ≤ 255 ∧ size = max n 16 ∧ sp % 8 = 0 ∧ sp + size ≤ s.thread.syscall_frame ∧
    ∃ mem r5 r0 R S,
      dispatcher_copy_args 64 s.mem regs.sp sp size = some (mem, r5, r0) ∧
      (size % 4 = 0 → r5 = 0 ∧ mem = spec_copy_words s.mem regs.sp sp (size / 4) ∧
        (∀ b, (∀ t, t < size → b % 2 ^ 32 ≠ (sp + t) % 2 ^ 32) → ld8 mem b = ld8 s.mem b) ∧
        ((∀ i, i < size → ∀ t, t < size → (regs.sp + i) % 2 ^ 32 ≠ (sp + t) % 2 ^ 32) →
          ∀ j, 4 * j < size → ld32 mem (sp + 4 * j) = ld32 s.mem (regs.sp + 4 * j))) ∧
      wine_syscall_dispatcher call label4 cpsr regs s
        = some { regs := dispatcher_label4 (call (dispatcher_service regs s mem) R S).1
                   (call (dispatcher_service regs s mem) R S).2
                 state := (call (dispatcher_service regs s mem) R S).2
                 invoked := some (dispatcher_service regs s mem) } ∧
      S.mem = mem ∧ S.thread = s.thread ∧
      R.r0 = ld32 mem sp ∧ R.r1 = ld32 mem (sp + 4) ∧ R.r2 = ld32 mem (sp + 8) ∧
      R.r3 = ld32 mem (sp + 12) ∧
      R.sp = sp + 16 ∧ R.sp % 8 = 0 ∧ R.sp ≤ s.thread.syscall_frame := by
  have hn255 : n ≤ 255 := by
    have := ld8_lt s.mem ((ld32 s.mem ((dispatcher_table regs s + 12) % 2 ^ 32)
      + (regs.r12 &&& 0xfff)) % 2 ^ 32)
    rw [hn]
    unfold dispatcher_arg_bytes
    omega
  have hmax : size = max n 16 := by
    rw [hsize]
    exact dispatcher_spill_size_eq n (by omega)
  obtain ⟨h8, hlow, _⟩ := dispatcher_spill_sp_facts s.thread.syscall_frame size hframe hbelow
  rw [← hsp] at h8 hlow
  obtain ⟨⟨mem, r5, r0⟩, hcopy⟩ := dispatcher_copy_args_terminates 64 s.mem regs.sp sp size
    (by omega) (by omega) (by omega)
  have hcopy2 := hcopy
  rw [hsp, hsize, hn] at hcopy2
  obtain ⟨R, S, hres, hRsp, hR0, hR1, hR2, hR3, _, _, _, hSmem, hSthread, _⟩ :=
    wine_syscall_dispatcher_in_range call label4 cpsr regs s hrange mem r5 r0 hcopy2
  rw [← hn, ← hsize, ← hsp] at hRsp hR0 hR1 hR2 hR3
  have hRsp2 : R.sp = sp + 16 := by
    rw [hRsp]
    omega
  refine ⟨hn255, hmax, h8, hlow, mem, r5, r0, R, S, hcopy, ?_, hres, hSmem, hSthread, hR0,
    ?_, ?_, ?_, hRsp2, by omega, by omega⟩
  · intro h4
    obtain ⟨k, hk⟩ : ∃ k, size = 4 * (k + 1) := ⟨size / 4 - 1, by omega⟩
    obtain ⟨r0w, hw⟩ := dispatcher_copy_args_words k 64 s.mem regs.sp sp (by omega) (by omega)
    rw [← hk, hcopy] at hw
    simp only [Option.some.injEq, Prod.mk.injEq] at hw
    have hq : size / 4 = k + 1 := by omega
    refine ⟨hw.2.1, by rw [hw.1, hq], ?_, ?_⟩
    · intro b hb
      rw [hw.1]
      exact spec_copy_words_other (k + 1) s.mem regs.sp sp b (fun t ht => hb t (by omega))
    · intro hd j hj
      rw [hw.1]
      exact spec_copy_words_copied (k + 1) s.mem regs.sp sp (by omega)
        (fun i hi t ht => hd i (by omega) t (by omega)) j (by omega)
  · rw [hR1]
    exact ldN_addr_congr mem 4 _ _ (by omega)
  · rw [hR2]
    exact ldN_addr_congr mem 4 _ _ (by omega)
  · rw [hR3]
    exact ldN_addr_congr mem 4 _ _ (by omega)


/-- Witness for C21: service 1 of the sample tables declares 24 argument bytes; the
copy of its six words starts at `0x2fe88` and the body is entered with
`sp = 0x2fe98`. -/
theorem dispatcher_argument_spill_witness :
    ∃ mem r5 r0 R S,
      dispatcher_copy_args 64 state_service.mem regs_service.sp 0x2fe88 24
        = some (mem, r5, r0) ∧
      r5 = 0 ∧ mem = spec_copy_words state_service.mem regs_service.sp 0x2fe88 6 ∧
      wine_syscall_dispatcher call_report_sp 0 0 regs_service state_service
        = some { regs := dispatcher_label4
                   (call_report_sp (dispatcher_service regs_service state_service mem) R S).1
                   (call_report_sp (dispatcher_service regs_service state_service mem) R S).2
                 state :=
                   (call_report_sp (dispatcher_service regs_service state_service mem) R S).2
                 invoked := some (dispatcher_service regs_service state_service mem) } ∧
      R.sp = 0x2fe98 := by
  obtain ⟨_, _, _, _, mem, r5, r0, R, S, hcopy, h4, hres, _, _, _, _, _, _, hsp, _⟩ :=
    dispatcher_argument_spill call_report_sp 0 0 regs_service state_service 24 24 0x2fe88
      (by decide) (by decide) (by decide) (by decide) (by decide) (by decide)
  exact ⟨mem, r5, r0, R, S, hcopy, (h4 (by decide)).1, (h4 (by decide)).2.1, hres, hsp⟩


theorem ld32_spec_copy_words_other (k : Nat) (m : Mem) (src dst a : Nat)
    (h : ∀ i, i < 4 → ∀ t, t < 4 * k → (a + i) % 2 ^ 32 ≠ (dst + t) % 2 ^ 32) :
    ld32 (spec_copy_words m src dst k) a = ld32 m a := by
  apply ldN_congr
  intro i hi
  exact spec_copy_words_other k m src dst (a + i) (h i hi)

theorem dispatcher_label4_r0 (regs : Regs) (s : State)
    (h : (s.frames regs.r8).frame.restore_flags = 0) :
    (dispatcher_label4 regs s).r0 = regs.r0 := by
  unfold dispatcher_label4
  simp [h]

/-- Counterexample for C21 as stated: service 1 of the sample tables declares 24
argument bytes and the frame is at `0x2fea0`, so the stated stack pointer is
`(0x2fea0 - 24) & ~7 = 0x2fe88`; the service body at `0x409001` is entered with
`sp = 0x2fe98` (the sample body reports it in `r0`), which is 8 and not 24 bytes
below the frame. -/
theorem dispatcher_body_sp_counterexample :
    dispatcher_arg_bytes regs_service state_service = 24 ∧
    dispatcher_spill_sp state_service.thread.syscall_frame (max 24 16) = 0x2fe88 ∧
    (wine_syscall_dispatcher call_report_sp 0 0 regs_service state_service).map
        (fun r => (r.invoked, r.regs.r0)) = some (some 0x409001, 0x2fe98) ∧
    ¬ (0x2fe98 + max 24 16 ≤ state_service.thread.syscall_frame) := by
  refine ⟨by decide, by decide, ?_, by decide⟩
  obtain ⟨r0w, hw⟩ := dispatcher_copy_args_words 5 64 state_service.mem regs_service.sp
    0x2fe88 (by decide) (by decide)
  have e1 : dispatcher_spill_size (dispatcher_arg_bytes regs_service state_service)
      = 4 * (5 + 1) := by decide
  have e2 : dispatcher_spill_sp state_service.thread.syscall_frame (4 * (5 + 1))
      = 0x2fe88 := by decide
  obtain ⟨R, S, hres, hRsp, _, _, _, _, _, hR8, _, _, _, hflags⟩ :=
    wine_syscall_dispatcher_in_range call_report_sp 0 0 regs_service state_service
      (by decide) _ 0 r0w (by rw [e1, e2]; exact hw)
  rw [e1, e2] at hRsp
  have hsvc : dispatcher_service regs_service state_service
      (spec_copy_words state_service.mem regs_service.sp 0x2fe88 (5 + 1)) = 0x409001 := by
    unfold dispatcher_service
    have ht : dispatcher_table regs_service state_service = 0x4000 := by decide
    rw [ht, ld32_spec_copy_words_other (5 + 1) state_service.mem regs_service.sp 0x2fe88
      0x4000 (by intro i hi t ht; omega)]
    have h6 : ld32 state_service.mem 0x4000 = 0x6000 := by decide
    have h12 : (regs_service.r12 &&& 0xfff) <<< 2 = 4 := by decide
    rw [h6, h12, ld32_spec_copy_words_other (5 + 1) state_service.mem regs_service.sp
      0x2fe88 ((0x6000 + 4) % 2 ^ 32) (by intro i hi t ht; omega)]
    decide
  rw [hres, hsvc]
  simp only [Option.map, call_report_sp]
  rw [dispatcher_label4_r0 _ _ (by rw [hR8]; exact hflags), hRsp]
  rfl

/-! ## C22: setting and then reading the context of the current thread -/

theorem testBit_clear0 (x i : Nat) (hx : x < 2 ^ 32) :
    (x &&& 0xfffffffe).testBit i = (x.testBit i && !decide (0 = i)) := by
  have hm : (0xfffffffe : Nat) = (2 ^ 32 - 1) ^^^ 2 ^ 0 := by decide
  rw [hm, Nat.testBit_and, Nat.testBit_xor, Nat.testBit_two_pow_sub_one, Nat.testBit_two_pow]
  by_cases h32 : i < 32
  · by_cases h0 : 0 = i <;> simp [h32, h0]
  · have : x.testBit i = false :=
      Nat.testBit_lt_two_pow (lt_of_lt_of_le hx (Nat.pow_le_pow_right (by decide) (by omega)))
    simp [this]

theorem and_clear_one_eq (x : Nat) (hx : x < 2 ^ 32) (h : x &&& 1 = 0) :
    x &&& 0xfffffffe = x := by
  apply Nat.eq_of_testBit_eq
  intro i
  rw [testBit_clear0 _ _ hx]
  by_cases h0 : 0 = i
  · subst h0
    have : ¬ (x.testBit 0 = true) := by
      intro hb
      exact ((and_bit_ne_zero_iff x 0).2 hb) (by simpa using h)
    simp [this]
  · simp [h0]

theorem and_clear_one_or_one (x : Nat) (hx : x < 2 ^ 32) (h : x &&& 1 ≠ 0) :
    (x &&& 0xfffffffe) ||| 1 = x := by
  have h1 : x &&& 2 ^ 0 ≠ 0 := by simpa using h
  have hb := (and_bit_ne_zero_iff x 0).1 h1
  apply Nat.eq_of_testBit_eq
  intro i
  rw [Nat.testBit_or, testBit_clear0 _ _ hx, show (1 : Nat) = 2 ^ 0 by rfl, Nat.testBit_two_pow]
  by_cases h0 : 0 = i
  · subst h0
    simp [hb]
  · simp [h0]

theorem set_context_frame_pc (c : CONTEXT) (hpc : c.Pc < 2 ^ 32)
    (hagree : c.Pc &&& 1 ≠ 0 ↔ c.Cpsr &&& 0x20 ≠ 0) :
    (if c.Cpsr &&& 0x20 ≠ 0 then (c.Pc &&& 0xfffffffe) ||| 1 else c.Pc &&& 0xfffffffe)
      = c.Pc := by
  by_cases ht : c.Cpsr &&& 0x20 ≠ 0
  · rw [if_pos ht]
    exact and_clear_one_or_one c.Pc hpc (hagree.2 ht)
  · rw [if_neg ht]
    apply and_clear_one_eq c.Pc hpc
    by_contra h1
    exact ht (hagree.1 h1)

theorem flags_integer (x : Nat) : x &&& 0xffdfffff &&& CONTEXT_INTEGER = x &&& 2 := by
  rw [Nat.and_assoc]
  rfl

theorem flags_control (x : Nat) : x &&& 0xffdfffff &&& CONTEXT_CONTROL = x &&& 1 := by
  rw [Nat.and_assoc]
  rfl

theorem flags_floating_point (x : Nat) :
    x &&& 0xffdfffff &&& CONTEXT_FLOATING_POINT = x &&& 4 := by
  rw [Nat.and_assoc]
  rfl

theorem and_or_and_clear (r x : Nat) : (r ||| (x &&& 0xffdfffff &&& 0xffdffffd)) &&& 2 = r &&& 2 := by
  rw [Nat.and_distrib_right, Nat.and_assoc, Nat.and_assoc]
  have : (0xffdfffff &&& (0xffdffffd &&& 2) : Nat) = 0 := by decide
  rw [this, Nat.and_zero, Nat.or_zero]

theorem NtSetContextThread_self (stc : Nat → CONTEXT → Nat × Bool) (s : State) (c : CONTEXT) :
    NtSetContextThread stc s CURRENT_THREAD c
      = ({ s with frames := fun a =>
            if a = s.thread.syscall_frame then
              { s.frames s.thread.syscall_frame with
                frame := set_context_frame c (s.frames s.thread.syscall_frame).frame }
            else s.frames a }, STATUS_SUCCESS) := by
  simp [NtSetContextThread]

theorem NtGetContextThread_self_status (gtc : Nat → CONTEXT → Nat × Bool × CONTEXT)
    (s : State) (out0 : CONTEXT) :
    (NtGetContextThread gtc s CURRENT_THREAD out0).2 = STATUS_SUCCESS := by
  simp [NtGetContextThread]

/-- C22: let `c` be a context whose `Pc` is a 32-bit value with low bit equal to bit
0x20 of `Cpsr`, and `out0` a buffer with the same `ContextFlags`.  Then
`NtSetContextThread( GetCurrentThread(), c )` followed by
`NtGetContextThread( GetCurrentThread(), out0 )` both succeed, and for each of the
integer (flag bit 2), control (bit 1) and floating-point (bit 4) groups: if the
group is selected the returned context holds exactly the registers of `c` for it;
if it is not selected the returned context keeps the registers of `out0` and the
frame keeps its own.  The returned `ContextFlags` are those of `out0` with
`CONTEXT_INTEGER`, `CONTEXT_CONTROL`, `CONTEXT_FLOATING_POINT` or-ed in for the groups
that were filled and no other change, and bit 0x2 of the frame's `restore_flags` is
as before `NtSetContextThread`; thread data and memory are unchanged. -/
theorem set_then_get_context (stc : Nat → CONTEXT → Nat × Bool)
    (gtc : Nat → CONTEXT → Nat × Bool × CONTEXT) (s : State) (c out0 : CONTEXT)
    (hpc : c.Pc < 2 ^ 32)
    (hagree : c.Pc &&& 1 ≠ 0 ↔ c.Cpsr &&& 0x20 ≠ 0)
    (hflags : out0.ContextFlags = c.ContextFlags) :
    ∃ s1 out,
      NtSetContextThread stc s CURRENT_THREAD c = (s1, STATUS_SUCCESS) ∧
      NtGetContextThread gtc s1 CURRENT_THREAD out0 = (out, STATUS_SUCCESS) ∧
      (c.ContextFlags &&& 2 ≠ 0 → out.integer_group = c.integer_group) ∧
      (c.ContextFlags &&& 1 ≠ 0 → out.control_group = c.control_group) ∧
      (c.ContextFlags &&& 4 ≠ 0 → out.floating_group = c.floating_group) ∧
      (c.ContextFlags &&& 2 = 0 → out.integer_group = out0.integer_group ∧
        (s1.frames s.thread.syscall_frame).frame.integer_group
          = (s.frames s.thread.syscall_frame).frame.integer_group) ∧
      (c.ContextFlags &&& 1 = 0 → out.control_group = out0.control_group ∧
        (s1.frames s.thread.syscall_frame).frame.control_group
          = (s.frames s.thread.syscall_frame).frame.control_group) ∧
      (c.ContextFlags &&& 4 = 0 → out.floating_group = out0.floating_group ∧
        (s1.frames s.thread.syscall_frame).frame.floating_group
          = (s.frames s.thread.syscall_frame).frame.floating_group) ∧
      out.ContextFlags = out0.ContextFlags
        ||| (if c.ContextFlags &&& 2 ≠ 0 then CONTEXT_INTEGER else 0)
        ||| (if c.ContextFlags &&& 1 ≠ 0 then CONTEXT_CONTROL else 0)
        ||| (if c.ContextFlags &&& 4 ≠ 0 then CONTEXT_FLOATING_POINT else 0) ∧
      (s1.frames s.thread.syscall_frame).frame.restore_flags &&& 2
        = (s.frames s.thread.syscall_frame).frame.restore_flags &&& 2 ∧
      s1.thread = s.thread ∧ s1.mem = s.mem := by
  have hpcv := set_context_frame_pc c hpc hagree
  refine ⟨_, (NtGetContextThread gtc (NtSetContextThread stc s CURRENT_THREAD c).1
    CURRENT_THREAD out0).1, NtSetContextThread_self stc s c, ?_, ?_⟩
  · exact Prod.ext rfl (NtGetContextThread_self_status gtc _ out0)
  · simp only [NtGetContextThread, ne_eq, not_true_eq_false, false_and, if_false,
      NtSetContextThread_self, if_true, set_context_frame,
      hflags, flags_integer, flags_control, flags_floating_point, hpcv, and_or_and_clear,
      CONTEXT.integer_group, CONTEXT.control_group, CONTEXT.floating_group,
      syscall_frame.integer_group, syscall_frame.control_group, syscall_frame.floating_group]
    by_cases h2 : c.ContextFlags &&& 2 = 0 <;> by_cases h1 : c.ContextFlags &&& 1 = 0 <;>
      by_cases h4 : c.ContextFlags &&& 4 = 0 <;>
      simp [-Nat.and_one_is_mod, h2, h1, h4, hflags, hpcv, Nat.or_assoc]

/-- Witness for C22: the integer and control groups of `ctx_set_sample` (Thumb state,
odd `Pc = 0x401`) come back; the floating-point group is not selected. -/
theorem set_then_get_context_witness :
    ∃ s1 out,
      NtSetContextThread (fun _ _ => (0, true)) state_sample CURRENT_THREAD ctx_set_sample
        = (s1, STATUS_SUCCESS) ∧
      NtGetContextThread (fun _ c => (0, true, c)) s1 CURRENT_THREAD ctx_get_sample
        = (out, STATUS_SUCCESS) ∧
      out.integer_group = ctx_set_sample.integer_group ∧
      out.control_group = ctx_set_sample.control_group ∧
      out.floating_group = ctx_get_sample.floating_group ∧
      out.R0 = 7 ∧ out.Pc = 0x401 := by
  obtain ⟨s1, out, h1, h2, hi, hc, _, _, _, hf, _⟩ :=
    set_then_get_context (fun _ _ => (0, true)) (fun _ c => (0, true, c)) state_sample
      ctx_set_sample ctx_get_sample (by decide) (by decide) rfl
  have hi2 := hi (by decide)
  have hc2 := hc (by decide)
  have hi3 := hi2
  have hc3 := hc2
  simp only [CONTEXT.integer_group, CONTEXT.control_group, List.cons.injEq] at hi3 hc3
  exact ⟨s1, out, h1, h2, hi2, hc2, (hf (by decide)).1, hi3.1, hc3.2.2.1⟩

/-! ## The words of the host context in memory -/

theorem foldl_st32_other (base : Nat) (l : List (Nat × Nat)) (m : Mem) (b : Nat)
    (h : ∀ w ∈ l, ∀ k, k < 4 → b % 2 ^ 32 ≠ (base + w.1 + k) % 2 ^ 32) :
    ld8 (l.foldl (fun mm w => st32 mm (base + w.1) w.2) m) b = ld8 m b := by
  induction l generalizing m with
  | nil => rfl
  | cons w l ih =>
    simp only [List.foldl_cons]
    rw [ih]
    · exact ld8_stN_other 4 m _ _ b (h w (List.mem_cons_self _ _))
    · intro w1 hw1
      exact h w1 (List.mem_cons_of_mem _ hw1)

theorem foldl_st32_same (base : Nat) (l : List (Nat × Nat)) (m : Mem) (off v : Nat)
    (hmem : (off, v) ∈ l) (hpw : l.Pairwise (fun a b => a.1 ≠ b.1))
    (h4 : ∀ w ∈ l, w.1 % 4 = 0 ∧ w.1 < 2 ^ 31) :
    ld32 (l.foldl (fun mm w => st32 mm (base + w.1) w.2) m) (base + off) = v % 2 ^ 32 := by
  induction l generalizing m with
  | nil => cases hmem
  | cons w l ih =>
    simp only [List.foldl_cons]
    rw [List.pairwise_cons] at hpw
    rcases List.mem_cons.1 hmem with hw | hw
    · subst hw
      have hfr : ld32 (l.foldl (fun mm w => st32 mm (base + w.1) w.2)
          (st32 m (base + off) v)) (base + off) = ld32 (st32 m (base + off) v) (base + off) := by
        apply ldN_congr
        intro k hk
        apply foldl_st32_other
        intro w1 hw1 k1 hk1
        have hne := hpw.1 w1 hw1
        have h1 := h4 w1 (List.mem_cons_of_mem _ hw1)
        have h0 := h4 (off, v) (List.mem_cons_self _ _)
        simp only at hne h0
        omega
      rw [hfr]
      exact ld32_st32_same m (base + off) v
    · exact ih _ hw hpw.2 (fun w1 hw1 => h4 w1 (List.mem_cons_of_mem _ hw1))

theorem ucontext_t.words_offsets (h : ucontext_t) :
    h.words.Pairwise (fun a b => a.1 ≠ b.1) ∧
    ∀ w ∈ h.words, w.1 % 4 = 0 ∧ w.1 < 2 ^ 31 ∧ w.1 + 4 ≤ UC_MCONTEXT_WORDS_SIZE := by
  constructor
  · simp [ucontext_t.words]
  · intro w hw
    simp only [ucontext_t.words, List.mem_cons, List.mem_singleton, List.not_mem_nil,
      or_false] at hw
    unfold UC_MCONTEXT_WORDS_SIZE
    rcases hw with h | h | h | h | h | h | h | h | h | h | h | h | h | h | h | h | h | h | h <;>
      (subst h; simp)

theorem ucontext_t.store_apart (h : ucontext_t) (m : Mem) (b : Nat) (hb : h.apart b 1) :
    ld8 (h.store m) b = ld8 m b := by
  unfold ucontext_t.store
  apply foldl_st32_other
  intro w hw k hk
  have hw4 := ((ucontext_t.words_offsets h).2 w hw).2.2
  have := hb 0 (by omega) (w.1 + k) (by omega)
  rw [Nat.add_zero, ← Nat.add_assoc] at this
  exact this

theorem ucontext_t.ld32_store (h : ucontext_t) (m : Mem) (off v : Nat)
    (hmem : (off, v) ∈ h.words) : ld32 (h.store m) (h.mcontext + off) = v % 2 ^ 32 := by
  unfold ucontext_t.store
  obtain ⟨hpw, h4⟩ := ucontext_t.words_offsets h
  exact foldl_st32_same h.mcontext h.words m off v hmem hpw
    (fun w hw => ⟨(h4 w hw).1, (h4 w hw).2.1⟩)

theorem ucontext_t.load_store (h : ucontext_t) (m : Mem) (hwf : h.WellFormed) :
    ucontext_t.load h.uc_regspace (h.store m) = h := by
  obtain ⟨w0, w1, w2, w3, w4, w5, w6, w7, w8, w9, w10, w11, w12, w13, w14, w15, w16, w17,
    w18⟩ := hwf
  have e0 := ucontext_t.ld32_store h m 0 h.trap_no (by simp [ucontext_t.words])
  have e1 := ucontext_t.ld32_store h m 4 h.error_code (by simp [ucontext_t.words])
  have e2 := ucontext_t.ld32_store h m 12 h.arm_r0 (by simp [ucontext_t.words])
  have e3 := ucontext_t.ld32_store h m 16 h.arm_r1 (by simp [ucontext_t.words])
  have e4 := ucontext_t.ld32_store h m 20 h.arm_r2 (by simp [ucontext_t.words])
  have e5 := ucontext_t.ld32_store h m 24 h.arm_r3 (by simp [ucontext_t.words])
  have e6 := ucontext_t.ld32_store h m 28 h.arm_r4 (by simp [ucontext_t.words])
  have e7 := ucontext_t.ld32_store h m 32 h.arm_r5 (by simp [ucontext_t.words])
  have e8 := ucontext_t.ld32_store h m 36 h.arm_r6 (by simp [ucontext_t.words])
  have e9 := ucontext_t.ld32_store h m 40 h.arm_r7 (by simp [ucontext_t.words])
  have e10 := ucontext_t.ld32_store h m 44 h.arm_r8 (by simp [ucontext_t.words])
  have e11 := ucontext_t.ld32_store h m 48 h.arm_r9 (by simp [ucontext_t.words])
  have e12 := ucontext_t.ld32_store h m 52 h.arm_r10 (by simp [ucontext_t.words])
  have e13 := ucontext_t.ld32_store h m 56 h.arm_fp (by simp [ucontext_t.words])
  have e14 := ucontext_t.ld32_store h m 60 h.arm_ip (by simp [ucontext_t.words])
  have e15 := ucontext_t.ld32_store h m 64 h.arm_sp (by simp [ucontext_t.words])
  have e16 := ucontext_t.ld32_store h m 68 h.arm_lr (by simp [ucontext_t.words])
  have e17 := ucontext_t.ld32_store h m 72 h.arm_pc (by simp [ucontext_t.words])
  have e18 := ucontext_t.ld32_store h m 76 h.arm_cpsr (by simp [ucontext_t.words])
  rw [Nat.add_zero] at e0
  unfold ucontext_t.mcontext at e0 e1 e2 e3 e4 e5 e6 e7 e8 e9 e10 e11 e12 e13 e14 e15 e16 e17 e18
  unfold ucontext_t.load
  simp only [e0, e1, e2, e3, e4, e5, e6, e7, e8, e9, e10, e11, e12, e13, e14, e15, e16, e17,
    e18, Nat.mod_eq_of_lt w0, Nat.mod_eq_of_lt w1, Nat.mod_eq_of_lt w2, Nat.mod_eq_of_lt w3,
    Nat.mod_eq_of_lt w4, Nat.mod_eq_of_lt w5, Nat.mod_eq_of_lt w6, Nat.mod_eq_of_lt w7,
    Nat.mod_eq_of_lt w8, Nat.mod_eq_of_lt w9, Nat.mod_eq_of_lt w10, Nat.mod_eq_of_lt w11,
    Nat.mod_eq_of_lt w12, Nat.mod_eq_of_lt w13, Nat.mod_eq_of_lt w14, Nat.mod_eq_of_lt w15,
    Nat.mod_eq_of_lt w16, Nat.mod_eq_of_lt w17, Nat.mod_eq_of_lt w18]

theorem ucontext_t.load_congr (regspace : Nat) (m1 m2 : Mem)
    (h : ∀ j, j < UC_MCONTEXT_WORDS_SIZE →
      ld8 m1 ((regspace + 2 ^ 32 - UC_MCONTEXT_TO_REGSPACE) % 2 ^ 32 + j)
        = ld8 m2 ((regspace + 2 ^ 32 - UC_MCONTEXT_TO_REGSPACE) % 2 ^ 32 + j)) :
    ucontext_t.load regspace m1 = ucontext_t.load regspace m2 := by
  unfold UC_MCONTEXT_WORDS_SIZE at h
  have hw : ∀ off, off + 4 ≤ 80 →
      ld32 m1 ((regspace + 2 ^ 32 - UC_MCONTEXT_TO_REGSPACE) % 2 ^ 32 + off)
        = ld32 m2 ((regspace + 2 ^ 32 - UC_MCONTEXT_TO_REGSPACE) % 2 ^ 32 + off) := by
    intro off hoff
    apply ldN_congr
    intro k hk
    rw [Nat.add_assoc]
    exact h (off + k) (by omega)
  have h0 := hw 0 (by omega)
  rw [Nat.add_zero] at h0
  unfold ucontext_t.load
  simp only [h0, hw 4 (by omega), hw 12 (by omega), hw 16 (by omega), hw 20 (by omega),
    hw 24 (by omega), hw 28 (by omega), hw 32 (by omega), hw 36 (by omega), hw 40 (by omega),
    hw 44 (by omega), hw 48 (by omega), hw 52 (by omega), hw 56 (by omega), hw 60 (by omega),
    hw 64 (by omega), hw 68 (by omega), hw 72 (by omega), hw 76 (by omega)]

theorem ucontext_t.apart_regspace (h h1 : ucontext_t) (a n : Nat)
    (hr : h1.uc_regspace = h.uc_regspace) (ha : h.apart a n) : h1.apart a n := by
  unfold ucontext_t.apart ucontext_t.mcontext at *
  rw [hr]
  exact ha

theorem ucontext_t.apart_mono (h : ucontext_t) (a n b k : Nat) (ha : h.apart a n)
    (h1 : a ≤ b) (h2 : b + k ≤ a + n) : h.apart b k := by
  intro i hi j hj
  have := ha (b - a + i) (by omega) j hj
  rw [show a + (b - a + i) = b + i by omega] at this
  exact this

/-- The bytes of `uc_regspace` do not overlap the words of `uc_mcontext`. -/
theorem ucontext_t.apart_uc_regspace (h : ucontext_t) (k : Nat) (hk : k < UC_REGSPACE_SIZE) :
    h.apart (h.uc_regspace + k) 1 := by
  intro i hi j hj
  unfold ucontext_t.mcontext UC_MCONTEXT_TO_REGSPACE
  unfold UC_MCONTEXT_WORDS_SIZE at hj
  unfold UC_REGSPACE_SIZE at hk
  omega

theorem get_extended_sigcontext_store (fuel : Nat) (m : Mem) (h h1 : ucontext_t) (magic : Nat)
    (frame : Nat) (hr : h1.uc_regspace = h.uc_regspace)
    (hscan : get_extended_sigcontext fuel m h magic = some frame)
    (hclear : ∀ r ∈ get_extended_sigcontext_reads fuel m h magic, h.apart r 4) :
    get_extended_sigcontext fuel (h1.store m) h1 magic = some frame ∧
    get_extended_sigcontext_reads fuel (h1.store m) h1 magic
      = get_extended_sigcontext_reads fuel m h magic := by
  unfold get_extended_sigcontext get_extended_sigcontext_reads at *
  rw [hr]
  cases hl : get_extended_sigcontext_loop m (h.uc_regspace + UC_REGSPACE_SIZE) magic fuel
      h.uc_regspace with
  | none => rw [hl] at hscan; cases hscan
  | some p =>
    obtain ⟨r0, t0⟩ := p
    rw [hl] at hscan hclear
    simp only [Option.map_some', Option.getD_some] at hscan hclear
    have hl1 := get_extended_sigcontext_loop_congr m (h1.store m) _ _ _ _ r0 t0 hl
      (fun r hr0 => by
        apply ldN_congr
        intro k hk
        apply ucontext_t.store_apart
        exact ucontext_t.apart_regspace h h1 _ _ hr
          (ucontext_t.apart_mono h r 4 (r + k) 1 (hclear r hr0) (by omega) (by omega)))
    rw [hl1]
    exact ⟨hscan, rfl⟩

theorem restore_fpu_eq (fuel : Nat) (c : CONTEXT) (s : ucontext_t) (m : Mem) (frame : Nat)
    (hscan : get_extended_sigcontext fuel m s VFP_MAGIC = some frame) :
    restore_fpu fuel c s m = some (if frame = 0 then m
      else st32 (memcpy_from_D m (frame + VFP_FPREGS) c.D) (frame + VFP_FPSCR) c.Fpscr) := by
  unfold restore_fpu
  rw [hscan]
  simp only
  split <;> rfl

/-- The record that `restore_fpu` writes leaves the words of `uc_mcontext` alone when
its payload does not overlap them. -/
theorem ucontext_t.load_restore_fpu (h : ucontext_t) (m : Mem) (frame : Nat) (c : CONTEXT)
    (hpay : frame ≠ 0 → h.apart (frame + VFP_FPREGS) 260) :
    ucontext_t.load h.uc_regspace (if frame = 0 then m
      else st32 (memcpy_from_D m (frame + VFP_FPREGS) c.D) (frame + VFP_FPSCR) c.Fpscr)
      = ucontext_t.load h.uc_regspace m := by
  by_cases hf : frame = 0
  · rw [if_pos hf]
  · rw [if_neg hf]
    apply ucontext_t.load_congr
    intro j hj
    apply restore_fpu_mem_other
    intro i hi
    have := hpay hf i hi j hj
    unfold ucontext_t.mcontext at this
    exact fun e => this e.symm

theorem save_context_eq (fuel : Nat) (c0 : CONTEXT) (h : ucontext_t) (m : Mem) (frame : Nat)
    (hscan : get_extended_sigcontext fuel m h VFP_MAGIC = some frame) :
    save_context fuel c0 h m = some (if frame = 0 then save_context_regs c0 h
      else { save_context_regs c0 h with
        D := fun i => ld64 m (frame + VFP_FPREGS + 8 * i.val)
        Fpscr := ld32 m (frame + VFP_FPSCR) }) := by
  unfold save_context save_fpu
  rw [hscan]
  simp only
  split <;> rfl

/-- What `restore_context` returns when the headers that the scan reads and the
payload of the record it finds do not overlap the words of `uc_mcontext`: the
registers of the context, in a memory that holds them and the written record. -/
theorem restore_context_eq (fuel : Nat) (c : CONTEXT) (h : ucontext_t) (m : Mem)
    (hwf1 : (restore_context_regs c h).WellFormed) (frame : Nat)
    (hscan : get_extended_sigcontext fuel m h VFP_MAGIC = some frame)
    (hclear : ∀ r ∈ get_extended_sigcontext_reads fuel m h VFP_MAGIC, h.apart r 4)
    (hpay : frame ≠ 0 → h.apart (frame + VFP_FPREGS) 260) :
    restore_context fuel c h m = some (restore_context_regs c h,
      if frame = 0 then (restore_context_regs c h).store m
        else st32 (memcpy_from_D ((restore_context_regs c h).store m) (frame + VFP_FPREGS) c.D)
          (frame + VFP_FPSCR) c.Fpscr) := by
  have hrs := restore_context_regs_regspace c h
  obtain ⟨hscan1, _⟩ := get_extended_sigcontext_store fuel m h (restore_context_regs c h)
    VFP_MAGIC frame hrs hscan hclear
  have hrest := restore_fpu_eq fuel c (restore_context_regs c h)
    ((restore_context_regs c h).store m) frame hscan1
  have hload : ucontext_t.load (restore_context_regs c h).uc_regspace
      (if frame = 0 then (restore_context_regs c h).store m
        else st32 (memcpy_from_D ((restore_context_regs c h).store m) (frame + VFP_FPREGS) c.D)
          (frame + VFP_FPSCR) c.Fpscr) = restore_context_regs c h := by
    rw [ucontext_t.load_restore_fpu _ _ _ _
      (fun hf => ucontext_t.apart_regspace h _ _ _ hrs (hpay hf))]
    exact ucontext_t.load_store _ m hwf1
  unfold restore_context
  simp only [hrest, hload]

/-! ## C1: write-back followed by capture -/

theorem restore_save_context_regs_wf (c0 : CONTEXT) (h : ucontext_t) (hh : h.WellFormed) :
    (restore_context_regs (save_context_regs c0 h) h).WellFormed := by
  rw [restore_save_context_regs]
  obtain ⟨w0, w1, w2, w3, w4, w5, w6, w7, w8, w9, w10, w11, w12, w13, w14, w15, w16, w17,
    w18⟩ := hh
  have hpc : h.arm_pc ||| 1 < 2 ^ 32 := Nat.or_lt_two_pow w17 (by decide)
  have hor : h.arm_cpsr ||| 0x20 < 2 ^ 32 := Nat.or_lt_two_pow w18 (by decide)
  have hand : h.arm_cpsr &&& 0xffffffdf < 2 ^ 32 := lt_of_le_of_lt Nat.and_le_left w18
  refine ⟨w0, w1, w2, w3, w4, w5, w6, w7, w8, w9, w10, w11, w12, w13, w14, w15, w16, ?_, ?_⟩
  · show (if h.arm_cpsr &&& 0x20 ≠ 0 then h.arm_pc ||| 1 else h.arm_pc) < 2 ^ 32
    split <;> assumption
  · show (if (if h.arm_cpsr &&& 0x20 ≠ 0 then h.arm_pc ||| 1 else h.arm_pc) &&& 1 ≠ 0
      then h.arm_cpsr ||| 0x20 else h.arm_cpsr &&& 0xffffffdf) < 2 ^ 32
    by_cases hc : (if h.arm_cpsr &&& 0x20 ≠ 0 then h.arm_pc ||| 1 else h.arm_pc) &&& 1 ≠ 0
    · rw [if_pos hc]; exact hor
    · rw [if_neg hc]; exact hand

/-- Capture followed by write-back of the captured context. -/
theorem restore_context_of_save_context (fuel : Nat) (c0 : CONTEXT) (h : ucontext_t) (m : Mem)
    (hh : h.WellFormed) (frame : Nat)
    (hscan : get_extended_sigcontext fuel m h VFP_MAGIC = some frame)
    (hclear : ∀ r ∈ get_extended_sigcontext_reads fuel m h VFP_MAGIC, h.apart r 4)
    (hpay : frame ≠ 0 → h.apart (frame + VFP_FPREGS) 260) :
    ∃ c m1, save_context fuel c0 h m = some c ∧
      restore_context fuel c h m = some (restore_context_regs (save_context_regs c0 h) h, m1) ∧
      ∀ b, ld8 m1 b = ld8 ((restore_context_regs (save_context_regs c0 h) h).store m) b := by
  have hsave := save_context_eq fuel c0 h m frame hscan
  have hwfR := restore_save_context_regs_wf c0 h hh
  by_cases hf : frame = 0
  · rw [if_pos hf] at hsave
    have hrc := restore_context_eq fuel (save_context_regs c0 h) h m hwfR frame hscan hclear hpay
    rw [if_pos hf] at hrc
    exact ⟨_, _, hsave, hrc, fun _ => rfl⟩
  · rw [if_neg hf] at hsave
    have hregs : restore_context_regs { save_context_regs c0 h with
        D := fun i => ld64 m (frame + VFP_FPREGS + 8 * i.val)
        Fpscr := ld32 m (frame + VFP_FPSCR) } h
        = restore_context_regs (save_context_regs c0 h) h :=
      restore_context_regs_congr _ (save_context_regs c0 h) h (by simp)
    have hrc := restore_context_eq fuel { save_context_regs c0 h with
        D := fun i => ld64 m (frame + VFP_FPREGS + 8 * i.val)
        Fpscr := ld32 m (frame + VFP_FPSCR) } h m (by rw [hregs]; exact hwfR) frame hscan
      hclear hpay
    rw [if_neg hf, hregs] at hrc
    refine ⟨_, _, hsave, hrc, ?_⟩
    have hap := ucontext_t.apart_regspace h
      (restore_context_regs (save_context_regs c0 h) h) _ _
      (restore_context_regs_regspace _ h) (hpay hf)
    have hD : (fun i : Fin 32 => ld64 m (frame + VFP_FPREGS + 8 * i.val))
        = fun i : Fin 32 => ld64 ((restore_context_regs (save_context_regs c0 h) h).store m)
            (frame + VFP_FPREGS + 8 * i.val) := by
      funext i
      symm
      apply ldN_congr
      intro k hk
      apply ucontext_t.store_apart
      have := i.isLt
      exact ucontext_t.apart_mono _ _ _ _ 1 hap (by omega) (by omega)
    have hF : ld32 m (frame + VFP_FPSCR)
        = ld32 ((restore_context_regs (save_context_regs c0 h) h).store m)
            (frame + VFP_FPSCR) := by
      symm
      apply ldN_congr
      intro k hk
      apply ucontext_t.store_apart
      unfold VFP_FPSCR
      unfold VFP_FPREGS at hap
      exact ucontext_t.apart_mono _ _ _ _ 1 hap (by omega) (by omega)
    intro b
    show ld8 (st32 (memcpy_from_D _ (frame + VFP_FPREGS)
      (fun i : Fin 32 => ld64 m (frame + VFP_FPREGS + 8 * i.val))) (frame + VFP_FPSCR)
      (ld32 m (frame + VFP_FPSCR))) b = _
    rw [hD, hF]
    exact restore_fpu_of_save_fpu_mem _ frame b

/-- C2 (as amended): let the host context be well formed, let the chain scan
terminate reading only headers that do not overlap the words of `uc_mcontext`, and
let the payload of the VFP record, if there is one, not overlap them either.  When
the debugger reports `DBG_CONTINUE` or `DBG_EXCEPTION_HANDLED` and leaves the
captured context alone, `setup_exception` returns without building a transfer
block, with every host register other than pc and cpsr as on entry; pc has its low
bit set when bit 0x20 of cpsr was set, and bit 0x20 of cpsr is re-derived from that
pc; every byte of memory is as on entry, apart from the words of these registers
(the extension block included); when the low bit of pc already agrees with bit 0x20
of cpsr the whole host context and memory are unchanged. -/
theorem setup_exception_handled (env : Env) (fuel : Nat) (context0 : CONTEXT) (h : ucontext_t)
    (record : EXCEPTION_RECORD) (m : Mem) (frame status : Nat)
    (hh : h.WellFormed)
    (hscan : get_extended_sigcontext fuel m h VFP_MAGIC = some frame)
    (hclear : ∀ r ∈ get_extended_sigcontext_reads fuel m h VFP_MAGIC, h.apart r 4)
    (hpay : frame ≠ 0 → h.apart (frame + VFP_FPREGS) 260)
    (hdbg : ∀ c, save_context fuel context0 h m = some c →
      env.send_debug_event { record with ExceptionAddress := h.arm_pc } c = (status, c))
    (hst : status = DBG_CONTINUE ∨ status = DBG_EXCEPTION_HANDLED) :
    ∃ r, setup_exception env fuel context0 h record m = some r ∧
      r.stack = none ∧
      r.sigcontext = { h with
        arm_pc := if h.arm_cpsr &&& 0x20 ≠ 0 then h.arm_pc ||| 1 else h.arm_pc
        arm_cpsr :=
          if (if h.arm_cpsr &&& 0x20 ≠ 0 then h.arm_pc ||| 1 else h.arm_pc) &&& 1 ≠ 0
          then h.arm_cpsr ||| 0x20 else h.arm_cpsr &&& 0xffffffdf } ∧
      (∀ b, ld8 r.mem b = ld8 (r.sigcontext.store m) b) ∧
      (∀ b, h.apart b 1 → ld8 r.mem b = ld8 m b) ∧
      ((h.arm_cpsr &&& 0x20 ≠ 0 ↔ h.arm_pc &&& 1 ≠ 0) →
        r.sigcontext = h ∧ ∀ b, ld8 r.mem b = ld8 (h.store m) b) := by
  obtain ⟨c, m1, hsave, hrest, hmem⟩ :=
    restore_context_of_save_context fuel context0 h m hh frame hscan hclear hpay
  have hres : setup_exception env fuel context0 h record m
      = some { sigcontext := restore_context_regs (save_context_regs context0 h) h, mem := m1,
               record := { record with ExceptionAddress := h.arm_pc }, stack := none } := by
    unfold setup_exception
    simp only [hsave, hdbg c hsave, if_pos hst, hrest]
  refine ⟨_, hres, rfl, restore_save_context_regs context0 h, hmem, ?_, ?_⟩
  · intro b hb
    rw [hmem b]
    exact ucontext_t.store_apart _ m b (ucontext_t.apart_regspace h _ _ _
      (restore_context_regs_regspace _ h) hb)
  intro ht
  have hsame := restore_save_context_regs_agree context0 h hh.2.2.2.2.2.2.2.2.2.2.2.2.2.2.2.2.2.2 ht
  refine ⟨hsame, ?_⟩
  intro b
  have := hmem b
  rw [hsame] at this
  exact this

/-- Witness for C2: a host context in ARM state (even pc, bit 0x20 clear) whose fault
the debugger handles is returned unchanged. -/
theorem setup_exception_handled_witness :
    ∃ r, setup_exception Env.handled 1 CONTEXT.zero (ucontext_t.zero 0x1000)
        EXCEPTION_RECORD.zero mem_vfp_at_1000 = some r ∧
      r.stack = none ∧ r.sigcontext = ucontext_t.zero 0x1000 := by
  have hreads : get_extended_sigcontext_reads 1 mem_vfp_at_1000 (ucontext_t.zero 0x1000)
      VFP_MAGIC = [0x1000, 0x1004] := by decide
  have hmc : (ucontext_t.zero 0x1000).mcontext = 0xf2c := by decide
  obtain ⟨r, hr, hstack, _, _, _, hsame⟩ :=
    setup_exception_handled Env.handled 1 CONTEXT.zero (ucontext_t.zero 0x1000)
      EXCEPTION_RECORD.zero mem_vfp_at_1000 0x1000 DBG_CONTINUE
      (by unfold ucontext_t.WellFormed; decide) (by decide)
      (by
        intro r hr i hi j hj
        rw [hreads] at hr
        simp only [List.mem_cons, List.mem_singleton, List.not_mem_nil, or_false] at hr
        unfold UC_MCONTEXT_WORDS_SIZE at hj
        rw [hmc]
        omega)
      (by
        intro _ i hi j hj
        unfold UC_MCONTEXT_WORDS_SIZE at hj
        rw [hmc]
        unfold VFP_FPREGS
        omega)
      (fun _ _ => rfl) (Or.inl rfl)
  exact ⟨r, hr, hstack, (hsame (by decide)).1⟩

/-- Counterexample to C2 as stated: for a fault in Thumb code (bit 0x20 of cpsr set,
pc `0x8000`) that the debugger handles without touching the context,
`setup_exception` returns with the host pc changed to `0x8001`. -/
theorem setup_exception_handled_counterexample :
    ∃ r, setup_exception Env.handled 1 CONTEXT.zero uc_thumb EXCEPTION_RECORD.zero
        (fun _ => 0) = some r ∧
      r.stack = none ∧ uc_thumb.arm_pc = 0x8000 ∧ r.sigcontext.arm_pc = 0x8001 ∧
      r.sigcontext ≠ uc_thumb := by
  have hreads : get_extended_sigcontext_reads 1 (fun _ => 0) uc_thumb VFP_MAGIC = [0x1000] := by
    decide
  have hmc : uc_thumb.mcontext = 0xf2c := by decide
  obtain ⟨c, m1, hsave, hrest, _⟩ :=
    restore_context_of_save_context 1 CONTEXT.zero uc_thumb (fun _ => 0)
      (by unfold ucontext_t.WellFormed; decide) 0 (by decide)
      (by
        intro r hr i hi j hj
        rw [hreads] at hr
        simp only [List.mem_singleton] at hr
        unfold UC_MCONTEXT_WORDS_SIZE at hj
        rw [hmc]
        omega)
      (fun hf => absurd rfl hf)
  have hres : setup_exception Env.handled 1 CONTEXT.zero uc_thumb EXCEPTION_RECORD.zero
      (fun _ => 0)
      = some { sigcontext := restore_context_regs (save_context_regs CONTEXT.zero uc_thumb)
                 uc_thumb,
               mem := m1,
               record := { EXCEPTION_RECORD.zero with ExceptionAddress := uc_thumb.arm_pc },
               stack := none } := by
    unfold setup_exception
    simp only [hsave, Env.handled, DBG_CONTINUE, true_or, if_true, hrest]
  have hpc : (restore_context_regs (save_context_regs CONTEXT.zero uc_thumb) uc_thumb).arm_pc
      = 0x8001 := by decide
  have hne : restore_context_regs (save_context_regs CONTEXT.zero uc_thumb) uc_thumb
      ≠ uc_thumb := by decide
  exact ⟨_, hres, rfl, rfl, hpc, hne⟩

/-! ## C12: the chain without and with a VFP record -/

theorem spec_chain_congr (m m1 : Mem) (stop magic : Nat) (ps : List Nat) (ctx last : Nat)
    (hm : ∀ p ∈ ps, ld32 m1 p = ld32 m p ∧ ld32 m1 (p + 4) = ld32 m (p + 4))
    (h : spec_chain m stop magic ps ctx last) : spec_chain m1 stop magic ps ctx last := by
  induction ps generalizing ctx with
  | nil => exact h
  | cons p ps ih =>
    obtain ⟨hp, hlt, hmag, hsize, hne, hrest⟩ := h
    obtain ⟨e1, e2⟩ := hm p (List.mem_cons_self _ _)
    rw [hp] at e1 e2
    refine ⟨hp, hlt, by rw [e1]; exact hmag, by rw [e2]; exact hsize, by rw [e1]; exact hne, ?_⟩
    rw [e2]
    exact ih _ (fun q hq => hm q (List.mem_cons_of_mem _ hq)) hrest

/-- A chain that ends without a record of `magic` makes the scan return `NULL`. -/
theorem spec_chain_end_scan (m : Mem) (stop magic : Nat) (ps : List Nat) (ctx last fuel : Nat)
    (h : spec_chain m stop magic ps ctx last) (hend : spec_chain_end m stop last)
    (hfuel : ps.length < fuel) :
    ∃ reads, get_extended_sigcontext_loop m stop magic fuel ctx = some (0, reads) := by
  induction ps generalizing ctx fuel with
  | nil =>
    have hl : last = ctx := h
    subst hl
    cases fuel with
    | zero => simp at hfuel
    | succ fuel =>
      unfold get_extended_sigcontext_loop
      by_cases h1 : ¬ last < stop
      · rw [if_pos h1]; exact ⟨_, rfl⟩
      · rw [if_neg h1]
        by_cases h2 : ld32 m last = 0
        · rw [if_pos h2]; exact ⟨_, rfl⟩
        · rw [if_neg h2]
          rcases hend with h3 | h3 | h3
          · exact absurd h3 h1
          · exact absurd h3 h2
          · rw [if_pos h3]; exact ⟨_, rfl⟩
  | cons p ps ih =>
    obtain ⟨_, hlt, hmag, hsize, hne, hrest⟩ := h
    cases fuel with
    | zero => simp at hfuel
    | succ fuel =>
      obtain ⟨reads, hr⟩ := ih _ fuel hrest (by simpa using hfuel)
      unfold get_extended_sigcontext_loop
      rw [if_neg (not_not.2 hlt), if_neg hmag, if_neg hsize, if_neg hne, hr]
      exact ⟨_, rfl⟩

/-- A chain that leads to a record of `magic` makes the scan return that record. -/
theorem spec_chain_record_scan (m : Mem) (stop magic : Nat) (ps : List Nat)
    (ctx last fuel : Nat)
    (h : spec_chain m stop magic ps ctx last) (hrec : spec_chain_record m stop magic last)
    (hfuel : ps.length < fuel) :
    ∃ reads, get_extended_sigcontext_loop m stop magic fuel ctx = some (last, reads) := by
  induction ps generalizing ctx fuel with
  | nil =>
    have hl : last = ctx := h
    subst hl
    obtain ⟨hlt, hmag, hnz, hsize⟩ := hrec
    cases fuel with
    | zero => simp at hfuel
    | succ fuel =>
      unfold get_extended_sigcontext_loop
      rw [if_neg (not_not.2 hlt), if_neg hnz, if_neg hsize, if_pos hmag]
      exact ⟨_, rfl⟩
  | cons p ps ih =>
    obtain ⟨_, hlt, hmag, hsize, hne, hrest⟩ := h
    cases fuel with
    | zero => simp at hfuel
    | succ fuel =>
      obtain ⟨reads, hr⟩ := ih _ fuel hrest (by simpa using hfuel)
      unfold get_extended_sigcontext_loop
      rw [if_neg (not_not.2 hlt), if_neg hmag, if_neg hsize, if_neg hne, hr]
      exact ⟨_, rfl⟩

theorem get_extended_sigcontext_of_loop (fuel : Nat) (m : Mem) (h : ucontext_t) (magic : Nat)
    (res : Nat) (reads : List Nat)
    (hl : get_extended_sigcontext_loop m (h.uc_regspace + UC_REGSPACE_SIZE) magic fuel
      h.uc_regspace = some (res, reads)) :
    get_extended_sigcontext fuel m h magic = some res := by
  unfold get_extended_sigcontext
  rw [hl]
  rfl

/-- The headers of a chain whose records do not overlap the words of `uc_mcontext`
are the same in the memory that holds the host context. -/
theorem ucontext_t.ld32_header_store (h h1 : ucontext_t) (m : Mem) (p : Nat)
    (hr : h1.uc_regspace = h.uc_regspace) (hp : h.apart p 8) :
    ld32 (h1.store m) p = ld32 m p ∧ ld32 (h1.store m) (p + 4) = ld32 m (p + 4) := by
  have hp1 := ucontext_t.apart_regspace h h1 _ _ hr hp
  constructor
  · apply ldN_congr
    intro k hk
    exact ucontext_t.store_apart h1 m _ (ucontext_t.apart_mono _ _ _ _ 1 hp1 (by omega) (by omega))
  · apply ldN_congr
    intro k hk
    exact ucontext_t.store_apart h1 m _ (ucontext_t.apart_mono _ _ _ _ 1 hp1 (by omega) (by omega))

theorem spec_chain_single (m : Mem) (stop magic p last : Nat) :
    spec_chain m stop magic [p] p last ↔
      (p < stop ∧ ld32 m p ≠ 0 ∧ ld32 m (p + 4) ≠ 0 ∧ ld32 m p ≠ magic ∧
        last = (p + ld32 m (p + 4)) % 2 ^ 32) := by
  constructor
  · rintro ⟨_, a, b, c, d, e⟩
    exact ⟨a, b, c, d, e⟩
  · rintro ⟨a, b, c, d, e⟩
    exact ⟨rfl, a, b, c, d, e⟩

/-- C12 (as amended): let the `{magic, size}` chain in `uc_regspace` consist of the
records `ps` followed by the address `last`, none of whose headers overlaps the words
of `uc_mcontext`.  If the chain ends at `last` (end of the ucontext, zero magic or
zero size) without a record of magic `0x56465001`, `save_context` leaves `D[0..31]`
and `Fpscr` of the context as they were and `restore_context` changes no byte outside
the words of `uc_mcontext`, in particular no byte of `uc_regspace`.  If there is a
record of that magic at `last`, `save_context` copies its 32 doublewords and its
`fpscr` into the context, and `restore_context` writes those of the context into
that record and changes no other byte outside the words of `uc_mcontext`. -/
theorem absent_extension_block_noop (fuel : Nat) (c c0 : CONTEXT) (h : ucontext_t) (m : Mem)
    (ps : List Nat) (last : Nat)
    (hchain : spec_chain m (h.uc_regspace + UC_REGSPACE_SIZE) VFP_MAGIC ps h.uc_regspace last)
    (hfuel : ps.length < fuel)
    (hclear : ∀ p ∈ ps, h.apart p 8) (hlast : h.apart last 8) :
    (spec_chain_end m (h.uc_regspace + UC_REGSPACE_SIZE) last →
      (∃ c1, save_context fuel c0 h m = some c1 ∧ c1.D = c0.D ∧ c1.Fpscr = c0.Fpscr) ∧
      (∃ h1 m1, restore_context fuel c h m = some (h1, m1) ∧
        (∀ b, h.apart b 1 → ld8 m1 b = ld8 m b) ∧
        ∀ k, k < UC_REGSPACE_SIZE → ld8 m1 (h.uc_regspace + k) = ld8 m (h.uc_regspace + k))) ∧
    (spec_chain_record m (h.uc_regspace + UC_REGSPACE_SIZE) VFP_MAGIC last → last ≠ 0 →
      (∃ c1, save_context fuel c0 h m = some c1 ∧
        (∀ i : Fin 32, c1.D i = ld64 m (last + VFP_FPREGS + 8 * i.val)) ∧
        c1.Fpscr = ld32 m (last + VFP_FPSCR)) ∧
      (∃ h1 m1, restore_context fuel c h m = some (h1, m1) ∧
        (∀ i : Fin 32, ld64 m1 (last + VFP_FPREGS + 8 * i.val) = c.D i % 2 ^ 64) ∧
        ld32 m1 (last + VFP_FPSCR) = c.Fpscr % 2 ^ 32 ∧
        ∀ b, h.apart b 1 →
          (∀ j, j < 260 → b % 2 ^ 32 ≠ (last + VFP_FPREGS + j) % 2 ^ 32) →
          ld8 m1 b = ld8 m b)) := by
  have hrs := restore_context_regs_regspace c h
  have hstore : ∀ b, h.apart b 1 → ld8 ((restore_context_regs c h).store m) b = ld8 m b :=
    fun b hb => ucontext_t.store_apart _ m b (ucontext_t.apart_regspace h _ _ _ hrs hb)
  have hchain1 : spec_chain ((restore_context_regs c h).store m)
      ((restore_context_regs c h).uc_regspace + UC_REGSPACE_SIZE) VFP_MAGIC ps
      (restore_context_regs c h).uc_regspace last := by
    rw [hrs]
    exact spec_chain_congr m _ _ _ ps _ last
      (fun p hp => ucontext_t.ld32_header_store h _ m p hrs (hclear p hp)) hchain
  obtain ⟨el1, el2⟩ := ucontext_t.ld32_header_store h (restore_context_regs c h) m last hrs hlast
  obtain ⟨hD, hF, _⟩ := save_context_regs_fp c0 h
  constructor
  · intro hend
    obtain ⟨reads, hl⟩ := spec_chain_end_scan m _ VFP_MAGIC ps _ last fuel hchain hend hfuel
    have hscan := get_extended_sigcontext_of_loop fuel m h VFP_MAGIC 0 reads hl
    have hend1 : spec_chain_end ((restore_context_regs c h).store m)
        ((restore_context_regs c h).uc_regspace + UC_REGSPACE_SIZE) last := by
      unfold spec_chain_end at hend ⊢
      rw [hrs, el1, el2]
      exact hend
    obtain ⟨reads1, hl1⟩ := spec_chain_end_scan _ _ VFP_MAGIC ps _ last fuel hchain1 hend1 hfuel
    have hscan1 := get_extended_sigcontext_of_loop fuel _ _ VFP_MAGIC 0 reads1 hl1
    have hrest := restore_fpu_eq fuel c _ _ 0 hscan1
    rw [if_pos rfl] at hrest
    have hsave := save_context_eq fuel c0 h m 0 hscan
    rw [if_pos rfl] at hsave
    have hrc : restore_context fuel c h m
        = some (ucontext_t.load (restore_context_regs c h).uc_regspace
            ((restore_context_regs c h).store m), (restore_context_regs c h).store m) := by
      unfold restore_context
      simp only [hrest]
    exact ⟨⟨_, hsave, hD, hF⟩, _, _, hrc, hstore,
      fun k hk => hstore _ (ucontext_t.apart_uc_regspace h k hk)⟩
  · intro hrec hnz
    obtain ⟨reads, hl⟩ := spec_chain_record_scan m _ VFP_MAGIC ps _ last fuel hchain hrec hfuel
    have hscan := get_extended_sigcontext_of_loop fuel m h VFP_MAGIC last reads hl
    have hrec1 : spec_chain_record ((restore_context_regs c h).store m)
        ((restore_context_regs c h).uc_regspace + UC_REGSPACE_SIZE) VFP_MAGIC last := by
      unfold spec_chain_record at hrec ⊢
      rw [hrs, el1, el2]
      exact hrec
    obtain ⟨reads1, hl1⟩ :=
      spec_chain_record_scan _ _ VFP_MAGIC ps _ last fuel hchain1 hrec1 hfuel
    have hscan1 := get_extended_sigcontext_of_loop fuel _ _ VFP_MAGIC last reads1 hl1
    have hrest := restore_fpu_eq fuel c _ _ last hscan1
    rw [if_neg hnz] at hrest
    have hsave := save_context_eq fuel c0 h m last hscan
    rw [if_neg hnz] at hsave
    have hrc : restore_context fuel c h m
        = some (ucontext_t.load (restore_context_regs c h).uc_regspace
            (st32 (memcpy_from_D ((restore_context_regs c h).store m) (last + VFP_FPREGS) c.D)
              (last + VFP_FPSCR) c.Fpscr),
          st32 (memcpy_from_D ((restore_context_regs c h).store m) (last + VFP_FPREGS) c.D)
            (last + VFP_FPSCR) c.Fpscr) := by
      unfold restore_context
      simp only [hrest]
    refine ⟨⟨_, hsave, fun _ => rfl, rfl⟩, _, _, hrc, ?_, ?_, ?_⟩
    · exact fun i => restore_fpu_mem_D _ last c i
    · exact restore_fpu_mem_Fpscr _ last c
    · intro b hb hout
      rw [restore_fpu_mem_other _ last c b hout]
      exact hstore b hb

/-- Witness for C12: in the sample chain a record of magic 1 is followed by the VFP
record at `0x1008`; `save_context` takes `D[0] = 0xaa` and `Fpscr = 3` from it and
`restore_context` writes `D[0] = 1` and `Fpscr = 7` of the sample context into it.
On an all-zero `uc_regspace` nothing is copied. -/
theorem absent_extension_block_noop_witness :
    (∃ c1, save_context 2 CONTEXT.zero (ucontext_t.zero 0x1000) mem_vfp_second = some c1 ∧
      c1.D 0 = 0xaa ∧ c1.Fpscr = 3) ∧
    (∃ h1 m1, restore_context 2 ctx_thumb (ucontext_t.zero 0x1000) mem_vfp_second
        = some (h1, m1) ∧
      ld64 m1 0x1010 = 1 ∧ ld32 m1 0x1110 = 7 ∧ ld8 m1 0x1008 = 0x01) ∧
    (∃ c1, save_context 2 ctx_thumb (ucontext_t.zero 0x1000) (fun _ => 0) = some c1 ∧
      c1.D = ctx_thumb.D ∧ c1.Fpscr = ctx_thumb.Fpscr) := by
  have hmc : (ucontext_t.zero 0x1000).mcontext = 0xf2c := by decide
  have hfound := (absent_extension_block_noop 2 ctx_thumb CONTEXT.zero (ucontext_t.zero 0x1000)
    mem_vfp_second [0x1000] 0x1008
    (by
      show spec_chain mem_vfp_second 0x1200 VFP_MAGIC [0x1000] 0x1000 0x1008
      rw [spec_chain_single]
      decide)
    (by decide)
    (by
      intro p hp i hi j hj
      simp only [List.mem_singleton] at hp
      unfold UC_MCONTEXT_WORDS_SIZE at hj
      rw [hmc]
      omega)
    (by
      intro i hi j hj
      unfold UC_MCONTEXT_WORDS_SIZE at hj
      rw [hmc]
      omega)).2 (by unfold spec_chain_record; decide) (by decide)
  have habsent := (absent_extension_block_noop 2 ctx_thumb ctx_thumb (ucontext_t.zero 0x1000)
    (fun _ => 0) [] 0x1000 rfl (by decide)
    (by intro p hp; cases hp)
    (by
      intro i hi j hj
      unfold UC_MCONTEXT_WORDS_SIZE at hj
      rw [hmc]
      omega)).1 (by unfold spec_chain_end; decide)
  obtain ⟨⟨c1, hs, hD, hF⟩, h1, m1, hr, hmD, hmF, hother⟩ := hfound
  refine ⟨⟨c1, hs, ?_, ?_⟩, ⟨h1, m1, hr, ?_, ?_, ?_⟩, habsent.1⟩
  · rw [hD 0]; decide
  · rw [hF]; decide
  · exact hmD 0
  · exact hmF
  · rw [hother 0x1008
      (by
        intro i hi j hj
        unfold UC_MCONTEXT_WORDS_SIZE at hj
        rw [hmc]
        omega)
      (by
        intro j hj
        unfold VFP_FPREGS
        omega)]
    decide

/-- Counterexample to C12 as stated: the chain of the sample host context holds one
record of magic 1 whose size `0xffffff38` wraps the pointer to `0xf38`, the address
of `arm_r0`, where the scan stops at a zero magic: there is no VFP record.  When
`restore_context` writes a context with `R0 = 0x56465001` and `R1 = 0x120`, the scan of
`restore_fpu` finds these two words as a VFP record at `0xf38` and the copy of
`D[0..31]` reaches `uc_regspace`: the doubleword at `0x1000` becomes `D[24] = 25`. -/
theorem absent_extension_block_noop_counterexample :
    spec_chain ((ucontext_t.zero 0x1000).store mem_chain_into_regs) 0x1200 VFP_MAGIC [0x1000]
      0x1000 0xf38 ∧
    spec_chain_end ((ucontext_t.zero 0x1000).store mem_chain_into_regs) 0x1200 0xf38 ∧
    ld64 ((ucontext_t.zero 0x1000).store mem_chain_into_regs) 0x1000 = 0xffffff3800000001 ∧
    ∃ h1 m1, restore_context 2 ctx_magic_in_r0 (ucontext_t.zero 0x1000) mem_chain_into_regs
        = some (h1, m1) ∧
      ld64 m1 0x1000 = 25 := by
  have hmc : ∀ c : CONTEXT, (restore_context_regs c (ucontext_t.zero 0x1000)).mcontext
      = 0xf2c := by
    intro c
    unfold ucontext_t.mcontext
    rw [restore_context_regs_regspace]
    rfl
  have hmc0 : (ucontext_t.zero 0x1000).mcontext = 0xf2c := by decide
  have hap : (ucontext_t.zero 0x1000).apart 0x1000 8 := by
    intro i hi j hj
    unfold UC_MCONTEXT_WORDS_SIZE at hj
    rw [hmc0]
    omega
  have hrs := restore_context_regs_regspace ctx_magic_in_r0 (ucontext_t.zero 0x1000)
  obtain ⟨e1, e2⟩ := ucontext_t.ld32_header_store (ucontext_t.zero 0x1000)
    (ucontext_t.zero 0x1000) mem_chain_into_regs 0x1000 rfl hap
  obtain ⟨f1, f2⟩ := ucontext_t.ld32_header_store (ucontext_t.zero 0x1000)
    (restore_context_regs ctx_magic_in_r0 (ucontext_t.zero 0x1000)) mem_chain_into_regs 0x1000
    hrs hap
  have v1 : ld32 mem_chain_into_regs 0x1000 = 1 := by decide
  have v2 : ld32 mem_chain_into_regs (0x1000 + 4) = 0xffffff38 := by decide
  have z0 := ucontext_t.ld32_store (ucontext_t.zero 0x1000) mem_chain_into_regs 12 0
    (by simp [ucontext_t.words, ucontext_t.zero])
  rw [hmc0] at z0
  have r0 := ucontext_t.ld32_store (restore_context_regs ctx_magic_in_r0 (ucontext_t.zero 0x1000))
    mem_chain_into_regs 12 0x56465001 (by
      have : (restore_context_regs ctx_magic_in_r0 (ucontext_t.zero 0x1000)).arm_r0
          = 0x56465001 := by decide
      rw [← this]
      simp [ucontext_t.words])
  have r1 := ucontext_t.ld32_store (restore_context_regs ctx_magic_in_r0 (ucontext_t.zero 0x1000))
    mem_chain_into_regs 16 0x120 (by
      have : (restore_context_regs ctx_magic_in_r0 (ucontext_t.zero 0x1000)).arm_r1
          = 0x120 := by decide
      rw [← this]
      simp [ucontext_t.words])
  rw [hmc] at r0 r1
  refine ⟨?_, ?_, ?_, ?_⟩
  · rw [spec_chain_single, e1, e2, v1, v2]
    decide
  · right; left
    exact z0
  · have : ld64 ((ucontext_t.zero 0x1000).store mem_chain_into_regs) 0x1000
        = ld64 mem_chain_into_regs 0x1000 := by
      apply ldN_congr
      intro k hk
      exact ucontext_t.store_apart _ _ _
        (ucontext_t.apart_mono _ _ _ _ 1 hap (by omega) (by omega))
    rw [this]
    decide
  · have hchain1 : spec_chain
        ((restore_context_regs ctx_magic_in_r0 (ucontext_t.zero 0x1000)).store
          mem_chain_into_regs)
        ((restore_context_regs ctx_magic_in_r0 (ucontext_t.zero 0x1000)).uc_regspace
          + UC_REGSPACE_SIZE) VFP_MAGIC [0x1000]
        (restore_context_regs ctx_magic_in_r0 (ucontext_t.zero 0x1000)).uc_regspace 0xf38 := by
      rw [hrs]
      show spec_chain _ 0x1200 VFP_MAGIC [0x1000] 0x1000 0xf38
      rw [spec_chain_single, f1, f2, v1, v2]
      decide
    have hrec1 : spec_chain_record
        ((restore_context_regs ctx_magic_in_r0 (ucontext_t.zero 0x1000)).store
          mem_chain_into_regs)
        ((restore_context_regs ctx_magic_in_r0 (ucontext_t.zero 0x1000)).uc_regspace
          + UC_REGSPACE_SIZE) VFP_MAGIC 0xf38 := by
      rw [hrs]
      unfold spec_chain_record
      rw [show (0xf38 : Nat) = 0xf2c + 12 by rfl, show (0xf2c + 12 + 4 : Nat) = 0xf2c + 16 by rfl,
        r0, r1]
      decide
    obtain ⟨reads1, hl1⟩ := spec_chain_record_scan _ _ VFP_MAGIC [0x1000] _ 0xf38 2 hchain1
      hrec1 (by decide)
    have hscan1 := get_extended_sigcontext_of_loop 2 _ _ VFP_MAGIC 0xf38 reads1 hl1
    have hrest := restore_fpu_eq 2 ctx_magic_in_r0 _ _ 0xf38 hscan1
    rw [if_neg (by decide)] at hrest
    have hrc : restore_context 2 ctx_magic_in_r0 (ucontext_t.zero 0x1000) mem_chain_into_regs
        = some (ucontext_t.load
            (restore_context_regs ctx_magic_in_r0 (ucontext_t.zero 0x1000)).uc_regspace
            (st32 (memcpy_from_D
              ((restore_context_regs ctx_magic_in_r0 (ucontext_t.zero 0x1000)).store
                mem_chain_into_regs) (0xf38 + VFP_FPREGS) ctx_magic_in_r0.D)
              (0xf38 + VFP_FPSCR) ctx_magic_in_r0.Fpscr),
          st32 (memcpy_from_D
            ((restore_context_regs ctx_magic_in_r0 (ucontext_t.zero 0x1000)).store
              mem_chain_into_regs) (0xf38 + VFP_FPREGS) ctx_magic_in_r0.D)
            (0xf38 + VFP_FPSCR) ctx_magic_in_r0.Fpscr) := by
      unfold restore_context
      simp only [hrest]
    exact ⟨_, _, hrc, restore_fpu_mem_D
      ((restore_context_regs ctx_magic_in_r0 (ucontext_t.zero 0x1000)).store
        mem_chain_into_regs) 0xf38 ctx_magic_in_r0 24⟩

/-! ## C17: exception transfer -/

/-- The path of `setup_exception` on which the debugger does not handle the fault,
for a given captured context and a given answer of the debugger. -/
theorem setup_exception_not_handled (env : Env) (fuel : Nat) (context0 : CONTEXT) (h : ucontext_t)
    (record : EXCEPTION_RECORD) (m : Mem) (c c1 : CONTEXT) (status : Nat)
    (hsave : save_context fuel context0 h m = some c)
    (hdbg : env.send_debug_event { record with ExceptionAddress := h.arm_pc } c = (status, c1))
    (hst : ¬ (status = DBG_CONTINUE ∨ status = DBG_EXCEPTION_HANDLED)) :
    ∃ r, setup_exception env fuel context0 h record m = some r ∧
      r.record = { record with ExceptionAddress := h.arm_pc } ∧
      (∃ b, r.stack = some b ∧
        b.stack = env.virtual_setup_exception (h.arm_sp &&& 0xfffffffc)
          (env.sizeof_CONTEXT + env.sizeof_EXCEPTION_RECORD)
          { record with ExceptionAddress := h.arm_pc } ∧
        b.record = { record with ExceptionAddress := h.arm_pc } ∧
        b.context.Pc = c1.Pc ∧ b.context.Sp = c1.Sp ∧ b.context.Lr = c1.Lr ∧
        b.context.Cpsr = c1.Cpsr ∧ b.context.R0 = c1.R0 ∧ b.context.R1 = c1.R1 ∧
        b.context.R2 = c1.R2 ∧ b.context.R3 = c1.R3 ∧ b.context.R4 = c1.R4 ∧
        b.context.R5 = c1.R5 ∧ b.context.R6 = c1.R6 ∧ b.context.R7 = c1.R7 ∧
        b.context.R8 = c1.R8 ∧ b.context.R9 = c1.R9 ∧ b.context.R10 = c1.R10 ∧
        b.context.R11 = c1.R11 ∧ b.context.R12 = c1.R12 ∧
        b.context.ContextFlags = c1.ContextFlags ∧ b.context.Fpscr = c1.Fpscr ∧
        b.context.D = c1.D ∧
        r.sigcontext.arm_sp = b.stack ∧
        r.sigcontext.arm_r0 = (b.stack + env.sizeof_CONTEXT) % 2 ^ 32 ∧
        r.sigcontext.arm_r1 = b.stack) ∧
      r.sigcontext.arm_pc = env.raise_func_trampoline ∧
      r.sigcontext.arm_r2 = env.pKiUserExceptionDispatcher ∧
      r.sigcontext.arm_lr = c1.Pc ∧
      (r.sigcontext.arm_cpsr &&& 0x20 ≠ 0 ↔ env.raise_func_trampoline &&& 1 ≠ 0) ∧
      (∀ i, i ≠ 5 → r.sigcontext.arm_cpsr.testBit i = h.arm_cpsr.testBit i ∨
        (32 ≤ i ∧ r.sigcontext.arm_cpsr.testBit i = false)) ∧
      r.sigcontext.arm_r3 = h.arm_r3 ∧ r.sigcontext.arm_r4 = h.arm_r4 ∧
      r.sigcontext.arm_r5 = h.arm_r5 ∧ r.sigcontext.arm_r6 = h.arm_r6 ∧
      r.sigcontext.arm_r7 = h.arm_r7 ∧ r.sigcontext.arm_r8 = h.arm_r8 ∧
      r.sigcontext.arm_r9 = h.arm_r9 ∧ r.sigcontext.arm_r10 = h.arm_r10 ∧
      r.sigcontext.arm_fp = h.arm_fp ∧ r.sigcontext.arm_ip = h.arm_ip ∧
      r.sigcontext.uc_regspace = h.uc_regspace := by
  cases hr : setup_exception env fuel context0 h record m with
  | none =>
    unfold setup_exception at hr
    simp [hsave, hdbg, hst] at hr
  | some r0 =>
  unfold setup_exception at hr
  simp only [hsave, hdbg, if_neg hst, Option.some.injEq] at hr
  subst hr
  refine ⟨_, rfl, rfl, ⟨_, rfl, rfl, rfl, rfl, rfl, rfl, rfl, rfl, rfl, rfl, rfl, rfl, rfl, rfl,
    rfl, rfl, rfl, rfl, rfl, rfl, rfl, rfl, rfl, ?_, ?_, ?_⟩, ?_⟩
  · split <;> rfl
  · split <;> rfl
  · split <;> rfl
  · refine ⟨?_, ?_, ?_, ?_, ?_, ?_, ?_, ?_, ?_, ?_, ?_, ?_, ?_, ?_, ?_, ?_⟩
    case refine_4 =>
      by_cases ht : env.raise_func_trampoline &&& 1 ≠ 0
      · simp only [if_pos ht]
        exact ⟨fun _ => ht, fun _ => thumb_set _⟩
      · simp only [if_neg ht]
        exact ⟨fun hh => absurd (thumb_clear_any _) hh, fun hh => absurd hh ht⟩
    case refine_5 =>
      intro i hi
      by_cases ht : env.raise_func_trampoline &&& 1 ≠ 0
      · simp only [if_pos ht]
        left
        rw [show (0x20 : Nat) = 2 ^ 5 by decide, Nat.testBit_or, Nat.testBit_two_pow]
        simp [Ne.symm hi]
      · simp only [if_neg ht]
        have hm : (0xffffffdf : Nat) = (2 ^ 32 - 1) ^^^ 2 ^ 5 := by decide
        rw [hm, Nat.testBit_and, Nat.testBit_xor, Nat.testBit_two_pow_sub_one,
          Nat.testBit_two_pow]
        by_cases h32 : i < 32
        · left
          simp [h32, Ne.symm hi]
        · right
          exact ⟨by omega, by simp [h32, Ne.symm hi]⟩
    all_goals first | rfl | (split <;> rfl)

/-- C17 (as amended): for a host context whose chain scan terminates, when the
debugger reports neither `DBG_CONTINUE` nor `DBG_EXCEPTION_HANDLED`,
`setup_exception` returns; it sets `ExceptionAddress` to the host pc, builds the
transfer block at the address that `virtual_setup_exception` returns for the
4-byte-aligned host sp, holding the record and the captured context as the
debugger left it, and rewrites the host context: `sp` = the block, `pc` =
`raise_func_trampoline`, `r0` = address of the record copy (after the context copy),
`r1` = address of the context copy, `r2` = the exception dispatcher, `lr` = the `Pc`
of the captured context, bit 0x20 of cpsr set if and only if the trampoline address
is odd; `r3`-`r10`, `fp`, `ip` and the other bits of cpsr are unchanged. -/
theorem setup_exception_transfer (env : Env) (fuel : Nat) (context0 : CONTEXT) (h : ucontext_t)
    (record : EXCEPTION_RECORD) (m : Mem) (frame : Nat)
    (hscan : get_extended_sigcontext fuel m h VFP_MAGIC = some frame)
    (hst : ∀ c, save_context fuel context0 h m = some c →
      ¬ ((env.send_debug_event { record with ExceptionAddress := h.arm_pc } c).1 = DBG_CONTINUE ∨
         (env.send_debug_event { record with ExceptionAddress := h.arm_pc } c).1
           = DBG_EXCEPTION_HANDLED)) :
    ∃ c c1 r, save_context fuel context0 h m = some c ∧
      c1 = (env.send_debug_event { record with ExceptionAddress := h.arm_pc } c).2 ∧
      setup_exception env fuel context0 h record m = some r ∧
      r.record = { record with ExceptionAddress := h.arm_pc } ∧
      (∃ b, r.stack = some b ∧
        b.stack = env.virtual_setup_exception (h.arm_sp &&& 0xfffffffc)
          (env.sizeof_CONTEXT + env.sizeof_EXCEPTION_RECORD)
          { record with ExceptionAddress := h.arm_pc } ∧
        b.record = { record with ExceptionAddress := h.arm_pc } ∧
        b.context.Pc = c1.Pc ∧ b.context.Sp = c1.Sp ∧ b.context.Lr = c1.Lr ∧
        b.context.Cpsr = c1.Cpsr ∧ b.context.R0 = c1.R0 ∧ b.context.R1 = c1.R1 ∧
        b.context.R2 = c1.R2 ∧ b.context.R3 = c1.R3 ∧ b.context.R4 = c1.R4 ∧
        b.context.R5 = c1.R5 ∧ b.context.R6 = c1.R6 ∧ b.context.R7 = c1.R7 ∧
        b.context.R8 = c1.R8 ∧ b.context.R9 = c1.R9 ∧ b.context.R10 = c1.R10 ∧
        b.context.R11 = c1.R11 ∧ b.context.R12 = c1.R12 ∧
        b.context.ContextFlags = c1.ContextFlags ∧ b.context.Fpscr = c1.Fpscr ∧
        b.context.D = c1.D ∧
        r.sigcontext.arm_sp = b.stack ∧
        r.sigcontext.arm_r0 = (b.stack + env.sizeof_CONTEXT) % 2 ^ 32 ∧
        r.sigcontext.arm_r1 = b.stack) ∧
      r.sigcontext.arm_pc = env.raise_func_trampoline ∧
      r.sigcontext.arm_r2 = env.pKiUserExceptionDispatcher ∧
      r.sigcontext.arm_lr = c1.Pc ∧
      (r.sigcontext.arm_cpsr &&& 0x20 ≠ 0 ↔ env.raise_func_trampoline &&& 1 ≠ 0) ∧
      (∀ i, i ≠ 5 → r.sigcontext.arm_cpsr.testBit i = h.arm_cpsr.testBit i ∨
        (32 ≤ i ∧ r.sigcontext.arm_cpsr.testBit i = false)) ∧
      r.sigcontext.arm_r3 = h.arm_r3 ∧ r.sigcontext.arm_r4 = h.arm_r4 ∧
      r.sigcontext.arm_r5 = h.arm_r5 ∧ r.sigcontext.arm_r6 = h.arm_r6 ∧
      r.sigcontext.arm_r7 = h.arm_r7 ∧ r.sigcontext.arm_r8 = h.arm_r8 ∧
      r.sigcontext.arm_r9 = h.arm_r9 ∧ r.sigcontext.arm_r10 = h.arm_r10 ∧
      r.sigcontext.arm_fp = h.arm_fp ∧ r.sigcontext.arm_ip = h.arm_ip ∧
      r.sigcontext.uc_regspace = h.uc_regspace := by
  have hsave := save_context_eq fuel context0 h m frame hscan
  obtain ⟨r, hr⟩ := setup_exception_not_handled env fuel context0 h record m _
    (env.send_debug_event { record with ExceptionAddress := h.arm_pc } _).2
    (env.send_debug_event { record with ExceptionAddress := h.arm_pc } _).1 hsave rfl
    (hst _ hsave)
  exact ⟨_, _, r, hsave, rfl, hr⟩

/-- Witness for C17: a Thumb fault at pc `0x8000` with `sp = 0x20000` that no
debugger handles. -/
theorem setup_exception_transfer_witness :
    ∃ r, setup_exception Env.unhandled 1 CONTEXT.zero uc_thumb EXCEPTION_RECORD.zero
        (fun _ => 0) = some r ∧
      r.record.ExceptionAddress = 0x8000 ∧
      r.sigcontext.arm_pc = 0x70000101 ∧ r.sigcontext.arm_lr = 0x8001 ∧
      r.sigcontext.arm_r2 = 0x7b000001 := by
  obtain ⟨c, c1, r, hs, hc1, hr, hrec, _, hpc, hr2, hlr, _⟩ :=
    setup_exception_transfer Env.unhandled 1 CONTEXT.zero uc_thumb EXCEPTION_RECORD.zero
      (fun _ => 0) 0 (by decide)
      (by
        intro c _
        show ¬ ((0 : Nat) = DBG_CONTINUE ∨ (0 : Nat) = DBG_EXCEPTION_HANDLED)
        decide)
  have hs0 := save_context_eq 1 CONTEXT.zero uc_thumb (fun _ => 0) 0 (by decide)
  rw [if_pos rfl] at hs0
  rw [hs0] at hs
  have hc := Option.some.inj hs
  refine ⟨r, hr, by rw [hrec]; rfl, hpc, ?_, hr2⟩
  rw [hlr, hc1, ← hc]
  rfl

/-- Counterexample to C17 as stated: the sample environment never reports that the
fault was handled, and on the host context whose chain has a record whose size wraps
the pointer back to the first record `setup_exception` does not return, whatever the
fuel. -/
theorem setup_exception_transfer_counterexample :
    (∀ record c, (Env.unhandled.send_debug_event record c).1 ≠ DBG_CONTINUE ∧
      (Env.unhandled.send_debug_event record c).1 ≠ DBG_EXCEPTION_HANDLED) ∧
    ∀ fuel, setup_exception Env.unhandled fuel CONTEXT.zero (ucontext_t.zero 0x1000)
      EXCEPTION_RECORD.zero mem_cycle = none := by
  constructor
  · intro record c
    constructor <;>
      (show (0 : Nat) ≠ _; decide)
  · intro fuel
    have hscan : get_extended_sigcontext fuel mem_cycle (ucontext_t.zero 0x1000) VFP_MAGIC
        = none := by
      unfold get_extended_sigcontext
      have h := (get_extended_sigcontext_loop_cycle fuel).1
      have e : (ucontext_t.zero 0x1000).uc_regspace + UC_REGSPACE_SIZE = 0x1200 := rfl
      have e0 : (ucontext_t.zero 0x1000).uc_regspace = 0x1000 := rfl
      rw [e, e0, h]
      rfl
    unfold setup_exception save_context save_fpu
    rw [hscan]

end SignalArm
